import Mathlib

/-!
# VIC `runoff.c` : soil-column water balance

A shallow embedding of `runoff()` (src/runoff.c).  C `double` values are
modelled as elements of an arbitrary linearly ordered field `R` (exact
arithmetic, no rounding); the definitions are computable and can be evaluated
at `R = ℚ`, and instantiated at `R = ℝ` with `Real.rpow` for the analytic
facts.  The C library function `pow` is not part of the repository: it is
the parameter `pw` of every definition that calls it.  Heap arrays are
functions on indices, written with functional update.  The diagnostic
`debug` writes and the final thermal recomputation (which only writes the
`kappa`/`Cs` fields and the energy structure through two external
collaborators) are not part of the water balance and are left out.
-/

namespace VIC

variable {R : Type} [LinearOrderedField R]

/-! ## Data model -/

/-- Global model options read by `runoff()` (`options` in the source). -/
structure option_struct where
  FULL_ENERGY : Bool
  FROZEN_SOIL : Bool
  DIST_PRCP : Bool
  Nlayer : Nat

/-- Soil parameters read by `runoff()` (the fields of `soil_con` it uses). -/
structure soil_con_struct (R : Type) where
  Ksat : Nat → R
  max_moist : Nat → R
  resid_moist : Nat → R
  depth : Nat → R
  expt : Nat → R
  b_infilt : R
  Ds : R
  Dsmax : R
  Ws : R
  c : R

/-- Per-layer state read and written by `runoff()`. -/
structure layer_data_struct (R : Type) where
  moist_thaw : R
  moist_froz : R
  moist : R
  ice : R
  evap : R
  tdepth : R
  fdepth : R

/-- The three fatal messages handed to `vicerror` (lines 167-183). -/
inductive vicerror_msg where
  | thawed_negative (lindex : Nat)
  | frozen_negative (lindex : Nat)
  | unfrozen_negative (lindex : Nat)
  deriving DecidableEq, Repr

/-- Functional update of a one-index array. -/
def set1 {α : Type} (a : Nat → α) (i : Nat) (v : α) : Nat → α :=
  fun p => if p = i then v else a p

/-- Functional update of a `[layer][sublayer]` array. -/
def set2 {α : Type} (a : Nat → Nat → α) (i j : Nat) (v : α) : Nat → Nat → α :=
  fun p q => if p = i ∧ q = j then v else a p q

/-! ## Sublayer state builder (lines 102-106, 144-193) -/

/-- Residual moisture per layer, lines 103-106. -/
def resid_moist_of (opts : option_struct) (soil : soil_con_struct R) (i : Nat) : R :=
  if opts.FULL_ENERGY then soil.resid_moist i * soil.depth i * 1000 else 0

/-- Thickness fractions `sublayer[lindex][sub]`, lines 158-165. -/
def sublayer_of (soil : soil_con_struct R) (layer : Nat → layer_data_struct R)
    (lindex sub : Nat) : R :=
  match sub with
  | 0 => (layer lindex).tdepth / soil.depth lindex
  | 1 => ((layer lindex).fdepth - (layer lindex).tdepth) / soil.depth lindex
  | 2 => (soil.depth lindex - (layer lindex).fdepth) / soil.depth lindex
  | _ => 0

/-- Initial `submoist[lindex][sub]`, lines 166, 172, 178 with the clamp of the
frozen slot at lines 190-191. -/
def submoist_of (soil : soil_con_struct R) (layer : Nat → layer_data_struct R)
    (lindex sub : Nat) : R :=
  match sub with
  | 0 => (layer lindex).moist_thaw
  | 1 => if (layer lindex).moist_froz > soil.max_moist lindex then soil.max_moist lindex
         else (layer lindex).moist_froz
  | 2 => (layer lindex).moist
  | _ => 0

/-- Ice content `subice[lindex][sub]`, lines 184-186. -/
def subice_of (layer : Nat → layer_data_struct R) (lindex sub : Nat) : R :=
  match sub with
  | 1 => (layer lindex).ice
  | _ => 0

/-- Capacity `submax_moist[lindex][sub]`, lines 187-189. -/
def submax_moist_of (soil : soil_con_struct R) (lindex _sub : Nat) : R :=
  soil.max_moist lindex

/-- The negative-moisture tests of one pass of the initialisation loop, in
source order (lines 167, 173, 179); `none` when the pass reports nothing. -/
def check_layer (layer : Nat → layer_data_struct R) (lindex : Nat) : Option vicerror_msg :=
  if (layer lindex).moist_thaw < 0 then some (vicerror_msg.thawed_negative lindex)
  else if (layer lindex).moist_froz < 0 then some (vicerror_msg.frozen_negative lindex)
  else if (layer lindex).moist < 0 then some (vicerror_msg.unfrozen_negative lindex)
  else none

/-- The initialisation loop `for(lindex=0;lindex<options.Nlayer;lindex++)` as far as
`vicerror` is concerned: the first failing test aborts the run. -/
def check_layers (layer : Nat → layer_data_struct R) : List Nat → Except vicerror_msg Unit
  | [] => Except.ok ()
  | lindex :: rest =>
    match check_layer layer lindex with
    | some e => Except.error e
    | none => check_layers layer rest

/-! ## Surface infiltration calculator (lines 198-249) -/

/-- Accumulation of `top_moist` (lines 198-215), the value before the clip of line 216. -/
def top_moist_sum (opts : option_struct) (submoist subice sublayer : Nat → Nat → R) : R :=
  if opts.Nlayer > 2 then
    [0, 1, 2].foldl
      (fun acc sub => acc + (submoist 0 sub + subice 0 sub) * sublayer 0 sub
        + (submoist 1 sub + subice 1 sub) * sublayer 0 sub) 0
  else
    [0, 1, 2].foldl (fun acc sub => acc + (submoist 0 sub + subice 0 sub) * sublayer 0 sub) 0

/-- Accumulation of `top_max_moist` (lines 199-215). -/
def top_max_moist_of (opts : option_struct) (submax_moist sublayer : Nat → Nat → R) : R :=
  if opts.Nlayer > 2 then
    [0, 1, 2].foldl
      (fun acc sub => acc + submax_moist 0 sub * sublayer 0 sub
        + submax_moist 1 sub * sublayer 0 sub) 0
  else
    [0, 1, 2].foldl (fun acc sub => acc + submax_moist 0 sub * sublayer 0 sub) 0

/-- The aggregate upper-zone moisture after the clip of line 216. -/
def top_moist_of (opts : option_struct) (submoist subice submax_moist sublayer : Nat → Nat → R) : R :=
  if top_moist_sum opts submoist subice sublayer > top_max_moist_of opts submax_moist sublayer
  then top_max_moist_of opts submax_moist sublayer
  else top_moist_sum opts submoist subice sublayer

/-- Surface runoff, lines 228-249 (Wood et al. eq. 3a/3b and the floor at zero). -/
def surface_runoff (pw : R → R → R) (b_infilt inflow top_moist top_max_moist : R) : R :=
  let max_infil := (1 + b_infilt) * top_max_moist
  let ex := b_infilt / (1 + b_infilt)
  let A := 1 - pw (1 - top_moist / top_max_moist) ex
  let i_0 := max_infil * (1 - pw (1 - A) (1 / b_infilt))
  let r :=
    if inflow = 0 then 0
    else if max_infil = 0 then inflow
    else if i_0 + inflow > max_infil then inflow - top_max_moist + top_moist
    else
      let basis := 1 - (i_0 + inflow) / max_infil
      inflow - top_max_moist + top_moist + top_max_moist * pw basis (1 * (1 + b_infilt))
  if r < 0 then 0 else r

/-! ## Vertical flux integrator (lines 255-472) -/

/-- The per-branch quantities that stay fixed during the hourly loop: the options,
the soil parameters, the arrays filled by the state builder that are never written
again, the sub-step count `dt` and the per-sub-step shares of lines 255-256. -/
structure col_env (R : Type) where
  opts : option_struct
  soil : soil_con_struct R
  resid_moist : Nat → R
  Ksat : Nat → R
  sublayer : Nat → Nat → R
  subice : Nat → Nat → R
  submax_moist : Nat → Nat → R
  dt : Int
  dt_inflow : R
  dt_runoff : R

/-- The variables that change during the hourly loop. -/
structure flux_state (R : Type) where
  layer : Nat → layer_data_struct R
  submoist : Nat → Nat → R
  Q12 : Nat → Nat → R
  froz_solid : Nat → Bool
  last_layer : Nat → Nat
  last_sub : Nat → Nat
  last_cnt : Nat
  last_index : Nat
  firstlayer : Bool
  inflow : R
  runoff : R
  dt_outflow : R

/-- Body of the conductivity pass for one `[lindex][sub]`, lines 266-317.
`options.Nlayer-1` is a natural-number subtraction: the body only runs with
`lindex < options.Nlayer`, where it agrees with the C `int` expression. -/
def cond_slot (pw : R → R → R) (env : col_env R) (st : flux_state R) (lindex sub : Nat) :
    flux_state R :=
  if env.sublayer lindex sub > 0 ∧
      (lindex ≠ env.opts.Nlayer - 1 ∨ (lindex = env.opts.Nlayer - 1 ∧ sub ≠ 2)) then
    let fs0 := set1 st.froz_solid st.last_cnt false
    let tmp_moist :=
      if st.submoist lindex sub - (st.layer lindex).evap < env.resid_moist lindex
      then env.resid_moist lindex
      else st.submoist lindex sub - (st.layer lindex).evap
    let st1 : flux_state R :=
      if env.opts.FROZEN_SOIL = true ∧ sub = 1 ∧
          env.submax_moist lindex sub / (env.soil.depth lindex * 1000) < 13 / 100 ∧
          env.sublayer lindex 1 * env.soil.depth lindex > 5 / 100 then
        let q0 := set2 st.Q12 lindex sub 0
        { st with
          Q12 := if st.last_cnt > 0
                 then set2 q0 (st.last_layer (st.last_cnt - 1)) (st.last_sub (st.last_cnt - 1)) 0
                 else q0
          froz_solid := set1 fs0 st.last_cnt true }
      else if env.opts.FROZEN_SOIL = true then
        if sub = 1 then
          { st with
            Q12 := set2 st.Q12 lindex sub
              (env.Ksat lindex * pw (tmp_moist / env.soil.max_moist lindex) (env.soil.expt lindex))
            froz_solid := fs0 }
        else
          { st with
            Q12 := set2 st.Q12 lindex sub
              (if st.submoist lindex sub ≤ env.resid_moist lindex then 0
               else env.Ksat lindex * pw ((tmp_moist - env.resid_moist lindex)
                      / (env.soil.max_moist lindex - env.resid_moist lindex)) (env.soil.expt lindex))
            froz_solid := fs0 }
      else
        { st with
          Q12 := set2 st.Q12 lindex sub
            (if st.submoist lindex sub > env.resid_moist lindex then
               env.Ksat lindex * pw ((tmp_moist - env.resid_moist lindex)
                 / (env.soil.max_moist lindex - env.resid_moist lindex)) (env.soil.expt lindex)
             else 0)
          froz_solid := fs0 }
    { st1 with
      last_layer := set1 st.last_layer st.last_cnt lindex
      last_sub := set1 st.last_sub st.last_cnt sub
      last_cnt := st.last_cnt + 1 }
  else st

/-- The conductivity pass, lines 263-319. -/
def cond_pass (pw : R → R → R) (env : col_env R) (st : flux_state R) : flux_state R :=
  (List.range env.opts.Nlayer).foldl
    (fun s lindex => [0, 1, 2].foldl (fun s2 sub => cond_slot pw env s2 lindex sub) s) st

/-- The upward walk `while(tmp_index>0 && ...)` of lines 400-420, started at
`tmp_index`; returns the final `tmp_index` and the state. -/
def push_up (env : col_env R) : Nat → flux_state R → Nat × flux_state R
  | 0, st => (0, st)
  | t + 1, st =>
    let a := st.last_layer (t + 1)
    let b := st.last_sub (t + 1)
    let c := st.last_layer t
    if st.submoist a b + env.subice a b > env.submax_moist a b then
      let q := set2 st.Q12 c b
        (st.Q12 c b - (st.submoist a b + env.subice a b - env.submax_moist a b)
          * env.sublayer a b / env.sublayer c b)
      let m1 := set2 st.submoist c b
        (st.submoist c b + (st.submoist a b + env.subice a b - env.submax_moist a b)
          * env.sublayer a b / env.sublayer c b)
      let m2 := set2 m1 a b (env.submax_moist a b - env.subice a b)
      push_up env t { st with Q12 := q, submoist := m2 }
    else (t + 1, st)

/-- Lines 399-433: the upward walk followed by the test at the top of the column. -/
def redistribute_up (env : col_env R) (st : flux_state R) : flux_state R :=
  let r := push_up env st.last_index st
  let st1 := r.2
  let a := st1.last_layer r.1
  let b := st1.last_sub r.1
  if r.1 = 0 ∧ st1.submoist a b + env.subice a b > env.submax_moist a b then
    { st1 with
      runoff := st1.runoff
        + (st1.submoist a b + env.subice a b - env.submax_moist a b) * env.sublayer a b
      submoist := set2 st1.submoist a b (env.submax_moist a b - env.subice a b) }
  else st1

/-- Lines 360-363 and 384-386: the new moisture of the slot, before any check.  The
first active slot of the column loses the sub-step share of the surface runoff. -/
def advance_moist (env : col_env R) (st : flux_state R) (lindex sub : Nat) : R :=
  if st.firstlayer = true then
    st.submoist lindex sub + st.inflow / env.sublayer lindex sub
      - env.dt_runoff / env.sublayer lindex sub
      - (st.Q12 lindex sub + (st.layer lindex).evap / (env.dt : R))
  else
    st.submoist lindex sub + st.inflow / env.sublayer lindex sub
      - (st.Q12 lindex sub + (st.layer lindex).evap / (env.dt : R))

/-- Lines 358-435: the moisture update of one slot and the handling of its
saturation excess; returns the state and `tmp_inflow`. -/
def advance_update (env : col_env R) (st : flux_state R) (lindex sub : Nat) :
    flux_state R × R :=
  let m := advance_moist env st lindex sub
  let st1 : flux_state R := { st with submoist := set2 st.submoist lindex sub m }
  if m + env.subice lindex sub > env.submax_moist lindex sub
      ∧ st.froz_solid (st.last_index + 1) = false then
    ({ st1 with
       submoist := set2 st1.submoist lindex sub
         (env.submax_moist lindex sub - env.subice lindex sub) },
     m + env.subice lindex sub - env.submax_moist lindex sub)
  else if m + env.subice lindex sub > env.submax_moist lindex sub
      ∧ st.froz_solid (st.last_index + 1) = true then
    if st.firstlayer = true then
      ({ st1 with
         runoff := st1.runoff
           + (m + env.subice lindex sub - env.submax_moist lindex sub) * env.sublayer lindex sub
         submoist := set2 st1.submoist lindex sub
           (env.submax_moist lindex sub - env.subice lindex sub) }, 0)
    else (redistribute_up env st1, 0)
  else (st1, 0)

/-- The threshold check of lines 440-446: moisture (with ice) below the residual
value is raised to it, the shortfall being taken from the slot's own `Q12`. -/
def residual_floor (env : col_env R) (st : flux_state R) (lindex sub : Nat) : flux_state R :=
  if st.submoist lindex sub + env.subice lindex sub < env.resid_moist lindex then
    { st with
      Q12 := set2 st.Q12 lindex sub
        (st.Q12 lindex sub + (st.submoist lindex sub - env.resid_moist lindex))
      submoist := set2 st.submoist lindex sub (env.resid_moist lindex) }
  else st

/-- Lines 448-451: the flux handed to the next slot, the bookkeeping of `Q12` and the
step of `last_index`. -/
def hand_down (env : col_env R) (st : flux_state R) (lindex sub : Nat) (tmp_inflow : R) :
    flux_state R :=
  { st with
    inflow := (st.Q12 lindex sub + tmp_inflow) * env.sublayer lindex sub
    Q12 := set2 st.Q12 lindex sub (st.Q12 lindex sub + tmp_inflow)
    last_index := st.last_index + 1 }

/-- Body of the advance pass for one `[lindex][sub]`, lines 352-453. -/
def advance_slot (env : col_env R) (st : flux_state R) (lindex sub : Nat) : flux_state R :=
  if env.sublayer lindex sub > 0 ∧ ¬ (lindex = env.opts.Nlayer - 1 ∧ sub = 2) then
    hand_down env
      (residual_floor env { (advance_update env st lindex sub).1 with firstlayer := false }
        lindex sub)
      lindex sub (advance_update env st lindex sub).2
  else st

/-- State writeback of one layer, lines 456-466. -/
def writeback (env : col_env R) (st : flux_state R) (lindex : Nat) : flux_state R :=
  { st with
    layer := set1 st.layer lindex
      { st.layer lindex with
        moist_thaw := if env.sublayer lindex 0 > 0 then st.submoist lindex 0 else 0
        moist_froz := if env.sublayer lindex 1 > 0 then st.submoist lindex 1 else 0
        moist := if env.sublayer lindex 2 > 0 then st.submoist lindex 2 else 0 } }

/-- Body of the layer loop of the advance pass, lines 329-468. -/
def advance_layer (env : col_env R) (st : flux_state R) (lindex : Nat) : flux_state R :=
  writeback env ([0, 1, 2].foldl (fun s sub => advance_slot env s lindex sub) st) lindex

/-- The advance pass, lines 327-468. -/
def advance_pass (env : col_env R) (st : flux_state R) : flux_state R :=
  (List.range env.opts.Nlayer).foldl (advance_layer env)
    { st with firstlayer := true, last_index := 0 }

/-- One pass of the hourly loop, lines 260-469. -/
def time_step (pw : R → R → R) (env : col_env R) (st : flux_state R) : flux_state R :=
  let st1 := cond_pass pw env { st with inflow := env.dt_inflow, last_cnt := 0 }
  let st2 := advance_pass env st1
  { st2 with dt_outflow := st2.dt_outflow + st2.inflow }

/-- The hourly loop `for (time_step = 0; time_step < dt; time_step++)`, run `n` times. -/
def time_loop (pw : R → R → R) (env : col_env R) : Nat → flux_state R → flux_state R
  | 0, st => st
  | n + 1, st => time_loop pw env n (time_step pw env st)

/-! ## Baseflow generator (lines 480-519) -/

/-- ARNO drainage of the bottom layer before the bound checks, lines 481-493. -/
def arno_baseflow (pw : R → R → R) (soil : soil_con_struct R) (dt : Int) (lindex : Nat)
    (moist : R) : R :=
  let Dsmax := soil.Dsmax * (dt : R) / 24
  let frac := soil.Ds * Dsmax / (soil.Ws * soil.max_moist lindex)
  let baseflow := frac * moist
  if moist > soil.Ws * soil.max_moist lindex then
    let frac2 := (moist - soil.Ws * soil.max_moist lindex)
      / (soil.max_moist lindex - soil.Ws * soil.max_moist lindex)
    baseflow + (Dsmax - soil.Ds * Dsmax / soil.Ws) * pw frac2 soil.c
  else baseflow

/-- Bottom-layer update and bound checks, lines 497-515: from the moisture of the
bottom unfrozen slot, the drainage and the integrated inflow to the final
moisture and the baseflow before the scaling of line 519.  The quotient of line 497
is the quotient of the field, which is the program's quotient whenever the thickness
fraction `env.sublayer lindex 2` is not zero.  The source has no guard on that line:
at a zero fraction the program divides by zero (the defect of claim C18), a
value a field does not have, so what is proved below about the moisture and the
baseflow that a branch leaves in the bottom layer is stated for a positive fraction. -/
def bottom_update (env : col_env R) (lindex : Nat) (evap moist baseflow inflow : R) : R × R :=
  let m1 := moist + (inflow / env.sublayer lindex 2 - evap - baseflow)
  let r1 : R × R :=
    if m1 + env.subice lindex 2 < env.resid_moist lindex then
      let b1 := baseflow + (m1 - env.resid_moist lindex)
      if b1 < 0 then (env.resid_moist lindex + b1, 0) else (env.resid_moist lindex, b1)
    else (m1, baseflow)
  if r1.1 + env.subice lindex 2 > env.submax_moist lindex 2 then
    (env.submax_moist lindex 2 - env.subice lindex 2,
     r1.2 + (r1.1 + env.subice lindex 2 - env.submax_moist lindex 2))
  else r1

/-! ## One distribution branch and the whole call -/

/-- What one distribution branch leaves behind: the layer array and the two outputs. -/
structure branch_result (R : Type) where
  layer : Nat → layer_data_struct R
  runoff : R
  baseflow : R

/-- The environment of a branch: the arrays of the state builder together with the
surface runoff of lines 228-249 divided into sub-step shares (lines 255-256). -/
def branch_env (pw : R → R → R) (opts : option_struct) (soil : soil_con_struct R)
    (layer : Nat → layer_data_struct R) (inflow : R) (dt : Int) : col_env R :=
  { opts := opts
    soil := soil
    resid_moist := resid_moist_of opts soil
    Ksat := fun lindex => soil.Ksat lindex / 24
    sublayer := sublayer_of soil layer
    subice := subice_of layer
    submax_moist := submax_moist_of soil
    dt := dt
    dt_inflow := inflow / (dt : R)
    dt_runoff :=
      surface_runoff pw soil.b_infilt inflow
        (top_moist_of opts (submoist_of soil layer) (subice_of layer) (submax_moist_of soil)
          (sublayer_of soil layer))
        (top_max_moist_of opts (submax_moist_of soil) (sublayer_of soil layer)) / (dt : R) }

/-- The state at the start of the hourly loop: `calloc`ed arrays are zero, `*runoff`
holds the surface runoff. -/
def branch_init (pw : R → R → R) (opts : option_struct) (soil : soil_con_struct R)
    (layer : Nat → layer_data_struct R) (inflow : R) : flux_state R :=
  { layer := layer
    submoist := submoist_of soil layer
    Q12 := fun _ _ => 0
    froz_solid := fun _ => false
    last_layer := fun _ => 0
    last_sub := fun _ => 0
    last_cnt := 0
    last_index := 0
    firstlayer := true
    inflow := inflow
    runoff :=
      surface_runoff pw soil.b_infilt inflow
        (top_moist_of opts (submoist_of soil layer) (subice_of layer) (submax_moist_of soil)
          (sublayer_of soil layer))
        (top_max_moist_of opts (submax_moist_of soil) (sublayer_of soil layer))
    dt_outflow := 0 }

/-- The body of the `if(mu>0.)` block after the state builder has passed its
checks, lines 195-519. -/
def branch_body (pw : R → R → R) (opts : option_struct) (soil : soil_con_struct R)
    (layer : Nat → layer_data_struct R) (inflow : R) (dt : Int) : branch_result R :=
  let env := branch_env pw opts soil layer inflow dt
  let st := time_loop pw env dt.toNat (branch_init pw opts soil layer inflow)
  let lindex := opts.Nlayer - 1
  let r := bottom_update env lindex (st.layer lindex).evap (st.submoist lindex 2)
    (arno_baseflow pw soil dt lindex (st.submoist lindex 2)) st.dt_outflow
  { layer := set1 st.layer lindex { st.layer lindex with moist := r.1 }
    runoff := st.runoff
    baseflow := r.2 * env.sublayer lindex 2 }

/-- One distribution branch with `mu > 0`: the state builder, which may call
`vicerror`, and then the computation, lines 127-544. -/
def runoff_branch (pw : R → R → R) (opts : option_struct) (soil : soil_con_struct R)
    (layer : Nat → layer_data_struct R) (inflow : R) (dt : Int) :
    Except vicerror_msg (branch_result R) :=
  match check_layers layer (List.range opts.Nlayer) with
  | Except.error e => Except.error e
  | Except.ok _ => Except.ok (branch_body pw opts soil layer inflow dt)

/-- The caller-visible state around a call of `runoff()`: both layer arrays and the
four output cells. -/
structure call_state (R : Type) where
  layer_wet : Nat → layer_data_struct R
  layer_dry : Nat → layer_data_struct R
  runoff_wet : R
  runoff_dry : R
  baseflow_wet : R
  baseflow_dry : R

/-- The water balance of `runoff()`, lines 108-545: the loop over the wet and dry
fractions.  `ppt` is the two-element precipitation array. -/
def runoff (pw : R → R → R) (opts : option_struct) (soil : soil_con_struct R)
    (s : call_state R) (ppt : Nat → R) (mu : R) (dt : Int) :
    Except vicerror_msg (call_state R) :=
  let wet : Except vicerror_msg (call_state R) :=
    if mu > 0 then
      match runoff_branch pw opts soil s.layer_wet (ppt 0) dt with
      | Except.error e => Except.error e
      | Except.ok r =>
        Except.ok { s with layer_wet := r.layer, runoff_wet := r.runoff, baseflow_wet := r.baseflow }
    else Except.ok s
  match wet with
  | Except.error e => Except.error e
  | Except.ok s1 =>
    if opts.DIST_PRCP = true then
      if 1 - mu > 0 then
        match runoff_branch pw opts soil s1.layer_dry (ppt 1) dt with
        | Except.error e => Except.error e
        | Except.ok r =>
          Except.ok { s1 with layer_dry := r.layer, runoff_dry := r.runoff, baseflow_dry := r.baseflow }
      else Except.ok s1
    else Except.ok s1

/-- Exact power with an integral exponent, and the value `x` itself otherwise; it
stands in for `pow` in concrete evaluations whose exponents are whole numbers. -/
def int_pow (x e : ℚ) : ℚ := if e.den = 1 then x ^ e.num else x


/-! ## Concrete inputs used by the closed statements -/

/-- Options with every mode switched off and two layers. -/
def plain_opts : option_struct := ⟨false, false, false, 2⟩

/-- A soil with unit depths, capacity 100 per layer and no drainage at all. -/
def still_soil : soil_con_struct ℚ :=
  { Ksat := fun _ => 0, max_moist := fun _ => 100, resid_moist := fun _ => 0,
    depth := fun _ => 1, expt := fun _ => 1, b_infilt := 1, Ds := 1, Dsmax := 0,
    Ws := 1 / 2, c := 1 }

/-- Two unfrozen layers holding 10 mm each. -/
def plain_layer : Nat → layer_data_struct ℚ := fun _ => ⟨0, 0, 10, 0, 0, 0, 0⟩

/-- A layer array whose thaw front sits at half depth and freeze front at full depth. -/
def thawing_layer : Nat → layer_data_struct ℚ := fun _ => ⟨0, 0, 0, 0, 0, 1 / 2, 1⟩

/-- A layer array whose first layer has negative unfrozen moisture. -/
def negative_layer : Nat → layer_data_struct ℚ := fun _ => ⟨0, 0, -1, 0, 0, 0, 0⟩

/-- A caller state with negative moisture in the wet array and marked output cells. -/
def negative_call : call_state ℚ := ⟨negative_layer, plain_layer, 1, 2, 3, 4⟩

/-- A healthy caller state whose dry output cells hold 5 and 7 before the call. -/
def marked_call : call_state ℚ := ⟨plain_layer, plain_layer, 1, 5, 3, 7⟩

/-- Some layer below `N` has a negative thawed, frozen or unfrozen moisture. -/
def has_negative (layer : Nat → layer_data_struct R) (N : Nat) : Prop :=
  ∃ l, l < N ∧ ((layer l).moist_thaw < 0 ∨ (layer l).moist_froz < 0 ∨ (layer l).moist < 0)

/-- The runoff policy of section 4.2 of the specification, written from its words:
zero inflow gives zero runoff; zero infiltration capacity makes all inflow runoff;
`i0 + inflow > maxInfil` gives `inflow - capacity + moisture`; otherwise the
closed-form integral; the result is floored at zero. -/
def closed_form_4_2 (pw : R → R → R) (inflow moisture capacity b : R) : R :=
  let maxInfil := (1 + b) * capacity
  let A := 1 - pw (1 - moisture / capacity) (b / (1 + b))
  let i0 := maxInfil * (1 - pw (1 - A) (1 / b))
  max 0
    (if inflow = 0 then 0
     else if maxInfil = 0 then inflow
     else if i0 + inflow > maxInfil then inflow - capacity + moisture
     else inflow - capacity + moisture + capacity * pw (1 - (i0 + inflow) / maxInfil) (1 + b))

/-- The piecewise form as the claim on the infiltration calculator words it: no floor
on the zero-capacity case. -/
def claimed_piecewise (pw : R → R → R) (inflow m cap b : R) : R :=
  let maxInfil := (1 + b) * cap
  let A := 1 - pw (1 - m / cap) (b / (1 + b))
  let i0 := maxInfil * (1 - pw (1 - A) (1 / b))
  if inflow = 0 then 0
  else if maxInfil = 0 then inflow
  else if i0 + inflow > maxInfil then max 0 (inflow - cap + m)
  else max 0 (inflow - cap + m + cap * pw (1 - (i0 + inflow) / maxInfil) (1 + b))

/-- Two layers; the first is frozen down to half its depth and its frozen slot holds
150 mm, above the capacity of 100 mm. -/
def overfull_frozen_layer : Nat → layer_data_struct ℚ := fun l =>
  if l = 0 then ⟨0, 150, 10, 0, 0, 0, 1 / 2⟩ else ⟨0, 0, 10, 0, 0, 0, 0⟩

/-- Options of the two-layer scenario of the specification: frozen-soil mode off. -/
def scenario_opts (full_energy dist_prcp : Bool) : option_struct :=
  ⟨full_energy, false, dist_prcp, 2⟩

/-- Soil of the scenario: `b_infilt = 0.3`, maximum moistures 100 and 300, residual
moisture 0, `Ksat` 50 and 20 mm/day; what the scenario leaves open is a parameter. -/
def scenario_soil (depth expt : Nat → R) (Ds Dsmax Ws c : R) : soil_con_struct R :=
  { Ksat := fun l => if l = 0 then 50 else 20
    max_moist := fun l => if l = 0 then 100 else 300
    resid_moist := fun _ => 0
    depth := depth
    expt := expt
    b_infilt := 3 / 10
    Ds := Ds
    Dsmax := Dsmax
    Ws := Ws
    c := c }

/-- Layer state of the scenario: initial moistures 50 and 150, no ice, no fronts, zero
evaporation. -/
def scenario_layer : Nat → layer_data_struct R := fun l =>
  ⟨0, 0, if l = 0 then 50 else 150, 0, 0, 0, 0⟩

/-- Options with full-energy and frozen-soil modes on and three layers. -/
def odd_opts : option_struct := ⟨true, true, false, 3⟩

/-- Three layers of unit depth without any conductivity; the first has a capacity of
10 mm but a residual moisture of 20 mm (fraction 1/50 of a depth of 1 m). -/
def odd_soil : soil_con_struct R :=
  { Ksat := fun _ => 0
    max_moist := fun l => if l = 0 then 10 else if l = 1 then 20 else 100
    resid_moist := fun l => if l = 0 then 1 / 50 else if l = 1 then 1 / 100 else 0
    depth := fun _ => 1
    expt := fun _ => 1
    b_infilt := 1
    Ds := 0
    Dsmax := 0
    Ws := 1 / 2
    c := 1 }

/-- Dry layers: the first fully thawed, the second thawed in its upper half and frozen
below, the third unfrozen. -/
def odd_layer : Nat → layer_data_struct R := fun l =>
  if l = 0 then ⟨0, 0, 0, 0, 0, 1, 1⟩ else if l = 1 then ⟨0, 0, 0, 0, 0, 1 / 2, 1⟩
  else ⟨0, 0, 0, 0, 0, 0, 0⟩

/-- Options with full-energy mode on, frozen-soil mode off and two layers. -/
def energy_opts : option_struct := ⟨true, false, false, 2⟩

/-- Two unfrozen layers holding 10 mm each; the bottom one faces an evaporative
demand of 50 mm. -/
def thirsty_layer : Nat → layer_data_struct ℚ := fun l =>
  if l = 0 then ⟨0, 0, 10, 0, 0, 0, 0⟩ else ⟨0, 0, 10, 0, 50, 0, 0⟩


/-- Options with full-energy and frozen-soil modes on and two layers. -/
def frost_opts : option_struct := ⟨true, true, false, 2⟩

/-- Soil of `still_soil` with a capacity of 200 mm and a residual moisture of 10 mm
(fraction 1/100 of a depth of 1 m) in every layer. -/
def frost_soil : soil_con_struct ℚ :=
  { still_soil with max_moist := fun _ => 200, resid_moist := fun _ => 1 / 100 }

/-- The first layer is frozen over its whole depth and holds 12 mm of liquid water and
8 mm of ice, with an evaporative demand of 6 mm; the second is unfrozen and holds 10 mm. -/
def frost_layer : Nat → layer_data_struct ℚ := fun l =>
  if l = 0 then ⟨0, 12, 0, 8, 6, 0, 1⟩ else ⟨0, 0, 10, 0, 0, 0, 0⟩

/-- The environment of the three-layer column `odd_soil`, `odd_layer` over the rationals,
without inflow and with one sub-step: its second layer is thawed in the upper half and
frozen, and impermeable, in the lower half. -/
def odd_env : col_env ℚ := branch_env int_pow odd_opts odd_soil odd_layer 0 1

/-- The state at the start of the hourly loop for `odd_env`. -/
def odd_start : flux_state ℚ := branch_init int_pow odd_opts odd_soil odd_layer 0

/-- Two layers: the first is frozen over its whole depth, holds 100 mm of liquid water
(its capacity) and 5 mm of ice; the second is unfrozen and holds 10 mm. -/
def lens_layer : Nat → layer_data_struct ℚ := fun l =>
  if l = 0 then ⟨0, 100, 0, 5, 0, 0, 1⟩ else ⟨0, 0, 10, 0, 0, 0, 0⟩

/-- The environment of the column `still_soil`, `lens_layer` in frozen-soil mode, without
inflow and with one sub-step: the frozen slot of the first layer is impermeable. -/
def lens_env : col_env ℚ := branch_env int_pow frost_opts still_soil lens_layer 0 1

/-- The state at the start of the hourly loop for `lens_env`. -/
def lens_start : flux_state ℚ := branch_init int_pow frost_opts still_soil lens_layer 0

/-- Three layers: the first unfrozen with 10 mm, the second thawed over its whole depth
with 30 mm in the thawed slot, the third unfrozen with 10 mm. -/
def split_layer : Nat → layer_data_struct ℚ := fun l =>
  if l = 1 then ⟨30, 0, 0, 0, 0, 1, 1⟩ else ⟨0, 0, 10, 0, 0, 0, 0⟩

/-- Three layers: the first thawed in its upper half (10 mm) and unfrozen below (20 mm);
the second thawed in its upper half with 120 mm, above the capacity of 100 mm, and
frozen below; the third unfrozen with 10 mm. -/
def shifted_layer : Nat → layer_data_struct ℚ := fun l =>
  if l = 0 then ⟨10, 0, 20, 0, 0, 1 / 2, 1 / 2⟩
  else if l = 1 then ⟨120, 0, 0, 0, 0, 1 / 2, 1⟩
  else ⟨0, 0, 10, 0, 0, 0, 0⟩

/-- The environment of the column `still_soil`, `shifted_layer` with three layers in
frozen-soil mode, without inflow. -/
def shifted_env (dt : Int) : col_env ℚ := branch_env int_pow odd_opts still_soil shifted_layer 0 dt

/-- The state at the start of the hourly loop for `shifted_env`. -/
def shifted_start : flux_state ℚ := branch_init int_pow odd_opts still_soil shifted_layer 0

/-- Two layers; the bottom layer is frozen over its whole depth (freeze depth equal to
the layer depth) and holds 10 mm in its frozen slot. -/
def frozen_bottom_layer : Nat → layer_data_struct ℚ := fun l =>
  if l = 0 then ⟨0, 0, 10, 0, 0, 0, 0⟩ else ⟨0, 10, 0, 0, 0, 0, 1⟩

/-- Soil of `still_soil` with a maximum baseflow of 10 mm/day and `Ds = Ws = 1/2`. -/
def draining_soil : soil_con_struct ℚ := { still_soil with Dsmax := 10, Ds := 1 / 2 }

/-- Soil of `still_soil` with a saturated conductivity of 24 mm/day (1 mm per hourly
sub-step), a capacity of 200 mm per layer, a maximum baseflow of 10 mm/day and
`Ds = Ws = 1/2`. -/
def percolating_soil : soil_con_struct ℚ :=
  { still_soil with Ksat := fun _ => 24, max_moist := fun _ => 200, Dsmax := 10, Ds := 1 / 2 }

/-- Two layers: the first is unfrozen and holds 10 mm; the bottom layer is frozen over
its whole depth (freeze depth equal to the layer depth) and holds 50 mm of liquid water
and 20 mm of ice in its frozen slot, nothing in its unfrozen slot. -/
def soaked_frozen_bottom_layer : Nat → layer_data_struct ℚ := fun l =>
  if l = 0 then ⟨0, 0, 10, 0, 0, 0, 0⟩ else ⟨0, 50, 0, 20, 0, 0, 1⟩
/-! ## Vocabulary for the properties of the flux integrator -/

/-- The guard shared by both passes: the slot has positive thickness and is not the
unfrozen slot of the bottom layer (lines 266-268 and 352-353). -/
def active (env : col_env R) (lindex sub : Nat) : Prop :=
  env.sublayer lindex sub > 0 ∧ ¬ (lindex = env.opts.Nlayer - 1 ∧ sub = 2)

/-- The impermeability test of lines 278-281 for the frozen slot of a layer. -/
def impermeable (env : col_env R) (lindex : Nat) : Prop :=
  env.opts.FROZEN_SOIL = true ∧
    env.submax_moist lindex 1 / (env.soil.depth lindex * 1000) < 13 / 100 ∧
    env.sublayer lindex 1 * env.soil.depth lindex > 5 / 100

/-- No active frozen slot of the column meets the impermeability test. -/
def unblocked (env : col_env R) : Prop :=
  ∀ l, l < env.opts.Nlayer → ¬ (active env l 1 ∧ impermeable env l)

/-- No entry of `froz_solid` is set. -/
def quiet (st : flux_state R) : Prop := ∀ i, st.froz_solid i = false

/-- The three moisture fields of a layer, indexed like the sublayer slots. -/
def layer_moist (layer : Nat → layer_data_struct R) (lindex sub : Nat) : R :=
  match sub with
  | 0 => (layer lindex).moist_thaw
  | 1 => (layer lindex).moist_froz
  | 2 => (layer lindex).moist
  | _ => 0

/-- Water held by the first `n` layers: the sum over the layers and their three
sublayers of moisture weighted by the thickness fraction. -/
def column_storage (w m : Nat → Nat → R) : Nat → R
  | 0 => 0
  | n + 1 => column_storage w m n + (w n 0 * m n 0 + w n 1 * m n 1 + w n 2 * m n 2)

instance active_decidable (env : col_env R) (lindex sub : Nat) :
    Decidable (active env lindex sub) := by
  unfold active
  infer_instance

/-- Activity of the slot with linear index `k = 3 * lindex + sub`, the order in which
both passes visit the slots. -/
def active_at (env : col_env R) (k : Nat) : Prop := active env (k / 3) (k % 3)

instance active_at_decidable (env : col_env R) : DecidablePred (active_at env) := fun k => by
  unfold active_at
  infer_instance

/-- Number of active slots visited before the slot with linear index `k`. -/
def slot_position (env : col_env R) (k : Nat) : Nat := Nat.count (active_at env) k

/-- The history arrays hold, in visiting order, exactly the active slots with linear
index below `k`. -/
def history_upto (env : col_env R) (st : flux_state R) (k : Nat) : Prop :=
  st.last_cnt = slot_position env k ∧
    ∀ i, i < st.last_cnt → ∃ j, j < k ∧ active_at env j ∧ slot_position env j = i ∧
      st.last_layer i = j / 3 ∧ st.last_sub i = j % 3

/-! ## Reference single-column integration

Written from the words of the specification (sections 4.2 to 4.4 and 8), not from
the source: one moisture value per layer, no sublayer slots, no thickness
fractions, no ice and no history arrays.  The infiltration curve and the drainage
law are the ones of the program (`surface_runoff`, `arno_baseflow`). -/

/-- Brooks-Corey conductivity of a sub-step in the words of the specification:
`Ksat/24 * ((max(moist - evap, resid) - resid) / (max_moist - resid))^expt`. -/
def claimed_conductivity (pw : R → R → R) (opts : option_struct) (soil : soil_con_struct R)
    (l : Nat) (moist evap : R) : R :=
  soil.Ksat l / 24 *
    pw ((max (moist - evap) (resid_moist_of opts soil l) - resid_moist_of opts soil l)
        / (soil.max_moist l - resid_moist_of opts soil l)) (soil.expt l)

/-- The conductivity of the specification, made zero for a layer whose moisture does
not exceed its residual moisture. -/
def guarded_conductivity (pw : R → R → R) (opts : option_struct) (soil : soil_con_struct R)
    (l : Nat) (moist evap : R) : R :=
  if moist > resid_moist_of opts soil l then claimed_conductivity pw opts soil l moist evap
  else 0

/-- Excess and floor rules for the moisture of a layer: clamp at the maximum, then
raise to the residual value. -/
def settle_moist (max_moist resid m : R) : R :=
  if (if m > max_moist then max_moist else m) < resid then resid
  else (if m > max_moist then max_moist else m)

/-- Excess and floor rules for the flux a layer hands down: the conductivity, less
the shortfall below the residual value, plus the excess above the maximum. -/
def settle_flux (max_moist resid q m : R) : R :=
  (if (if m > max_moist then max_moist else m) < resid
   then q + ((if m > max_moist then max_moist else m) - resid) else q)
    + (if m > max_moist then m - max_moist else 0)

/-- State of the reference integration: the moisture of each layer, the flux handed
to the next layer, whether the next layer processed is the first of the sub-step,
and the outflow accumulated for the bottom layer. -/
structure ref_state (R : Type) where
  moist : Nat → R
  flux : R
  first : Bool
  outflow : R

/-- One layer of a sub-step of the reference integration; `K` is the conductivity
law.  The bottom layer is the baseflow reservoir and is not processed. -/
def ref_layer_step (K : Nat → R → R → R) (opts : option_struct) (soil : soil_con_struct R)
    (evap : Nat → R) (dt : Int) (dt_runoff : R) (s : ref_state R) (l : Nat) : ref_state R :=
  if l = opts.Nlayer - 1 then s
  else
    { moist := set1 s.moist l
        (settle_moist (soil.max_moist l) (resid_moist_of opts soil l)
          (s.moist l + s.flux - (if s.first = true then dt_runoff else 0)
            - (K l (s.moist l) (evap l) + evap l / (dt : R))))
      flux := settle_flux (soil.max_moist l) (resid_moist_of opts soil l)
          (K l (s.moist l) (evap l))
          (s.moist l + s.flux - (if s.first = true then dt_runoff else 0)
            - (K l (s.moist l) (evap l) + evap l / (dt : R)))
      first := false
      outflow := s.outflow }

/-- One sub-step of the reference integration. -/
def ref_time_step (K : Nat → R → R → R) (opts : option_struct) (soil : soil_con_struct R)
    (evap : Nat → R) (dt : Int) (dt_inflow dt_runoff : R) (s : ref_state R) : ref_state R :=
  let s1 := (List.range opts.Nlayer).foldl (ref_layer_step K opts soil evap dt dt_runoff)
    { s with flux := dt_inflow, first := true }
  { s1 with outflow := s1.outflow + s1.flux }

/-- The sub-steps of the reference integration, run `n` times. -/
def ref_time_loop (K : Nat → R → R → R) (opts : option_struct) (soil : soil_con_struct R)
    (evap : Nat → R) (dt : Int) (dt_inflow dt_runoff : R) : Nat → ref_state R → ref_state R
  | 0, s => s
  | n + 1, s =>
    ref_time_loop K opts soil evap dt dt_inflow dt_runoff n
      (ref_time_step K opts soil evap dt dt_inflow dt_runoff s)

/-- Bottom layer of the reference integration: inflow in, evaporation and baseflow
out, a shortfall below the residual value taken from the baseflow (from the moisture
once the baseflow is used up), an excess above the maximum added to the baseflow. -/
def ref_bottom (max_moist resid evap moist baseflow inflow : R) : R × R :=
  let m1 := moist + (inflow - evap - baseflow)
  let r1 : R × R :=
    if m1 < resid then
      if baseflow + (m1 - resid) < 0 then (resid + (baseflow + (m1 - resid)), 0)
      else (resid, baseflow + (m1 - resid))
    else (m1, baseflow)
  if r1.1 > max_moist then (max_moist, r1.2 + (r1.1 - max_moist)) else r1

/-- What the reference integration produces. -/
structure ref_result (R : Type) where
  moist : Nat → R
  runoff : R
  baseflow : R

/-- The reference single-column integration of a time step with conductivity law `K`:
runoff from the infiltration curve on the moisture and capacity of the top one or two
layers, `dt` sub-steps, and the drainage of the bottom layer. -/
def reference_column (K : Nat → R → R → R) (pw : R → R → R) (opts : option_struct)
    (soil : soil_con_struct R) (moist evap : Nat → R) (inflow : R) (dt : Int) : ref_result R :=
  let cap := if opts.Nlayer > 2 then soil.max_moist 0 + soil.max_moist 1 else soil.max_moist 0
  let tot := if opts.Nlayer > 2 then moist 0 + moist 1 else moist 0
  let runoff := surface_runoff pw soil.b_infilt inflow (if tot > cap then cap else tot) cap
  let s := ref_time_loop K opts soil evap dt (inflow / (dt : R)) (runoff / (dt : R)) dt.toNat
    { moist := moist, flux := inflow, first := true, outflow := 0 }
  let b := opts.Nlayer - 1
  let r := ref_bottom (soil.max_moist b) (resid_moist_of opts soil b) (evap b) (s.moist b)
    (arno_baseflow pw soil dt b (s.moist b)) s.outflow
  { moist := set1 s.moist b r.1, runoff := runoff, baseflow := r.2 }

/-- The column has collapsed to one sublayer per layer: frozen-soil mode is off and
every layer has the thickness fractions `0, 0, 1`. -/
def degenerate (env : col_env R) : Prop :=
  env.opts.FROZEN_SOIL = false ∧
    ∀ l, l < env.opts.Nlayer →
      env.sublayer l 0 = 0 ∧ env.sublayer l 1 = 0 ∧ env.sublayer l 2 = 1

/-- The program state `st` and the reference state `s` hold the same column. -/
def tracks (evap : Nat → R) (st : flux_state R) (s : ref_state R) : Prop :=
  quiet st ∧ (∀ l, st.submoist l 2 = s.moist l) ∧ (∀ l, (st.layer l).moist = s.moist l) ∧
    (∀ l, (st.layer l).evap = evap l) ∧ st.dt_outflow = s.outflow

/-- The layers with other values in the fields `moist_thaw`, `moist_froz` and `ice`. -/
def with_frozen_fields (layer : Nat → layer_data_struct R) (a b c : Nat → R) :
    Nat → layer_data_struct R :=
  fun l => { layer l with moist_thaw := a l, moist_froz := b l, ice := c l }

/-- Soil of `still_soil` with a saturated conductivity of 24 mm/day in every layer. -/
def open_soil : soil_con_struct ℚ := { still_soil with Ksat := fun _ => 24 }

/-- Two layers without fronts: the first is dry (moisture 0, the residual value) and
has an evaporative demand of -50 mm (condensation); the second holds 10 mm. -/
def dewy_layer : Nat → layer_data_struct ℚ :=
  fun l => if l = 0 then ⟨0, 0, 0, 0, -50, 0, 0⟩ else ⟨0, 0, 10, 0, 0, 0, 0⟩

/-! ## The aggregate of the upper zone in the words of the specification -/

/-- Aggregate upper-zone moisture before the clip, written from the specification:
every layer that takes part is weighted by its own thickness fractions. -/
def claimed_top_moist_sum (opts : option_struct) (submoist subice sublayer : Nat → Nat → R) : R :=
  if opts.Nlayer > 2 then
    [0, 1, 2].foldl
      (fun acc sub => acc + (submoist 0 sub + subice 0 sub) * sublayer 0 sub
        + (submoist 1 sub + subice 1 sub) * sublayer 1 sub) 0
  else
    [0, 1, 2].foldl (fun acc sub => acc + (submoist 0 sub + subice 0 sub) * sublayer 0 sub) 0

/-- Aggregate upper-zone capacity, written from the specification. -/
def claimed_top_max_moist (opts : option_struct) (submax_moist sublayer : Nat → Nat → R) : R :=
  if opts.Nlayer > 2 then
    [0, 1, 2].foldl
      (fun acc sub => acc + submax_moist 0 sub * sublayer 0 sub
        + submax_moist 1 sub * sublayer 1 sub) 0
  else
    [0, 1, 2].foldl (fun acc sub => acc + submax_moist 0 sub * sublayer 0 sub) 0

/-- Aggregate upper-zone moisture of the specification: the sum clipped to the capacity. -/
def claimed_top_moist (opts : option_struct) (submoist subice submax_moist sublayer : Nat → Nat → R) :
    R :=
  min (claimed_top_max_moist opts submax_moist sublayer)
    (claimed_top_moist_sum opts submoist subice sublayer)

/-! ## Intermediate states of the two passes and the indices they use -/

/-- State of the conductivity pass (lines 263-319) just before it visits the slot with
linear index `k = 3 * lindex + sub`, started from `st`. -/
def cond_upto (pw : R → R → R) (env : col_env R) (st : flux_state R) : Nat → flux_state R
  | 0 => st
  | k + 1 => cond_slot pw env (cond_upto pw env st k) (k / 3) (k % 3)

/-- State of the advance pass (lines 327-468) just before it visits the slot with linear
index `k`: the slots before it have been processed, and every layer completed before
it has been written back. -/
def advance_upto (env : col_env R) (st : flux_state R) : Nat → flux_state R
  | 0 => { st with firstlayer := true, last_index := 0 }
  | k + 1 =>
    if k % 3 = 2 then
      writeback env (advance_slot env (advance_upto env st k) (k / 3) (k % 3)) (k / 3)
    else advance_slot env (advance_upto env st k) (k / 3) (k % 3)

/-- Indices at which `last_layer`, `last_sub` and `froz_solid` are read or written while
the conductivity pass visits `[lindex][sub]` (lines 266-317): `last_cnt`, and
`last_cnt - 1` in the impermeable case when `last_cnt > 0`. -/
def cond_slot_indices (env : col_env R) (st : flux_state R) (lindex sub : Nat) : List Nat :=
  if env.sublayer lindex sub > 0 ∧
      (lindex ≠ env.opts.Nlayer - 1 ∨ (lindex = env.opts.Nlayer - 1 ∧ sub ≠ 2)) then
    if env.opts.FROZEN_SOIL = true ∧ sub = 1 ∧
        env.submax_moist lindex sub / (env.soil.depth lindex * 1000) < 13 / 100 ∧
        env.sublayer lindex 1 * env.soil.depth lindex > 5 / 100 ∧ st.last_cnt > 0 then
      [st.last_cnt, st.last_cnt - 1]
    else [st.last_cnt]
  else []

/-- Indices at which the history arrays are read by the upward walk of lines 400-433
started at `tmp_index`: `tmp_index` in the loop test, `tmp_index - 1` in the loop body,
and `tmp_index` again in the test after the loop when it is zero. -/
def push_up_indices (env : col_env R) : Nat → flux_state R → List Nat
  | 0, _ => [0]
  | t + 1, st =>
    let a := st.last_layer (t + 1)
    let b := st.last_sub (t + 1)
    let c := st.last_layer t
    if st.submoist a b + env.subice a b > env.submax_moist a b then
      let q := set2 st.Q12 c b
        (st.Q12 c b - (st.submoist a b + env.subice a b - env.submax_moist a b)
          * env.sublayer a b / env.sublayer c b)
      let m1 := set2 st.submoist c b
        (st.submoist c b + (st.submoist a b + env.subice a b - env.submax_moist a b)
          * env.sublayer a b / env.sublayer c b)
      let m2 := set2 m1 a b (env.submax_moist a b - env.subice a b)
      (t + 1) :: t :: push_up_indices env t { st with Q12 := q, submoist := m2 }
    else [t + 1]

/-- Indices at which `froz_solid`, `last_layer` and `last_sub` are read while the advance
pass visits `[lindex][sub]` (lines 352-435): `last_index + 1` when the slot is over
capacity, and the indices of the upward walk when that walk runs. -/
def advance_slot_indices (env : col_env R) (st : flux_state R) (lindex sub : Nat) : List Nat :=
  if env.sublayer lindex sub > 0 ∧ ¬ (lindex = env.opts.Nlayer - 1 ∧ sub = 2) then
    if advance_moist env st lindex sub + env.subice lindex sub
        > env.submax_moist lindex sub then
      if st.froz_solid (st.last_index + 1) = true ∧ st.firstlayer = false then
        (st.last_index + 1) ::
          push_up_indices env st.last_index
            { st with submoist := set2 st.submoist lindex sub (advance_moist env st lindex sub) }
      else [st.last_index + 1]
    else []
  else []


/-! ## The state builder: errors and thickness fractions -/

theorem check_layer_none_iff (layer : Nat → layer_data_struct R) (l : Nat) :
    check_layer layer l = none ↔
      ¬ ((layer l).moist_thaw < 0 ∨ (layer l).moist_froz < 0 ∨ (layer l).moist < 0) := by
  unfold check_layer
  by_cases h0 : (layer l).moist_thaw < 0
  · simp [h0]
  · by_cases h1 : (layer l).moist_froz < 0
    · simp [h0, h1]
    · by_cases h2 : (layer l).moist < 0 <;> simp [h0, h1, h2]

theorem check_layers_ok_iff (layer : Nat → layer_data_struct R) (ls : List Nat) :
    check_layers layer ls = Except.ok () ↔
      ∀ l ∈ ls, ¬ ((layer l).moist_thaw < 0 ∨ (layer l).moist_froz < 0 ∨ (layer l).moist < 0) := by
  induction ls with
  | nil => simp [check_layers]
  | cons a rest ih =>
    unfold check_layers
    cases hc : check_layer layer a with
    | none =>
      have ha := (check_layer_none_iff layer a).1 hc
      simp only [List.mem_cons, forall_eq_or_imp]
      rw [ih]
      exact ⟨fun h => ⟨ha, h⟩, fun h => h.2⟩
    | some e =>
      have ha : ¬ ¬ ((layer a).moist_thaw < 0 ∨ (layer a).moist_froz < 0 ∨ (layer a).moist < 0) := by
        intro hn
        have := (check_layer_none_iff layer a).2 hn
        rw [hc] at this
        cases this
      simp only [List.mem_cons, forall_eq_or_imp]
      constructor
      · intro h
        cases h
      · intro h
        exact absurd h.1 ha

theorem check_layers_cases (layer : Nat → layer_data_struct R) (ls : List Nat) :
    check_layers layer ls = Except.ok () ∨ ∃ e, check_layers layer ls = Except.error e := by
  cases h : check_layers layer ls with
  | error e => exact Or.inr ⟨e, rfl⟩
  | ok u => exact Or.inl rfl

theorem runoff_branch_error_iff (pw : R → R → R) (opts : option_struct)
    (soil : soil_con_struct R) (layer : Nat → layer_data_struct R) (inflow : R) (dt : Int) :
    (∃ e, runoff_branch pw opts soil layer inflow dt = Except.error e) ↔
      has_negative layer opts.Nlayer := by
  have hiff := check_layers_ok_iff layer (List.range opts.Nlayer)
  unfold runoff_branch has_negative
  rcases check_layers_cases layer (List.range opts.Nlayer) with h | ⟨e, h⟩
  · rw [h]
    have hall := hiff.1 h
    constructor
    · rintro ⟨e, he⟩
      cases he
    · rintro ⟨l, hl, hneg⟩
      exact absurd hneg (hall l (List.mem_range.2 hl))
  · rw [h]
    constructor
    · intro _
      by_contra hno
      have : check_layers layer (List.range opts.Nlayer) = Except.ok () := by
        apply hiff.2
        intro l hl hneg
        exact hno ⟨l, List.mem_range.1 hl, hneg⟩
      rw [h] at this
      cases this
    · intro _
      exact ⟨e, rfl⟩

theorem runoff_branch_ok_of_not_negative (pw : R → R → R) (opts : option_struct)
    (soil : soil_con_struct R) (layer : Nat → layer_data_struct R) (inflow : R) (dt : Int)
    (h : ¬ has_negative layer opts.Nlayer) :
    runoff_branch pw opts soil layer inflow dt
      = Except.ok (branch_body pw opts soil layer inflow dt) := by
  have hiff := check_layers_ok_iff layer (List.range opts.Nlayer)
  have hok : check_layers layer (List.range opts.Nlayer) = Except.ok () := by
    apply hiff.2
    intro l hl hneg
    exact h ⟨l, List.mem_range.1 hl, hneg⟩
  unfold runoff_branch
  rw [hok]

theorem runoff_error_iff (pw : R → R → R) (opts : option_struct) (soil : soil_con_struct R)
    (s : call_state R) (ppt : Nat → R) (mu : R) (dt : Int) :
    (∃ e, runoff pw opts soil s ppt mu dt = Except.error e) ↔
      ((mu > 0 ∧ has_negative s.layer_wet opts.Nlayer) ∨
        (opts.DIST_PRCP = true ∧ 1 - mu > 0 ∧ has_negative s.layer_dry opts.Nlayer)) := by
  have hw := runoff_branch_error_iff pw opts soil s.layer_wet (ppt 0) dt
  have hd := runoff_branch_error_iff pw opts soil s.layer_dry (ppt 1) dt
  by_cases hmu : mu > 0
  · by_cases hnw : has_negative s.layer_wet opts.Nlayer
    · obtain ⟨e, he⟩ := hw.2 hnw
      constructor
      · intro _
        exact Or.inl ⟨hmu, hnw⟩
      · intro _
        refine ⟨e, ?_⟩
        simp only [runoff, hmu, if_true, he]
    · have hok := runoff_branch_ok_of_not_negative pw opts soil s.layer_wet (ppt 0) dt hnw
      by_cases hD : opts.DIST_PRCP = true
      · by_cases hmu2 : 1 - mu > 0
        · by_cases hnd : has_negative s.layer_dry opts.Nlayer
          · obtain ⟨e, he⟩ := hd.2 hnd
            constructor
            · intro _
              exact Or.inr ⟨hD, hmu2, hnd⟩
            · intro _
              refine ⟨e, ?_⟩
              simp only [runoff, hmu, if_true, hok, hD, hmu2, he]
          · have hok2 := runoff_branch_ok_of_not_negative pw opts soil s.layer_dry (ppt 1) dt hnd
            constructor
            · rintro ⟨e, he⟩
              simp only [runoff, hmu, if_true, hok, hD, hmu2, hok2] at he
              cases he
            · rintro (⟨_, h⟩ | ⟨_, _, h⟩)
              · exact absurd h hnw
              · exact absurd h hnd
        · constructor
          · rintro ⟨e, he⟩
            simp only [runoff, hmu, if_true, hok, hD, hmu2, if_false] at he
            cases he
          · rintro (⟨_, h⟩ | ⟨_, h, _⟩)
            · exact absurd h hnw
            · exact absurd h hmu2
      · constructor
        · rintro ⟨e, he⟩
          simp only [runoff, hmu, if_true, hok, hD] at he
          cases he
        · rintro (⟨_, h⟩ | ⟨h, _, _⟩)
          · exact absurd h hnw
          · exact absurd h hD
  · by_cases hD : opts.DIST_PRCP = true
    · by_cases hmu2 : 1 - mu > 0
      · by_cases hnd : has_negative s.layer_dry opts.Nlayer
        · obtain ⟨e, he⟩ := hd.2 hnd
          constructor
          · intro _
            exact Or.inr ⟨hD, hmu2, hnd⟩
          · intro _
            refine ⟨e, ?_⟩
            simp only [runoff, hmu, if_false, hD, if_true, hmu2, he]
        · have hok2 := runoff_branch_ok_of_not_negative pw opts soil s.layer_dry (ppt 1) dt hnd
          constructor
          · rintro ⟨e, he⟩
            simp only [runoff, hmu, if_false, hD, if_true, hmu2, hok2] at he
            cases he
          · rintro (⟨h, _⟩ | ⟨_, _, h⟩)
            · exact absurd h hmu
            · exact absurd h hnd
      · constructor
        · rintro ⟨e, he⟩
          simp only [runoff, hmu, if_false, hD, if_true, hmu2] at he
          cases he
        · rintro (⟨h, _⟩ | ⟨_, h, _⟩)
          · exact absurd h hmu
          · exact absurd h hmu2
    · constructor
      · rintro ⟨e, he⟩
        simp only [runoff, hmu, if_false, hD] at he
        cases he
      · rintro (⟨h, _⟩ | ⟨h, _, _⟩)
        · exact absurd h hmu
        · exact absurd h hD

theorem runoff_single_branch (pw : R → R → R) (opts : option_struct) (soil : soil_con_struct R)
    (s : call_state R) (ppt : Nat → R) (mu : R) (dt : Int)
    (hd : opts.DIST_PRCP = false)
    (hok : mu > 0 → ¬ has_negative s.layer_wet opts.Nlayer) :
    ∃ s2, runoff pw opts soil s ppt mu dt = Except.ok s2 ∧
      s2.runoff_dry = s.runoff_dry ∧ s2.baseflow_dry = s.baseflow_dry ∧
      s2.layer_dry = s.layer_dry := by
  by_cases hmu : mu > 0
  · have h1 := runoff_branch_ok_of_not_negative pw opts soil s.layer_wet (ppt 0) dt (hok hmu)
    refine ⟨{ s with
        layer_wet := (branch_body pw opts soil s.layer_wet (ppt 0) dt).layer
        runoff_wet := (branch_body pw opts soil s.layer_wet (ppt 0) dt).runoff
        baseflow_wet := (branch_body pw opts soil s.layer_wet (ppt 0) dt).baseflow }, ?_, rfl, rfl, rfl⟩
    simp only [runoff, hmu, if_true, h1, hd]
    rfl
  · refine ⟨s, ?_, rfl, rfl, rfl⟩
    simp only [runoff, hmu, if_false, hd]
    rfl

theorem not_has_negative_plain : ¬ has_negative plain_layer plain_opts.Nlayer := by
  rintro ⟨l, _, h⟩
  simp only [plain_layer] at h
  norm_num at h

theorem has_negative_negative_layer : has_negative negative_layer plain_opts.Nlayer :=
  ⟨0, by decide, Or.inr (Or.inr (by simp only [negative_layer]; norm_num))⟩

/-- Claim C7 (counterexample).  With `mu = 0` the wet branch is skipped and distributed
precipitation is off: the wet array has a negative moisture on entry, yet the call
returns normally, leaving the caller state as it was. -/
theorem C7_counterexample_skipped_branch :
    has_negative negative_call.layer_wet plain_opts.Nlayer ∧
      runoff int_pow plain_opts still_soil negative_call (fun _ => 0) 0 1
        = Except.ok negative_call := by
  refine ⟨has_negative_negative_layer, ?_⟩
  simp [runoff, plain_opts]

/-- Claim C7 (amended).  A call of `runoff()` reports the fatal negative-moisture error
exactly when a distribution branch that is actually run (the wet one when `mu > 0`,
the dry one when distributed precipitation is on and `1 - mu > 0`) finds a negative
thawed, frozen or unfrozen moisture in one of the `Nlayer` layers of its array; in
every other case the call completes without an error. -/
theorem C7_error_iff_negative_in_executed_branch (pw : R → R → R) (opts : option_struct)
    (soil : soil_con_struct R) (s : call_state R) (ppt : Nat → R) (mu : R) (dt : Int) :
    ((∃ e, runoff pw opts soil s ppt mu dt = Except.error e) ↔
      ((mu > 0 ∧ has_negative s.layer_wet opts.Nlayer) ∨
        (opts.DIST_PRCP = true ∧ 1 - mu > 0 ∧ has_negative s.layer_dry opts.Nlayer))) ∧
    ((∃ s2, runoff pw opts soil s ppt mu dt = Except.ok s2) ↔
      ¬ ((mu > 0 ∧ has_negative s.layer_wet opts.Nlayer) ∨
        (opts.DIST_PRCP = true ∧ 1 - mu > 0 ∧ has_negative s.layer_dry opts.Nlayer))) := by
  have h := runoff_error_iff pw opts soil s ppt mu dt
  refine ⟨h, ?_⟩
  rw [← h]
  cases hr : runoff pw opts soil s ppt mu dt with
  | error e => simp
  | ok s2 => simp

/-- Claim C8 (counterexample).  Distributed precipitation is off and the dry output
cells hold 5 and 7 before the call; the call completes and they still hold 5 and 7,
not zero. -/
theorem C8_counterexample_dry_outputs_kept :
    plain_opts.DIST_PRCP = false ∧
      ∃ s2, runoff int_pow plain_opts still_soil marked_call (fun _ => 0) 1 1 = Except.ok s2 ∧
        s2.runoff_dry = 5 ∧ s2.baseflow_dry = 7 ∧
        ¬ (s2.runoff_dry = 0 ∧ s2.baseflow_dry = 0) := by
  refine ⟨rfl, ?_⟩
  obtain ⟨s2, h, h1, h2, _⟩ := runoff_single_branch int_pow plain_opts still_soil marked_call
    (fun _ => 0) 1 1 rfl (fun _ => not_has_negative_plain)
  refine ⟨s2, h, h1, h2, ?_⟩
  rw [h1]
  simp only [marked_call]
  norm_num

/-- Claim C8 (amended).  With distributed precipitation inactive, a call whose wet
branch passes the state builder's checks completes, and the dry-branch runoff and
baseflow outputs (and the dry layer array) hold exactly the values they held before
the call: `runoff()` never writes them. -/
theorem C8_dry_outputs_unchanged (pw : R → R → R) (opts : option_struct)
    (soil : soil_con_struct R) (s : call_state R) (ppt : Nat → R) (mu : R) (dt : Int)
    (hd : opts.DIST_PRCP = false)
    (hok : mu > 0 → ¬ has_negative s.layer_wet opts.Nlayer) :
    ∃ s2, runoff pw opts soil s ppt mu dt = Except.ok s2 ∧
      s2.runoff_dry = s.runoff_dry ∧ s2.baseflow_dry = s.baseflow_dry ∧
      s2.layer_dry = s.layer_dry :=
  runoff_single_branch pw opts soil s ppt mu dt hd hok

theorem C8_dry_outputs_unchanged_witness :
    ∃ s2, runoff int_pow plain_opts still_soil marked_call (fun _ => 0) 1 1 = Except.ok s2 ∧
      s2.runoff_dry = marked_call.runoff_dry ∧ s2.baseflow_dry = marked_call.baseflow_dry ∧
      s2.layer_dry = marked_call.layer_dry :=
  C8_dry_outputs_unchanged int_pow plain_opts still_soil marked_call (fun _ => 0) 1 1 rfl
    (fun _ => not_has_negative_plain)

/-- Claim C9 (the code at a failing input).  Frozen-soil mode is off and the layer
carries a thaw front at half depth and a freeze front at full depth.  Lines 158-165
compute the thickness fractions from the front depths without consulting
`options.FROZEN_SOIL` (which line 153 does consult for the temperatures): the
fractions are 1/2, 1/2 and 0, so the thawed and frozen slots are populated and the
unfrozen slot is empty, against the header comment of lines 32-33, by which a run
without frozen soils uses the unfrozen slot only. -/
theorem C9_fractions_ignore_frozen_soil_option :
    plain_opts.FROZEN_SOIL = false ∧
      (branch_env int_pow plain_opts still_soil thawing_layer 0 1).sublayer 0 0 = 1 / 2 ∧
      (branch_env int_pow plain_opts still_soil thawing_layer 0 1).sublayer 0 1 = 1 / 2 ∧
      (branch_env int_pow plain_opts still_soil thawing_layer 0 1).sublayer 0 2 = 0 := by
  refine ⟨rfl, ?_, ?_, ?_⟩ <;>
    norm_num [branch_env, sublayer_of, still_soil, thawing_layer]

/-- The collapse that the code does have: for every layer whose thaw and freeze depths
are both zero and whose depth is not zero, the state builder yields the thickness
fractions exactly 0, 0 and 1 for the thawed, frozen and unfrozen slots, whatever the
mode.  It comes from the front depths, not from the option. -/
theorem fractions_collapse_of_zero_fronts (pw : R → R → R) (opts : option_struct)
    (soil : soil_con_struct R) (layer : Nat → layer_data_struct R) (inflow : R) (dt : Int)
    (lindex : Nat) (ht : (layer lindex).tdepth = 0) (hf : (layer lindex).fdepth = 0)
    (hdepth : soil.depth lindex ≠ 0) :
    (branch_env pw opts soil layer inflow dt).sublayer lindex 0 = 0 ∧
      (branch_env pw opts soil layer inflow dt).sublayer lindex 1 = 0 ∧
      (branch_env pw opts soil layer inflow dt).sublayer lindex 2 = 1 := by
  simp only [branch_env, sublayer_of, ht, hf, sub_zero, zero_div]
  exact ⟨trivial, trivial, div_self hdepth⟩

theorem fractions_collapse_of_zero_fronts_plain :
    (branch_env int_pow plain_opts still_soil plain_layer 0 1).sublayer 0 0 = 0 ∧
      (branch_env int_pow plain_opts still_soil plain_layer 0 1).sublayer 0 1 = 0 ∧
      (branch_env int_pow plain_opts still_soil plain_layer 0 1).sublayer 0 2 = 1 :=
  fractions_collapse_of_zero_fronts int_pow plain_opts still_soil plain_layer 0 1 0 rfl rfl
    (by simp only [still_soil]; norm_num)

/-! ## The surface infiltration calculator -/

/-- Claim C4 (counterexample).  With inflow `-1` and zero capacity the code takes the
zero-capacity case and then floors the result: it returns 0, where the claimed
piecewise form gives the inflow, `-1`. -/
theorem C4_counterexample_negative_inflow :
    surface_runoff int_pow 1 (-1) 0 0 = 0 ∧ claimed_piecewise int_pow (-1) 0 0 1 = -1 ∧
      surface_runoff int_pow 1 (-1) 0 0 ≠ claimed_piecewise int_pow (-1) 0 0 1 := by
  have h1 : surface_runoff int_pow 1 (-1) 0 0 = 0 := by
    norm_num [surface_runoff]
  have h2 : claimed_piecewise int_pow (-1) 0 0 1 = -1 := by
    norm_num [claimed_piecewise]
  refine ⟨h1, h2, ?_⟩
  rw [h1, h2]
  norm_num

/-- Claim C4 (amended).  For every inflow, aggregate moisture `m`, capacity `cap` and
shape `b`, with `maxInfil = (1+b)*cap`, `A = 1 - (1 - m/cap)^(b/(1+b))` and
`i0 = maxInfil*(1 - (1-A)^(1/b))`, the surface runoff computed before the sub-step
loop is 0 if inflow = 0; else `max(0, inflow)` if `maxInfil = 0`; else
`max(0, inflow - cap + m)` if `i0 + inflow > maxInfil`; else
`max(0, inflow - cap + m + cap*(1 - (i0+inflow)/maxInfil)^(1+b))`. -/
theorem C4_surface_runoff_piecewise (pw : R → R → R) (b inflow m cap : R) :
    surface_runoff pw b inflow m cap =
      (if inflow = 0 then 0
       else if (1 + b) * cap = 0 then max 0 inflow
       else if (1 + b) * cap * (1 - pw (1 - (1 - pw (1 - m / cap) (b / (1 + b)))) (1 / b))
            + inflow > (1 + b) * cap then max 0 (inflow - cap + m)
       else max 0 (inflow - cap + m + cap *
          pw (1 - ((1 + b) * cap * (1 - pw (1 - (1 - pw (1 - m / cap) (b / (1 + b)))) (1 / b))
            + inflow) / ((1 + b) * cap)) (1 + b))) := by
  unfold surface_runoff
  simp only [one_mul]
  split_ifs <;> simp_all [max_def, not_lt, le_of_lt]


/-! ## Loops as folds: induction principles -/

theorem foldl_range_invariant {α : Type} (P : Nat → α → Prop) (f : α → Nat → α) (n : Nat)
    (a : α) (h0 : P 0 a) (hstep : ∀ i s, i < n → P i s → P (i + 1) (f s i)) :
    P n ((List.range n).foldl f a) := by
  induction n with
  | zero => simpa using h0
  | succ n ih =>
    rw [List.range_succ, List.foldl_append]
    simp only [List.foldl_cons, List.foldl_nil]
    apply hstep n _ (Nat.lt_succ_self n)
    apply ih
    intro i s hi hP
    exact hstep i s (Nat.lt_succ_of_lt hi) hP

theorem foldl_three {α : Type} (f : α → Nat → α) (a : α) :
    [0, 1, 2].foldl f a = f (f (f a 0) 1) 2 := rfl

theorem time_loop_succ (pw : R → R → R) (env : col_env R) (n : Nat) (st : flux_state R) :
    time_loop pw env (n + 1) st = time_step pw env (time_loop pw env n st) := by
  induction n generalizing st with
  | zero => rfl
  | succ n ih =>
    show time_loop pw env (n + 1) (time_step pw env st) = _
    rw [ih]
    rfl

theorem time_loop_invariant (pw : R → R → R) (env : col_env R) (P : flux_state R → Prop)
    (hstep : ∀ st, P st → P (time_step pw env st)) (n : Nat) (st : flux_state R) (h : P st) :
    P (time_loop pw env n st) := by
  induction n generalizing st with
  | zero => exact h
  | succ n ih => exact ih _ (hstep st h)

/-- Induction over the advance pass: `P l s` is asserted before slot `s` of layer `l`
is visited (`s = 3`: after the last slot, before the writeback of the layer). -/
theorem advance_pass_invariant (env : col_env R) (P : Nat → Nat → flux_state R → Prop)
    (st : flux_state R)
    (h0 : P 0 0 { st with firstlayer := true, last_index := 0 })
    (hslot : ∀ l s x, l < env.opts.Nlayer → s < 3 → P l s x →
      P l (s + 1) (advance_slot env x l s))
    (hwb : ∀ l x, l < env.opts.Nlayer → P l 3 x → P (l + 1) 0 (writeback env x l)) :
    P env.opts.Nlayer 0 (advance_pass env st) := by
  unfold advance_pass
  apply foldl_range_invariant (fun i x => P i 0 x)
  · exact h0
  · intro l x hl hP
    unfold advance_layer
    rw [foldl_three]
    apply hwb l _ hl
    have h1 := hslot l 0 x hl (by decide) hP
    have h2 := hslot l 1 _ hl (by decide) h1
    exact hslot l 2 _ hl (by decide) h2

/-- Induction over the conductivity pass along the linear slot index. -/
theorem cond_pass_invariant (pw : R → R → R) (env : col_env R) (P : Nat → flux_state R → Prop)
    (st : flux_state R) (h0 : P 0 st)
    (hslot : ∀ l s x, l < env.opts.Nlayer → s < 3 → P (3 * l + s) x →
      P (3 * l + s + 1) (cond_slot pw env x l s)) :
    P (3 * env.opts.Nlayer) (cond_pass pw env st) := by
  unfold cond_pass
  apply foldl_range_invariant (fun i x => P (3 * i) x)
  · exact h0
  · intro l x hl hP
    rw [foldl_three]
    have h1 := hslot l 0 x hl (by decide) hP
    have h2 := hslot l 1 _ hl (by decide) h1
    exact hslot l 2 _ hl (by decide) h2

/-! ## What the two passes leave alone -/

theorem cond_slot_frame (pw : R → R → R) (env : col_env R) (st : flux_state R) (l s : Nat) :
    (cond_slot pw env st l s).layer = st.layer ∧
      (cond_slot pw env st l s).submoist = st.submoist ∧
      (cond_slot pw env st l s).runoff = st.runoff ∧
      (cond_slot pw env st l s).inflow = st.inflow ∧
      (cond_slot pw env st l s).dt_outflow = st.dt_outflow ∧
      (cond_slot pw env st l s).firstlayer = st.firstlayer ∧
      (cond_slot pw env st l s).last_index = st.last_index := by
  unfold cond_slot
  split_ifs <;> simp

theorem cond_pass_frame (pw : R → R → R) (env : col_env R) (st : flux_state R) :
    (cond_pass pw env st).layer = st.layer ∧
      (cond_pass pw env st).submoist = st.submoist ∧
      (cond_pass pw env st).runoff = st.runoff ∧
      (cond_pass pw env st).inflow = st.inflow ∧
      (cond_pass pw env st).dt_outflow = st.dt_outflow ∧
      (cond_pass pw env st).firstlayer = st.firstlayer ∧
      (cond_pass pw env st).last_index = st.last_index := by
  apply cond_pass_invariant pw env (fun _ x =>
    x.layer = st.layer ∧ x.submoist = st.submoist ∧ x.runoff = st.runoff ∧
      x.inflow = st.inflow ∧ x.dt_outflow = st.dt_outflow ∧
      x.firstlayer = st.firstlayer ∧ x.last_index = st.last_index)
  · exact ⟨rfl, rfl, rfl, rfl, rfl, rfl, rfl⟩
  · intro l s x _ _ h
    obtain ⟨h1, h2, h3, h4, h5, h6, h7⟩ := cond_slot_frame pw env x l s
    exact ⟨h1.trans h.1, h2.trans h.2.1, h3.trans h.2.2.1, h4.trans h.2.2.2.1,
      h5.trans h.2.2.2.2.1, h6.trans h.2.2.2.2.2.1, h7.trans h.2.2.2.2.2.2⟩

theorem push_up_frame (env : col_env R) (t : Nat) (st : flux_state R) :
    (push_up env t st).2.layer = st.layer ∧
      (push_up env t st).2.froz_solid = st.froz_solid ∧
      (push_up env t st).2.last_layer = st.last_layer ∧
      (push_up env t st).2.last_sub = st.last_sub ∧
      (push_up env t st).2.last_cnt = st.last_cnt ∧
      (push_up env t st).2.last_index = st.last_index ∧
      (push_up env t st).2.firstlayer = st.firstlayer ∧
      (push_up env t st).2.inflow = st.inflow ∧
      (push_up env t st).2.runoff = st.runoff ∧
      (push_up env t st).2.dt_outflow = st.dt_outflow := by
  induction t generalizing st with
  | zero => simp [push_up]
  | succ t ih =>
    unfold push_up
    simp only
    split_ifs
    · have h := ih { st with
        Q12 := set2 st.Q12 (st.last_layer t) (st.last_sub (t + 1))
          (st.Q12 (st.last_layer t) (st.last_sub (t + 1))
            - (st.submoist (st.last_layer (t + 1)) (st.last_sub (t + 1))
                + env.subice (st.last_layer (t + 1)) (st.last_sub (t + 1))
                - env.submax_moist (st.last_layer (t + 1)) (st.last_sub (t + 1)))
              * env.sublayer (st.last_layer (t + 1)) (st.last_sub (t + 1))
              / env.sublayer (st.last_layer t) (st.last_sub (t + 1)))
        submoist := set2 (set2 st.submoist (st.last_layer t) (st.last_sub (t + 1))
          (st.submoist (st.last_layer t) (st.last_sub (t + 1))
            + (st.submoist (st.last_layer (t + 1)) (st.last_sub (t + 1))
                + env.subice (st.last_layer (t + 1)) (st.last_sub (t + 1))
                - env.submax_moist (st.last_layer (t + 1)) (st.last_sub (t + 1)))
              * env.sublayer (st.last_layer (t + 1)) (st.last_sub (t + 1))
              / env.sublayer (st.last_layer t) (st.last_sub (t + 1))))
          (st.last_layer (t + 1)) (st.last_sub (t + 1))
          (env.submax_moist (st.last_layer (t + 1)) (st.last_sub (t + 1))
            - env.subice (st.last_layer (t + 1)) (st.last_sub (t + 1))) }
      exact h
    · simp

theorem redistribute_up_frame (env : col_env R) (st : flux_state R) :
    (redistribute_up env st).layer = st.layer ∧
      (redistribute_up env st).froz_solid = st.froz_solid ∧
      (redistribute_up env st).last_layer = st.last_layer ∧
      (redistribute_up env st).last_sub = st.last_sub ∧
      (redistribute_up env st).last_cnt = st.last_cnt ∧
      (redistribute_up env st).last_index = st.last_index ∧
      (redistribute_up env st).firstlayer = st.firstlayer ∧
      (redistribute_up env st).inflow = st.inflow ∧
      (redistribute_up env st).dt_outflow = st.dt_outflow := by
  obtain ⟨h1, h2, h3, h4, h5, h6, h7, h8, _, h10⟩ := push_up_frame env st.last_index st
  unfold redistribute_up
  simp only
  split_ifs
  · exact ⟨h1, h2, h3, h4, h5, h6, h7, h8, h10⟩
  · exact ⟨h1, h2, h3, h4, h5, h6, h7, h8, h10⟩

theorem advance_update_frame (env : col_env R) (st : flux_state R) (l s : Nat) :
    (advance_update env st l s).1.layer = st.layer ∧
      (advance_update env st l s).1.froz_solid = st.froz_solid ∧
      (advance_update env st l s).1.last_layer = st.last_layer ∧
      (advance_update env st l s).1.last_sub = st.last_sub ∧
      (advance_update env st l s).1.last_cnt = st.last_cnt ∧
      (advance_update env st l s).1.last_index = st.last_index ∧
      (advance_update env st l s).1.dt_outflow = st.dt_outflow := by
  obtain ⟨h1, h2, h3, h4, h5, h6, _, _, h9⟩ := redistribute_up_frame env
    { st with submoist := set2 st.submoist l s (advance_moist env st l s) }
  unfold advance_update
  simp only
  split_ifs
  · simp
  · simp
  · exact ⟨h1, h2, h3, h4, h5, h6, h9⟩
  · simp

theorem residual_floor_frame (env : col_env R) (st : flux_state R) (l s : Nat) :
    (residual_floor env st l s).layer = st.layer ∧
      (residual_floor env st l s).froz_solid = st.froz_solid ∧
      (residual_floor env st l s).last_layer = st.last_layer ∧
      (residual_floor env st l s).last_sub = st.last_sub ∧
      (residual_floor env st l s).last_cnt = st.last_cnt ∧
      (residual_floor env st l s).last_index = st.last_index ∧
      (residual_floor env st l s).firstlayer = st.firstlayer ∧
      (residual_floor env st l s).inflow = st.inflow ∧
      (residual_floor env st l s).runoff = st.runoff ∧
      (residual_floor env st l s).dt_outflow = st.dt_outflow := by
  unfold residual_floor
  split_ifs <;> simp

theorem advance_slot_active (env : col_env R) (st : flux_state R) (l s : Nat)
    (h : active env l s) :
    advance_slot env st l s =
      hand_down env
        (residual_floor env { (advance_update env st l s).1 with firstlayer := false } l s)
        l s (advance_update env st l s).2 := by
  unfold advance_slot
  exact if_pos h

theorem advance_slot_inactive (env : col_env R) (st : flux_state R) (l s : Nat)
    (h : ¬ active env l s) : advance_slot env st l s = st := by
  unfold advance_slot
  exact if_neg h

theorem advance_slot_frame (env : col_env R) (st : flux_state R) (l s : Nat) :
    (advance_slot env st l s).layer = st.layer ∧
      (advance_slot env st l s).froz_solid = st.froz_solid ∧
      (advance_slot env st l s).last_layer = st.last_layer ∧
      (advance_slot env st l s).last_sub = st.last_sub ∧
      (advance_slot env st l s).last_cnt = st.last_cnt ∧
      (advance_slot env st l s).dt_outflow = st.dt_outflow := by
  by_cases h : active env l s
  · obtain ⟨h1, h2, h3, h4, h5, _, h7⟩ := advance_update_frame env st l s
    obtain ⟨g1, g2, g3, g4, g5, _, _, _, _, g10⟩ := residual_floor_frame env
      { (advance_update env st l s).1 with firstlayer := false } l s
    rw [advance_slot_active env st l s h]
    exact ⟨g1.trans h1, g2.trans h2, g3.trans h3, g4.trans h4, g5.trans h5, g10.trans h7⟩
  · rw [advance_slot_inactive env st l s h]
    exact ⟨rfl, rfl, rfl, rfl, rfl, rfl⟩

theorem writeback_frame (env : col_env R) (st : flux_state R) (l : Nat) :
    (writeback env st l).submoist = st.submoist ∧
      (writeback env st l).Q12 = st.Q12 ∧
      (writeback env st l).froz_solid = st.froz_solid ∧
      (writeback env st l).last_layer = st.last_layer ∧
      (writeback env st l).last_sub = st.last_sub ∧
      (writeback env st l).last_cnt = st.last_cnt ∧
      (writeback env st l).last_index = st.last_index ∧
      (writeback env st l).firstlayer = st.firstlayer ∧
      (writeback env st l).inflow = st.inflow ∧
      (writeback env st l).runoff = st.runoff ∧
      (writeback env st l).dt_outflow = st.dt_outflow :=
  ⟨rfl, rfl, rfl, rfl, rfl, rfl, rfl, rfl, rfl, rfl, rfl⟩

theorem writeback_evap (env : col_env R) (st : flux_state R) (l k : Nat) :
    ((writeback env st l).layer k).evap = (st.layer k).evap := by
  by_cases h : k = l
  · subst h
    simp [writeback, set1]
  · simp [writeback, set1, h]


/-! ## Columns without an impermeable slot -/

theorem set2_same {α : Type} (a : Nat → Nat → α) (i j : Nat) (v : α) : set2 a i j v i j = v := by
  simp [set2]

theorem set2_other {α : Type} (a : Nat → Nat → α) (i j p q : Nat) (v : α)
    (h : ¬ (p = i ∧ q = j)) : set2 a i j v p q = a p q := by
  simp [set2, h]

theorem set2_set2 {α : Type} (a : Nat → Nat → α) (i j : Nat) (u v : α) :
    set2 (set2 a i j u) i j v = set2 a i j v := by
  funext p q
  by_cases h : p = i ∧ q = j <;> simp [set2, h]

theorem cond_slot_quiet (pw : R → R → R) (env : col_env R) (st : flux_state R) (l s : Nat)
    (hl : l < env.opts.Nlayer) (hopen : unblocked env) (hq : quiet st) :
    quiet (cond_slot pw env st l s) := by
  intro i
  unfold cond_slot
  by_cases ha : env.sublayer l s > 0 ∧
      (l ≠ env.opts.Nlayer - 1 ∨ (l = env.opts.Nlayer - 1 ∧ s ≠ 2))
  · rw [if_pos ha]
    by_cases hb : env.opts.FROZEN_SOIL = true ∧ s = 1 ∧
        env.submax_moist l s / (env.soil.depth l * 1000) < 13 / 100 ∧
        env.sublayer l 1 * env.soil.depth l > 5 / 100
    · exfalso
      obtain ⟨hf, hs, h1, h2⟩ := hb
      subst hs
      apply hopen l hl
      refine ⟨⟨ha.1, ?_⟩, hf, h1, h2⟩
      rintro ⟨_, h⟩
      exact absurd h (by decide)
    · simp only [if_neg hb]
      have hfs : set1 st.froz_solid st.last_cnt false i = false := by
        unfold set1
        split_ifs
        · rfl
        · exact hq i
      split_ifs <;> exact hfs
  · rw [if_neg ha]
    exact hq i

theorem cond_pass_quiet (pw : R → R → R) (env : col_env R) (st : flux_state R)
    (hopen : unblocked env) (hq : quiet st) : quiet (cond_pass pw env st) := by
  apply cond_pass_invariant pw env (fun _ x => quiet x) st hq
  intro l s x hl _ hx
  exact cond_slot_quiet pw env x l s hl hopen hx

/-- Without a set `froz_solid` entry the update of a slot is the plain one: the
excess above capacity, if any, is passed down. -/
theorem advance_update_quiet (env : col_env R) (st : flux_state R) (l s : Nat) (hq : quiet st) :
    advance_update env st l s =
      if advance_moist env st l s + env.subice l s > env.submax_moist l s then
        ({ st with submoist := set2 st.submoist l s (env.submax_moist l s - env.subice l s) },
          advance_moist env st l s + env.subice l s - env.submax_moist l s)
      else ({ st with submoist := set2 st.submoist l s (advance_moist env st l s) }, 0) := by
  unfold advance_update
  have hf : st.froz_solid (st.last_index + 1) = false := hq _
  simp only [hf, and_true, Bool.false_eq_true, and_false, if_false, set2_set2]

theorem advance_slot_runoff_quiet (env : col_env R) (st : flux_state R) (l s : Nat)
    (hq : quiet st) : (advance_slot env st l s).runoff = st.runoff := by
  by_cases h : active env l s
  · rw [advance_slot_active env st l s h]
    obtain ⟨_, _, _, _, _, _, _, _, g9, _⟩ := residual_floor_frame env
      { (advance_update env st l s).1 with firstlayer := false } l s
    show (residual_floor env { (advance_update env st l s).1 with firstlayer := false } l s).runoff
      = st.runoff
    rw [g9, advance_update_quiet env st l s hq]
    split_ifs <;> rfl
  · rw [advance_slot_inactive env st l s h]

theorem advance_slot_quiet (env : col_env R) (st : flux_state R) (l s : Nat) (hq : quiet st) :
    quiet (advance_slot env st l s) := by
  intro i
  rw [(advance_slot_frame env st l s).2.1]
  exact hq i

theorem advance_pass_quiet_runoff (env : col_env R) (st : flux_state R) (hq : quiet st) :
    quiet (advance_pass env st) ∧ (advance_pass env st).runoff = st.runoff := by
  apply advance_pass_invariant env (fun _ _ x => quiet x ∧ x.runoff = st.runoff) st
  · exact ⟨hq, rfl⟩
  · intro l s x _ _ hx
    exact ⟨advance_slot_quiet env x l s hx.1,
      (advance_slot_runoff_quiet env x l s hx.1).trans hx.2⟩
  · intro l x _ hx
    exact hx

theorem time_step_quiet_runoff (pw : R → R → R) (env : col_env R) (st : flux_state R)
    (hopen : unblocked env) (hq : quiet st) :
    quiet (time_step pw env st) ∧ (time_step pw env st).runoff = st.runoff := by
  have hc : quiet (cond_pass pw env { st with inflow := env.dt_inflow, last_cnt := 0 }) :=
    cond_pass_quiet pw env _ hopen hq
  have hr := (cond_pass_frame pw env { st with inflow := env.dt_inflow, last_cnt := 0 }).2.2.1
  obtain ⟨h1, h2⟩ := advance_pass_quiet_runoff env _ hc
  exact ⟨h1, h2.trans hr⟩

theorem time_loop_quiet_runoff (pw : R → R → R) (env : col_env R) (n : Nat) (st : flux_state R)
    (hopen : unblocked env) (hq : quiet st) :
    quiet (time_loop pw env n st) ∧ (time_loop pw env n st).runoff = st.runoff := by
  apply time_loop_invariant pw env (fun x => quiet x ∧ x.runoff = st.runoff) _ n st ⟨hq, rfl⟩
  intro x hx
  obtain ⟨h1, h2⟩ := time_step_quiet_runoff pw env x hopen hx.1
  exact ⟨h1, h2.trans hx.2⟩

theorem quiet_branch_init (pw : R → R → R) (opts : option_struct) (soil : soil_con_struct R)
    (layer : Nat → layer_data_struct R) (inflow : R) :
    quiet (branch_init pw opts soil layer inflow) := fun _ => rfl

/-- In a column without an impermeable slot the runoff output is the surface runoff of
the infiltration calculator: the hourly loop adds nothing to it. -/
theorem branch_runoff_unblocked (pw : R → R → R) (opts : option_struct)
    (soil : soil_con_struct R) (layer : Nat → layer_data_struct R) (inflow : R) (dt : Int)
    (hopen : unblocked (branch_env pw opts soil layer inflow dt)) :
    (branch_body pw opts soil layer inflow dt).runoff =
      surface_runoff pw soil.b_infilt inflow
        (top_moist_of opts (submoist_of soil layer) (subice_of layer) (submax_moist_of soil)
          (sublayer_of soil layer))
        (top_max_moist_of opts (submax_moist_of soil) (sublayer_of soil layer)) := by
  have h := (time_loop_quiet_runoff pw (branch_env pw opts soil layer inflow dt) dt.toNat
    (branch_init pw opts soil layer inflow) hopen (quiet_branch_init pw opts soil layer inflow)).2
  exact h

theorem unblocked_of_not_frozen (env : col_env R) (h : env.opts.FROZEN_SOIL = false) :
    unblocked env := by
  intro l _ hb
  have := hb.2.1
  rw [h] at this
  cases this


/-! ## Water balance of a column without an impermeable slot -/

theorem column_storage_set2_ge (w m : Nat → Nat → R) (l s : Nat) (v : R) (n : Nat)
    (h : n ≤ l) : column_storage w (set2 m l s v) n = column_storage w m n := by
  induction n with
  | zero => rfl
  | succ n ih =>
    have hn : n ≠ l := by omega
    simp only [column_storage, ih (by omega), set2, hn, false_and, if_false]

theorem column_storage_set2 (w m : Nat → Nat → R) (l s : Nat) (v : R) (n : Nat)
    (hl : l < n) (hs : s < 3) :
    column_storage w (set2 m l s v) n = column_storage w m n + w l s * (v - m l s) := by
  induction n with
  | zero => omega
  | succ n ih =>
    by_cases hln : l = n
    · subst hln
      simp only [column_storage, column_storage_set2_ge w m l s v l (le_refl l)]
      have h3 : s = 0 ∨ s = 1 ∨ s = 2 := by omega
      rcases h3 with h | h | h <;> subst h <;> simp [set2] <;> ring
    · have hn : ¬ n = l := fun h => hln h.symm
      simp only [column_storage, ih (by omega), set2, hn, false_and, if_false]
      ring

theorem column_storage_congr (w m m2 : Nat → Nat → R) (n : Nat)
    (h : ∀ l s, l < n → s < 3 → w l s * m l s = w l s * m2 l s) :
    column_storage w m n = column_storage w m2 n := by
  induction n with
  | zero => rfl
  | succ n ih =>
    simp only [column_storage]
    rw [ih (fun l s hl hs => h l s (by omega) hs), h n 0 (by omega) (by decide),
      h n 1 (by omega) (by decide), h n 2 (by omega) (by decide)]

/-- What an active slot does in a column without impermeable slots: only its own
moisture and `Q12` change, and moisture plus the flux handed down equals the updated
moisture plus the conductivity of the slot. -/
theorem advance_slot_quiet_spec (env : col_env R) (st : flux_state R) (l s : Nat)
    (hq : quiet st) (ha : active env l s) :
    ∃ v q, (advance_slot env st l s).submoist = set2 st.submoist l s v ∧
      (advance_slot env st l s).inflow = q * env.sublayer l s ∧
      (advance_slot env st l s).Q12 = set2 st.Q12 l s q ∧
      (advance_slot env st l s).firstlayer = false ∧
      (advance_slot env st l s).last_index = st.last_index + 1 ∧
      v + q = advance_moist env st l s + st.Q12 l s := by
  rw [advance_slot_active env st l s ha, advance_update_quiet env st l s hq]
  by_cases hover : advance_moist env st l s + env.subice l s > env.submax_moist l s
  · simp only [if_pos hover]
    by_cases hfl : env.submax_moist l s - env.subice l s + env.subice l s < env.resid_moist l
    · refine ⟨env.resid_moist l, st.Q12 l s + (env.submax_moist l s - env.subice l s
        - env.resid_moist l) + (advance_moist env st l s + env.subice l s
        - env.submax_moist l s), ?_, ?_, ?_, ?_, ?_, ?_⟩
      · simp only [hand_down, residual_floor, set2_same, set2_set2, hfl, if_true, if_false]
      · simp only [hand_down, residual_floor, set2_same, set2_set2, hfl, if_true, if_false]
      · simp only [hand_down, residual_floor, set2_same, set2_set2, hfl, if_true, if_false]
      · simp only [hand_down, residual_floor, set2_same, set2_set2, hfl, if_true, if_false]
      · simp only [hand_down, residual_floor, set2_same, set2_set2, hfl, if_true, if_false]
      · ring
    · refine ⟨env.submax_moist l s - env.subice l s, st.Q12 l s
        + (advance_moist env st l s + env.subice l s - env.submax_moist l s),
        ?_, ?_, ?_, ?_, ?_, ?_⟩
      · simp only [hand_down, residual_floor, set2_same, set2_set2, hfl, if_true, if_false]
      · simp only [hand_down, residual_floor, set2_same, set2_set2, hfl, if_true, if_false]
      · simp only [hand_down, residual_floor, set2_same, set2_set2, hfl, if_true, if_false]
      · simp only [hand_down, residual_floor, set2_same, set2_set2, hfl, if_true, if_false]
      · simp only [hand_down, residual_floor, set2_same, set2_set2, hfl, if_true, if_false]
      · ring
  · simp only [if_neg hover]
    by_cases hfl : advance_moist env st l s + env.subice l s < env.resid_moist l
    · refine ⟨env.resid_moist l, st.Q12 l s + (advance_moist env st l s - env.resid_moist l) + 0,
        ?_, ?_, ?_, ?_, ?_, ?_⟩
      · simp only [hand_down, residual_floor, set2_same, set2_set2, hfl, if_true, if_false]
      · simp only [hand_down, residual_floor, set2_same, set2_set2, hfl, if_true, if_false]
      · simp only [hand_down, residual_floor, set2_same, set2_set2, hfl, if_true, if_false]
      · simp only [hand_down, residual_floor, set2_same, set2_set2, hfl, if_true, if_false]
      · simp only [hand_down, residual_floor, set2_same, set2_set2, hfl, if_true, if_false]
      · ring
    · refine ⟨advance_moist env st l s, st.Q12 l s + 0, ?_, ?_, ?_, ?_, ?_, ?_⟩
      · simp only [hand_down, residual_floor, set2_same, set2_set2, hfl, if_true, if_false]
      · simp only [hand_down, residual_floor, set2_same, set2_set2, hfl, if_true, if_false]
      · simp only [hand_down, residual_floor, set2_same, set2_set2, hfl, if_true, if_false]
      · simp only [hand_down, residual_floor, set2_same, set2_set2, hfl, if_true, if_false]
      · simp only [hand_down, residual_floor, set2_same, set2_set2, hfl, if_true, if_false]
      · ring

theorem advance_slot_balance (env : col_env R) (st : flux_state R) (l s : Nat)
    (hl : l < env.opts.Nlayer) (hs : s < 3) (hq : quiet st) (ha : active env l s)
    (hevap : (st.layer l).evap = 0) :
    column_storage env.sublayer (advance_slot env st l s).submoist env.opts.Nlayer
        + (advance_slot env st l s).inflow
      = column_storage env.sublayer st.submoist env.opts.Nlayer + st.inflow
        - (if st.firstlayer = true then env.dt_runoff else 0) := by
  obtain ⟨v, q, h1, h2, _, _, _, h6⟩ := advance_slot_quiet_spec env st l s hq ha
  have hw : env.sublayer l s ≠ 0 := ne_of_gt ha.1
  have hv : v = advance_moist env st l s + st.Q12 l s - q := by linear_combination h6
  rw [h1, h2, column_storage_set2 _ _ _ _ _ _ hl hs, hv]
  unfold advance_moist
  rw [hevap]
  split_ifs
  · field_simp
    ring
  · field_simp
    ring

theorem writeback_layer_moist (env : col_env R) (st : flux_state R) (l s : Nat) (hs : s < 3) :
    layer_moist (writeback env st l).layer l s
      = if env.sublayer l s > 0 then st.submoist l s else 0 := by
  have h3 : s = 0 ∨ s = 1 ∨ s = 2 := by omega
  rcases h3 with h | h | h <;> subst h <;> simp [layer_moist, writeback, set1]

theorem writeback_layer_other (env : col_env R) (st : flux_state R) (l k : Nat) (h : k ≠ l) :
    (writeback env st l).layer k = st.layer k := by
  simp [writeback, set1, h]

/-- One advance pass over a column without impermeable slots and without evaporative
demand: the water of the slots plus the flux leaving the last visited slot equals
the water before plus the net infiltration of the sub-step, and every layer has been
written back from the final slot values. -/
theorem advance_pass_balance (env : col_env R) (st : flux_state R) (hq : quiet st)
    (hevap : ∀ l, l < env.opts.Nlayer → (st.layer l).evap = 0)
    (hup : ∃ l s, l < env.opts.Nlayer ∧ s < 3 ∧ active env l s) :
    quiet (advance_pass env st) ∧
      (∀ l, l < env.opts.Nlayer → ((advance_pass env st).layer l).evap = 0) ∧
      (advance_pass env st).dt_outflow = st.dt_outflow ∧
      column_storage env.sublayer (advance_pass env st).submoist env.opts.Nlayer
          + (advance_pass env st).inflow
        = column_storage env.sublayer st.submoist env.opts.Nlayer + st.inflow - env.dt_runoff ∧
      (∀ l s, l < env.opts.Nlayer → s < 3 →
        layer_moist (advance_pass env st).layer l s
          = if env.sublayer l s > 0 then (advance_pass env st).submoist l s else 0) := by
  have key := advance_pass_invariant env (fun l s x =>
    quiet x ∧ (∀ k, k < env.opts.Nlayer → (x.layer k).evap = 0) ∧
      x.dt_outflow = st.dt_outflow ∧
      column_storage env.sublayer x.submoist env.opts.Nlayer + x.inflow
          - (if x.firstlayer = true then env.dt_runoff else 0)
        = column_storage env.sublayer st.submoist env.opts.Nlayer + st.inflow - env.dt_runoff ∧
      ((∃ a b, a < env.opts.Nlayer ∧ b < 3 ∧ (a < l ∨ (a = l ∧ b < s)) ∧ active env a b) →
        x.firstlayer = false) ∧
      (∀ a b, a < l → b < 3 →
        layer_moist x.layer a b = if env.sublayer a b > 0 then x.submoist a b else 0)) st
    ?_ ?_ ?_
  · obtain ⟨k1, k2, k3, k4, k5, k6⟩ := key
    obtain ⟨a, b, ha, hb, hab⟩ := hup
    have hf := k5 ⟨a, b, ha, hb, Or.inl ha, hab⟩
    rw [hf] at k4
    refine ⟨k1, k2, k3, ?_, ?_⟩
    · simpa using k4
    · intro l s hl hs
      exact k6 l s hl hs
  · refine ⟨hq, hevap, rfl, ?_, ?_, ?_⟩
    · simp
    · rintro ⟨a, b, _, _, h | ⟨_, h⟩, _⟩
      · omega
      · omega
    · intro a b ha
      omega
  · intro l s x hl hs ⟨k1, k2, k3, k4, k5, k6⟩
    obtain ⟨f1, _, _, _, _, f6⟩ := advance_slot_frame env x l s
    by_cases ha : active env l s
    · obtain ⟨v, q, h1, h2, _, h4, _, _⟩ := advance_slot_quiet_spec env x l s k1 ha
      refine ⟨advance_slot_quiet env x l s k1, ?_, f6.trans k3, ?_, ?_, ?_⟩
      · intro k hk
        rw [f1]
        exact k2 k hk
      · have hb := advance_slot_balance env x l s hl hs k1 ha (k2 l hl)
        rw [h4]
        simp only [Bool.false_eq_true, if_false, sub_zero]
        rw [hb]
        exact k4
      · intro _
        exact h4
      · intro a b hal hb
        rw [f1, h1, set2_other _ _ _ _ _ _ (by omega)]
        exact k6 a b hal hb
    · rw [advance_slot_inactive env x l s ha]
      refine ⟨k1, k2, k3, k4, ?_, k6⟩
      rintro ⟨a, b, ha1, hb1, h | ⟨h1, h2⟩, hact⟩
      · exact k5 ⟨a, b, ha1, hb1, Or.inl h, hact⟩
      · by_cases hbs : b = s
        · subst hbs
          subst h1
          exact absurd hact ha
        · exact k5 ⟨a, b, ha1, hb1, Or.inr ⟨h1, by omega⟩, hact⟩
  · intro l x hl ⟨k1, k2, k3, k4, k5, k6⟩
    refine ⟨k1, ?_, k3, k4, ?_, ?_⟩
    · intro k hk
      rw [writeback_evap]
      exact k2 k hk
    · rintro ⟨a, b, ha1, hb1, h | ⟨_, h⟩, hact⟩
      · exact k5 ⟨a, b, ha1, hb1, (by
          by_cases hal : a = l
          · exact Or.inr ⟨hal, hb1⟩
          · exact Or.inl (by omega)), hact⟩
      · omega
    · intro a b hal hb
      by_cases h : a = l
      · subst h
        exact writeback_layer_moist env x a b hb
      · have h2 : layer_moist (writeback env x l).layer a b = layer_moist x.layer a b := by
          unfold layer_moist
          rw [writeback_layer_other env x l a h]
        rw [h2]
        exact k6 a b (by omega) hb

theorem time_step_balance (pw : R → R → R) (env : col_env R) (st : flux_state R)
    (hopen : unblocked env) (hq : quiet st)
    (hevap : ∀ l, l < env.opts.Nlayer → (st.layer l).evap = 0)
    (hup : ∃ l s, l < env.opts.Nlayer ∧ s < 3 ∧ active env l s) :
    quiet (time_step pw env st) ∧
      (∀ l, l < env.opts.Nlayer → ((time_step pw env st).layer l).evap = 0) ∧
      column_storage env.sublayer (time_step pw env st).submoist env.opts.Nlayer
          + (time_step pw env st).dt_outflow
        = column_storage env.sublayer st.submoist env.opts.Nlayer + st.dt_outflow
          + (env.dt_inflow - env.dt_runoff) ∧
      (∀ l s, l < env.opts.Nlayer → s < 3 →
        layer_moist (time_step pw env st).layer l s
          = if env.sublayer l s > 0 then (time_step pw env st).submoist l s else 0) := by
  obtain ⟨c1, c2, _, c4, c5, _, _⟩ :=
    cond_pass_frame pw env { st with inflow := env.dt_inflow, last_cnt := 0 }
  have hc : quiet (cond_pass pw env { st with inflow := env.dt_inflow, last_cnt := 0 }) :=
    cond_pass_quiet pw env _ hopen hq
  have hev : ∀ l, l < env.opts.Nlayer →
      ((cond_pass pw env { st with inflow := env.dt_inflow, last_cnt := 0 }).layer l).evap = 0 := by
    intro l hl
    rw [c1]
    exact hevap l hl
  obtain ⟨a1, a2, a3, a4, a5⟩ := advance_pass_balance env _ hc hev hup
  refine ⟨a1, a2, ?_, a5⟩
  show column_storage env.sublayer
        (advance_pass env (cond_pass pw env { st with inflow := env.dt_inflow, last_cnt := 0 })).submoist
        env.opts.Nlayer
      + ((advance_pass env
            (cond_pass pw env { st with inflow := env.dt_inflow, last_cnt := 0 })).dt_outflow
        + (advance_pass env
            (cond_pass pw env { st with inflow := env.dt_inflow, last_cnt := 0 })).inflow) = _
  rw [a3, c5]
  rw [c2, c4] at a4
  have e1 : ({ st with inflow := env.dt_inflow, last_cnt := 0 } : flux_state R).submoist
      = st.submoist := rfl
  have e2 : ({ st with inflow := env.dt_inflow, last_cnt := 0 } : flux_state R).inflow
      = env.dt_inflow := rfl
  have e3 : ({ st with inflow := env.dt_inflow, last_cnt := 0 } : flux_state R).dt_outflow
      = st.dt_outflow := rfl
  rw [e1, e2] at a4
  rw [e3]
  linear_combination a4

theorem time_loop_balance (pw : R → R → R) (env : col_env R) (n : Nat) (st : flux_state R)
    (hopen : unblocked env) (hq : quiet st)
    (hevap : ∀ l, l < env.opts.Nlayer → (st.layer l).evap = 0)
    (hup : ∃ l s, l < env.opts.Nlayer ∧ s < 3 ∧ active env l s) :
    quiet (time_loop pw env n st) ∧
      (∀ l, l < env.opts.Nlayer → ((time_loop pw env n st).layer l).evap = 0) ∧
      column_storage env.sublayer (time_loop pw env n st).submoist env.opts.Nlayer
          + (time_loop pw env n st).dt_outflow
        = column_storage env.sublayer st.submoist env.opts.Nlayer + st.dt_outflow
          + (n : R) * (env.dt_inflow - env.dt_runoff) := by
  induction n with
  | zero =>
    refine ⟨hq, hevap, ?_⟩
    simp [time_loop]
  | succ n ih =>
    obtain ⟨i1, i2, i3⟩ := ih
    rw [time_loop_succ]
    obtain ⟨s1, s2, s3, _⟩ := time_step_balance pw env _ hopen i1 i2 hup
    refine ⟨s1, s2, ?_⟩
    rw [s3, i3]
    push_cast
    ring

/-- The bound checks of the bottom layer move water between moisture and baseflow
only: their sum is the moisture before plus what came in minus the evaporation. -/
theorem bottom_update_conserves (env : col_env R) (l : Nat) (evap moist baseflow inflow : R) :
    (bottom_update env l evap moist baseflow inflow).1
        + (bottom_update env l evap moist baseflow inflow).2
      = moist + inflow / env.sublayer l 2 - evap := by
  unfold bottom_update
  simp only
  split_ifs <;> simp only [] <;> ring

theorem int_toNat_cast (dt : Int) (h : 1 ≤ dt) :
    ((dt.toNat : Nat) : R) = (dt : R) ∧ 1 ≤ dt.toNat := by
  have h0 : (0 : Int) ≤ dt := by omega
  have h1 : ((dt.toNat : Nat) : Int) = dt := Int.toNat_of_nonneg h0
  refine ⟨?_, by omega⟩
  have h2 : ((dt.toNat : Nat) : R) = (((dt.toNat : Nat) : Int) : R) := by push_cast; rfl
  rw [h2, h1]

theorem int_cast_pos (dt : Int) (h : 1 ≤ dt) : (0 : R) < (dt : R) := by
  have : (0 : Int) < dt := by omega
  exact_mod_cast this

theorem entry_storage_eq (soil : soil_con_struct R) (layer : Nat → layer_data_struct R) (N : Nat)
    (hfroz : ∀ l, l < N → 0 < sublayer_of soil layer l 1 →
      (layer l).moist_froz ≤ soil.max_moist l)
    (hnonneg : ∀ l s, l < N → s < 3 → 0 ≤ sublayer_of soil layer l s) :
    column_storage (sublayer_of soil layer) (layer_moist layer) N
      = column_storage (sublayer_of soil layer) (submoist_of soil layer) N := by
  apply column_storage_congr
  intro l s hl hs
  have h3 : s = 0 ∨ s = 1 ∨ s = 2 := by omega
  rcases h3 with h | h | h <;> subst h
  · rfl
  · rcases lt_or_eq_of_le (hnonneg l 1 hl hs) with hpos | hzero
    · have := hfroz l hl hpos
      simp [layer_moist, submoist_of, not_lt.2 this]
    · rw [← hzero]
      simp
  · rfl

/-- Water balance of one branch (shared by the amended C1 and its uses). -/
theorem branch_body_balance (pw : R → R → R) (opts : option_struct) (soil : soil_con_struct R)
    (layer : Nat → layer_data_struct R) (inflow : R) (dt : Int)
    (hdt : 1 ≤ dt)
    (hevap : ∀ l, l < opts.Nlayer → (layer l).evap = 0)
    (hnonneg : ∀ l s, l < opts.Nlayer → s < 3 → 0 ≤ sublayer_of soil layer l s)
    (hbottom : 0 < sublayer_of soil layer (opts.Nlayer - 1) 2)
    (hup : ∃ l s, l < opts.Nlayer ∧ s < 3 ∧ active (branch_env pw opts soil layer inflow dt) l s)
    (hfroz : ∀ l, l < opts.Nlayer → 0 < sublayer_of soil layer l 1 →
      (layer l).moist_froz ≤ soil.max_moist l)
    (hopen : unblocked (branch_env pw opts soil layer inflow dt)) :
    inflow = (branch_body pw opts soil layer inflow dt).runoff
      + (branch_body pw opts soil layer inflow dt).baseflow
      + (column_storage (sublayer_of soil layer)
            (layer_moist (branch_body pw opts soil layer inflow dt).layer) opts.Nlayer
          - column_storage (sublayer_of soil layer) (layer_moist layer) opts.Nlayer) := by
  obtain ⟨hcast, hn1⟩ := int_toNat_cast (R := R) dt hdt
  have hdtpos : (0 : R) < (dt : R) := int_cast_pos dt hdt
  obtain ⟨n, hn⟩ : ∃ n, dt.toNat = n + 1 := ⟨dt.toNat - 1, by omega⟩
  have hN : opts.Nlayer - 1 < opts.Nlayer := by
    obtain ⟨l, _, hl, _⟩ := hup
    omega
  have hrun := branch_runoff_unblocked pw opts soil layer inflow dt hopen
  -- the state before the last pass of the hourly loop
  obtain ⟨q1, q2, q3⟩ := time_loop_balance pw (branch_env pw opts soil layer inflow dt) n
    (branch_init pw opts soil layer inflow) hopen (quiet_branch_init pw opts soil layer inflow)
    hevap hup
  obtain ⟨_, s2, s3, s4⟩ := time_step_balance pw (branch_env pw opts soil layer inflow dt)
    (time_loop pw (branch_env pw opts soil layer inflow dt) n (branch_init pw opts soil layer inflow))
    hopen q1 q2 hup
  rw [← time_loop_succ, ← hn] at s2 s3 s4
  rw [q3] at s3
  have hcons := bottom_update_conserves (branch_env pw opts soil layer inflow dt) (opts.Nlayer - 1)
    (((time_loop pw (branch_env pw opts soil layer inflow dt) dt.toNat
        (branch_init pw opts soil layer inflow)).layer (opts.Nlayer - 1)).evap)
    ((time_loop pw (branch_env pw opts soil layer inflow dt) dt.toNat
        (branch_init pw opts soil layer inflow)).submoist (opts.Nlayer - 1) 2)
    (arno_baseflow pw soil dt (opts.Nlayer - 1)
      ((time_loop pw (branch_env pw opts soil layer inflow dt) dt.toNat
        (branch_init pw opts soil layer inflow)).submoist (opts.Nlayer - 1) 2))
    ((time_loop pw (branch_env pw opts soil layer inflow dt) dt.toNat
        (branch_init pw opts soil layer inflow)).dt_outflow)
  have hev0 := s2 _ hN
  -- storage of the layer array written by the branch
  have hfinal : column_storage (sublayer_of soil layer)
      (layer_moist (branch_body pw opts soil layer inflow dt).layer) opts.Nlayer
      = column_storage (sublayer_of soil layer)
          (set2 (time_loop pw (branch_env pw opts soil layer inflow dt) dt.toNat
            (branch_init pw opts soil layer inflow)).submoist (opts.Nlayer - 1) 2
            (bottom_update (branch_env pw opts soil layer inflow dt) (opts.Nlayer - 1)
              (((time_loop pw (branch_env pw opts soil layer inflow dt) dt.toNat
                (branch_init pw opts soil layer inflow)).layer (opts.Nlayer - 1)).evap)
              ((time_loop pw (branch_env pw opts soil layer inflow dt) dt.toNat
                (branch_init pw opts soil layer inflow)).submoist (opts.Nlayer - 1) 2)
              (arno_baseflow pw soil dt (opts.Nlayer - 1)
                ((time_loop pw (branch_env pw opts soil layer inflow dt) dt.toNat
                  (branch_init pw opts soil layer inflow)).submoist (opts.Nlayer - 1) 2))
              ((time_loop pw (branch_env pw opts soil layer inflow dt) dt.toNat
                (branch_init pw opts soil layer inflow)).dt_outflow)).1) opts.Nlayer := by
    apply column_storage_congr
    intro l s hl hs
    by_cases hls : l = opts.Nlayer - 1 ∧ s = 2
    · obtain ⟨h1, h2⟩ := hls
      subst h2
      rw [h1, set2_same]
      simp [branch_body, layer_moist, set1]
    · rw [set2_other _ _ _ _ _ _ hls]
      have hlm : layer_moist (branch_body pw opts soil layer inflow dt).layer l s
          = layer_moist (time_loop pw (branch_env pw opts soil layer inflow dt) dt.toNat
              (branch_init pw opts soil layer inflow)).layer l s := by
        by_cases hl2 : l = opts.Nlayer - 1
        · have hs2 : s ≠ 2 := fun h => hls ⟨hl2, h⟩
          have h3 : s = 0 ∨ s = 1 := by omega
          subst hl2
          rcases h3 with h | h <;> subst h <;> simp [branch_body, layer_moist, set1]
        · unfold layer_moist
          simp [branch_body, set1, hl2]
      rw [hlm, s4 l s hl hs]
      rcases lt_or_eq_of_le (hnonneg l s hl hs) with hpos | hzero
      · have hp : (branch_env pw opts soil layer inflow dt).sublayer l s > 0 := hpos
        rw [if_pos hp]
      · rw [← hzero]
        simp
  rw [hfinal, column_storage_set2 _ _ _ _ _ _ hN (by decide),
    entry_storage_eq soil layer opts.Nlayer hfroz hnonneg, hrun]
  have hw : sublayer_of soil layer (opts.Nlayer - 1) 2 ≠ 0 := ne_of_gt hbottom
  have hb : (branch_body pw opts soil layer inflow dt).baseflow
      = (bottom_update (branch_env pw opts soil layer inflow dt) (opts.Nlayer - 1)
          (((time_loop pw (branch_env pw opts soil layer inflow dt) dt.toNat
            (branch_init pw opts soil layer inflow)).layer (opts.Nlayer - 1)).evap)
          ((time_loop pw (branch_env pw opts soil layer inflow dt) dt.toNat
            (branch_init pw opts soil layer inflow)).submoist (opts.Nlayer - 1) 2)
          (arno_baseflow pw soil dt (opts.Nlayer - 1)
            ((time_loop pw (branch_env pw opts soil layer inflow dt) dt.toNat
              (branch_init pw opts soil layer inflow)).submoist (opts.Nlayer - 1) 2))
          ((time_loop pw (branch_env pw opts soil layer inflow dt) dt.toNat
            (branch_init pw opts soil layer inflow)).dt_outflow)).2
        * sublayer_of soil layer (opts.Nlayer - 1) 2 := rfl
  rw [hb]
  have e1 : (branch_env pw opts soil layer inflow dt).sublayer = sublayer_of soil layer := rfl
  have e2 : (branch_init pw opts soil layer inflow).submoist = submoist_of soil layer := rfl
  have e3 : (branch_init pw opts soil layer inflow).dt_outflow = 0 := rfl
  have e4 : (branch_env pw opts soil layer inflow dt).dt_inflow = inflow / (dt : R) := rfl
  have e5 : (branch_env pw opts soil layer inflow dt).dt_runoff
      = surface_runoff pw soil.b_infilt inflow
        (top_moist_of opts (submoist_of soil layer) (subice_of layer) (submax_moist_of soil)
          (sublayer_of soil layer))
        (top_max_moist_of opts (submax_moist_of soil) (sublayer_of soil layer)) / (dt : R) := rfl
  have e0 : (branch_env pw opts soil layer inflow dt).opts.Nlayer = opts.Nlayer := rfl
  rw [e1, e2, e3, e4, e5, e0] at s3
  rw [e1] at hcons
  have hcast2 : ((n : R) + 1) = (dt : R) := by
    rw [← hcast, hn]
    push_cast
    ring
  have hdtne : (dt : R) ≠ 0 := ne_of_gt hdtpos
  have hstep : ((n : R) * (inflow / (dt : R) - surface_runoff pw soil.b_infilt inflow
        (top_moist_of opts (submoist_of soil layer) (subice_of layer) (submax_moist_of soil)
          (sublayer_of soil layer))
        (top_max_moist_of opts (submax_moist_of soil) (sublayer_of soil layer)) / (dt : R))
      + (inflow / (dt : R) - surface_runoff pw soil.b_infilt inflow
        (top_moist_of opts (submoist_of soil layer) (subice_of layer) (submax_moist_of soil)
          (sublayer_of soil layer))
        (top_max_moist_of opts (submax_moist_of soil) (sublayer_of soil layer)) / (dt : R)))
      = inflow - surface_runoff pw soil.b_infilt inflow
        (top_moist_of opts (submoist_of soil layer) (subice_of layer) (submax_moist_of soil)
          (sublayer_of soil layer))
        (top_max_moist_of opts (submax_moist_of soil) (sublayer_of soil layer)) := by
    rw [← hcast2]
    have hn0 : ((n : R) + 1) ≠ 0 := by rw [hcast2]; exact hdtne
    field_simp
    ring
  have hdiv : (time_loop pw (branch_env pw opts soil layer inflow dt) dt.toNat
        (branch_init pw opts soil layer inflow)).dt_outflow / sublayer_of soil layer (opts.Nlayer - 1) 2
        * sublayer_of soil layer (opts.Nlayer - 1) 2
      = (time_loop pw (branch_env pw opts soil layer inflow dt) dt.toNat
        (branch_init pw opts soil layer inflow)).dt_outflow := by
    field_simp
  linear_combination (-1 : R) * s3 - hstep
    - sublayer_of soil layer (opts.Nlayer - 1) 2 * hcons - hdiv
    + sublayer_of soil layer (opts.Nlayer - 1) 2 * hev0


/-- Claim C1 (counterexample).  A closed two-layer column, no evaporative demand, one
sub-step, no inflow, no drainage (`Ksat = 0`, `Dsmax = 0`).  The frozen slot of the
first layer enters with 150 mm, above the capacity of 100 mm; the state builder clamps
it.  Runoff and baseflow are 0, yet the stored water has dropped by 25 mm: the
balance `inflow = runoff + baseflow + change of storage` fails. -/
theorem C1_counterexample_clamped_frozen_slot :
    (∀ l, l < plain_opts.Nlayer → (overfull_frozen_layer l).evap = 0) ∧
      (branch_body int_pow plain_opts still_soil overfull_frozen_layer 0 1).runoff = 0 ∧
      (branch_body int_pow plain_opts still_soil overfull_frozen_layer 0 1).baseflow = 0 ∧
      column_storage (sublayer_of still_soil overfull_frozen_layer)
          (layer_moist (branch_body int_pow plain_opts still_soil overfull_frozen_layer 0 1).layer)
          plain_opts.Nlayer
        - column_storage (sublayer_of still_soil overfull_frozen_layer)
            (layer_moist overfull_frozen_layer) plain_opts.Nlayer = -25 ∧
      (0 : ℚ) ≠ (branch_body int_pow plain_opts still_soil overfull_frozen_layer 0 1).runoff
        + (branch_body int_pow plain_opts still_soil overfull_frozen_layer 0 1).baseflow
        + (column_storage (sublayer_of still_soil overfull_frozen_layer)
            (layer_moist (branch_body int_pow plain_opts still_soil overfull_frozen_layer 0 1).layer)
            plain_opts.Nlayer
          - column_storage (sublayer_of still_soil overfull_frozen_layer)
              (layer_moist overfull_frozen_layer) plain_opts.Nlayer) := by
  have h1 : (branch_body int_pow plain_opts still_soil overfull_frozen_layer 0 1).runoff = 0 := by
    norm_num [branch_body, time_loop, time_step, cond_pass, advance_pass, advance_layer,
      advance_slot, advance_update, advance_moist, residual_floor, hand_down, cond_slot,
      writeback, branch_env, branch_init, plain_opts, still_soil, overfull_frozen_layer,
      List.range_succ, set1, set2, sublayer_of, submoist_of, subice_of, submax_moist_of,
      resid_moist_of, surface_runoff]
  have h2 : (branch_body int_pow plain_opts still_soil overfull_frozen_layer 0 1).baseflow = 0 := by
    norm_num [branch_body, time_loop, time_step, cond_pass, advance_pass, advance_layer,
      advance_slot, advance_update, advance_moist, residual_floor, hand_down, cond_slot,
      writeback, branch_env, branch_init, plain_opts, still_soil, overfull_frozen_layer,
      List.range_succ, set1, set2, sublayer_of, submoist_of, subice_of, submax_moist_of,
      resid_moist_of, surface_runoff, bottom_update, arno_baseflow]
  have h3 : column_storage (sublayer_of still_soil overfull_frozen_layer)
      (layer_moist (branch_body int_pow plain_opts still_soil overfull_frozen_layer 0 1).layer)
      plain_opts.Nlayer
      - column_storage (sublayer_of still_soil overfull_frozen_layer)
          (layer_moist overfull_frozen_layer) plain_opts.Nlayer = -25 := by
    norm_num [column_storage, layer_moist, branch_body, time_loop, time_step, cond_pass,
      advance_pass, advance_layer, advance_slot, advance_update, advance_moist, residual_floor,
      hand_down, cond_slot, writeback, branch_env, branch_init, plain_opts, still_soil,
      overfull_frozen_layer, List.range_succ, set1, set2, sublayer_of, submoist_of, subice_of,
      submax_moist_of, resid_moist_of, surface_runoff, bottom_update, arno_baseflow]
  refine ⟨?_, h1, h2, h3, ?_⟩
  · intro l _
    unfold overfull_frozen_layer
    split_ifs <;> rfl
  · rw [h1, h2, h3]
    norm_num

/-- Claim C1 (amended).  Take a column and a sub-step count `dt >= 1` such that: every layer
has zero evaporative demand and no negative moisture; every thickness fraction is
non-negative; the bottom layer has an unfrozen part; some slot other than the bottom
reservoir has positive thickness; no frozen slot of positive thickness enters above
capacity; and no active frozen slot meets the impermeability test.  Then the branch
completes and `inflow = runoff + baseflow + change of storage`, storage being the sum
over layers and sublayers of moisture weighted by thickness fraction, final written
layer state minus entry layer state. -/
theorem C1_mass_conservation_open_column (pw : R → R → R) (opts : option_struct)
    (soil : soil_con_struct R) (layer : Nat → layer_data_struct R) (inflow : R) (dt : Int)
    (hdt : 1 ≤ dt)
    (hneg : ¬ has_negative layer opts.Nlayer)
    (hevap : ∀ l, l < opts.Nlayer → (layer l).evap = 0)
    (hnonneg : ∀ l s, l < opts.Nlayer → s < 3 → 0 ≤ sublayer_of soil layer l s)
    (hbottom : 0 < sublayer_of soil layer (opts.Nlayer - 1) 2)
    (hup : ∃ l s, l < opts.Nlayer ∧ s < 3 ∧ active (branch_env pw opts soil layer inflow dt) l s)
    (hfroz : ∀ l, l < opts.Nlayer → 0 < sublayer_of soil layer l 1 →
      (layer l).moist_froz ≤ soil.max_moist l)
    (hopen : unblocked (branch_env pw opts soil layer inflow dt)) :
    ∃ r, runoff_branch pw opts soil layer inflow dt = Except.ok r ∧
      inflow = r.runoff + r.baseflow
        + (column_storage (sublayer_of soil layer) (layer_moist r.layer) opts.Nlayer
          - column_storage (sublayer_of soil layer) (layer_moist layer) opts.Nlayer) :=
  ⟨branch_body pw opts soil layer inflow dt,
    runoff_branch_ok_of_not_negative pw opts soil layer inflow dt hneg,
    branch_body_balance pw opts soil layer inflow dt hdt hevap hnonneg hbottom hup hfroz hopen⟩

theorem plain_sublayer (l s : Nat) :
    sublayer_of still_soil plain_layer l s = if s = 2 then 1 else 0 := by
  unfold sublayer_of still_soil plain_layer
  split <;> simp_all

theorem C1_mass_conservation_open_column_witness :
    ∃ r, runoff_branch int_pow plain_opts still_soil plain_layer 5 1 = Except.ok r ∧
      (5 : ℚ) = r.runoff + r.baseflow
        + (column_storage (sublayer_of still_soil plain_layer) (layer_moist r.layer)
            plain_opts.Nlayer
          - column_storage (sublayer_of still_soil plain_layer) (layer_moist plain_layer)
            plain_opts.Nlayer) :=
  C1_mass_conservation_open_column int_pow plain_opts still_soil plain_layer 5 1
    (by decide) not_has_negative_plain
    (fun _ _ => rfl)
    (fun l s _ _ => by rw [plain_sublayer]; split_ifs <;> norm_num)
    (by rw [plain_sublayer]; norm_num)
    ⟨0, 2, by decide, by decide, by
      refine ⟨?_, ?_⟩
      · show sublayer_of still_soil plain_layer 0 2 > 0
        rw [plain_sublayer]
        norm_num
      · simp [branch_env, plain_opts]⟩
    (fun l _ h => by rw [plain_sublayer] at h; norm_num at h)
    (unblocked_of_not_frozen _ rfl)


/-! ## The history of active slots -/

theorem cond_guard_iff (env : col_env R) (l s : Nat) :
    (env.sublayer l s > 0 ∧
        (l ≠ env.opts.Nlayer - 1 ∨ (l = env.opts.Nlayer - 1 ∧ s ≠ 2))) ↔ active env l s := by
  unfold active
  constructor
  · rintro ⟨h1, h2⟩
    refine ⟨h1, ?_⟩
    rintro ⟨h3, h4⟩
    rcases h2 with h | ⟨_, h⟩
    · exact h h3
    · exact h h4
  · rintro ⟨h1, h2⟩
    refine ⟨h1, ?_⟩
    by_cases h : l = env.opts.Nlayer - 1
    · exact Or.inr ⟨h, fun h4 => h2 ⟨h, h4⟩⟩
    · exact Or.inl h

theorem cond_slot_inactive (pw : R → R → R) (env : col_env R) (st : flux_state R) (l s : Nat)
    (h : ¬ active env l s) : cond_slot pw env st l s = st := by
  unfold cond_slot
  rw [if_neg (fun hc => h ((cond_guard_iff env l s).1 hc))]

theorem cond_slot_history (pw : R → R → R) (env : col_env R) (st : flux_state R) (l s : Nat)
    (h : active env l s) :
    (cond_slot pw env st l s).last_cnt = st.last_cnt + 1 ∧
      (cond_slot pw env st l s).last_layer = set1 st.last_layer st.last_cnt l ∧
      (cond_slot pw env st l s).last_sub = set1 st.last_sub st.last_cnt s := by
  unfold cond_slot
  rw [if_pos ((cond_guard_iff env l s).2 h)]
  simp only
  exact ⟨trivial, trivial, trivial⟩

theorem slot_position_succ_active (env : col_env R) (k : Nat) (h : active_at env k) :
    slot_position env (k + 1) = slot_position env k + 1 := by
  unfold slot_position
  rw [Nat.count_succ, if_pos h]

theorem slot_position_succ_inactive (env : col_env R) (k : Nat) (h : ¬ active_at env k) :
    slot_position env (k + 1) = slot_position env k := by
  unfold slot_position
  rw [Nat.count_succ, if_neg h]
  rfl

theorem slot_position_mono (env : col_env R) {a b : Nat} (h : a ≤ b) :
    slot_position env a ≤ slot_position env b :=
  Nat.count_monotone _ h

theorem active_at_linear (env : col_env R) (l s : Nat) (hs : s < 3) :
    active_at env (3 * l + s) ↔ active env l s := by
  unfold active_at
  have h1 : (3 * l + s) / 3 = l := by omega
  have h2 : (3 * l + s) % 3 = s := by omega
  rw [h1, h2]

/-- After the conductivity pass, started with `last_cnt = 0`, the history arrays list the
active slots of the column in visiting order. -/
theorem cond_pass_history (pw : R → R → R) (env : col_env R) (st : flux_state R)
    (h0 : st.last_cnt = 0) :
    history_upto env (cond_pass pw env st) (3 * env.opts.Nlayer) := by
  apply cond_pass_invariant pw env (fun k x => history_upto env x k) st
  · refine ⟨?_, ?_⟩
    · rw [h0]
      simp [slot_position]
    · intro i hi
      rw [h0] at hi
      omega
  · intro l s x _ hs ⟨hc, hh⟩
    by_cases ha : active env l s
    · obtain ⟨c1, c2, c3⟩ := cond_slot_history pw env x l s ha
      have hak : active_at env (3 * l + s) := (active_at_linear env l s hs).2 ha
      refine ⟨?_, ?_⟩
      · rw [c1, hc, slot_position_succ_active env _ hak]
      · intro i hi
        rw [c1] at hi
        rw [c2, c3]
        by_cases hix : i = x.last_cnt
        · refine ⟨3 * l + s, by omega, hak, ?_, ?_, ?_⟩
          · rw [hix, hc]
          · simp only [set1, hix, if_true]
            omega
          · simp only [set1, hix, if_true]
            omega
        · obtain ⟨j, hj, hja, hjp, hl, hsb⟩ := hh i (by omega)
          refine ⟨j, by omega, hja, hjp, ?_, ?_⟩
          · simp only [set1, hix, if_false]
            exact hl
          · simp only [set1, hix, if_false]
            exact hsb
    · rw [cond_slot_inactive pw env x l s ha]
      have hak : ¬ active_at env (3 * l + s) := fun h => ha ((active_at_linear env l s hs).1 h)
      refine ⟨?_, ?_⟩
      · rw [hc, slot_position_succ_inactive env _ hak]
      · intro i hi
        obtain ⟨j, hj, hja, hjp, hl, hsb⟩ := hh i hi
        exact ⟨j, by omega, hja, hjp, hl, hsb⟩

/-- What the history tells about the slot being processed: its own entry sits at its
position, and the layer entries below that position never exceed its layer and stay on
its layer once they reach it. -/
theorem history_at_slot (env : col_env R) (st : flux_state R) (l s : Nat)
    (hl : l < env.opts.Nlayer) (hs : s < 3)
    (hh : history_upto env st (3 * env.opts.Nlayer)) (ha : active env l s) :
    st.last_layer (slot_position env (3 * l + s)) = l ∧
      st.last_sub (slot_position env (3 * l + s)) = s ∧
      (∀ i, i < slot_position env (3 * l + s) → st.last_layer i = l → st.last_layer (i + 1) = l) ∧
      (∀ i, i ≤ slot_position env (3 * l + s) → active env (st.last_layer i) (st.last_sub i)) := by
  obtain ⟨hc, hall⟩ := hh
  have hak : active_at env (3 * l + s) := (active_at_linear env l s hs).2 ha
  have hk : 3 * l + s < 3 * env.opts.Nlayer := by omega
  have hp : slot_position env (3 * l + s) < st.last_cnt := by
    rw [hc]
    have h1 := slot_position_succ_active env _ hak
    have h2 : slot_position env (3 * l + s + 1) ≤ slot_position env (3 * env.opts.Nlayer) :=
      slot_position_mono env (by omega)
    omega
  -- every entry up to the position of the slot comes from a slot not beyond it
  have hentry : ∀ i, i ≤ slot_position env (3 * l + s) →
      ∃ j, j ≤ 3 * l + s ∧ active_at env j ∧ slot_position env j = i ∧
        st.last_layer i = j / 3 ∧ st.last_sub i = j % 3 := by
    intro i hi
    obtain ⟨j, _, hja, hjp, h1, h2⟩ := hall i (by omega)
    refine ⟨j, ?_, hja, hjp, h1, h2⟩
    by_contra hgt
    have hlt : 3 * l + s < j := by omega
    have := Nat.count_strict_mono (p := active_at env) hak hlt
    unfold slot_position at hjp hi
    omega
  obtain ⟨j, _, hja, hjp, h1, h2⟩ := hentry _ (le_refl _)
  have hjk : j = 3 * l + s := Nat.count_injective hja hak hjp
  refine ⟨?_, ?_, ?_, ?_⟩
  · rw [h1, hjk]
    omega
  · rw [h2, hjk]
    omega
  · intro i hi hli
    obtain ⟨a, _, haa, hap, ha1, _⟩ := hentry i (by omega)
    obtain ⟨b, hbk, hba, hbp, hb1, _⟩ := hentry (i + 1) (by omega)
    have hab : a < b := by
      by_contra hge
      have := slot_position_mono env (not_lt.1 hge)
      omega
    rw [hb1]
    rw [ha1] at hli
    have h3 : a / 3 ≤ b / 3 := Nat.div_le_div_right (le_of_lt hab)
    have h4 : b / 3 ≤ (3 * l + s) / 3 := Nat.div_le_div_right hbk
    have h5 : (3 * l + s) / 3 = l := by omega
    omega
  · intro i hi
    obtain ⟨a, _, haa, _, ha1, ha2⟩ := hentry i hi
    rw [ha1, ha2]
    exact haa


/-! ## Moisture bounds of the written-back slots -/

/-- The upward walk changes the slots of the layer being processed only by resetting
them to capacity minus ice. -/
theorem push_up_layer (env : col_env R) (l : Nat) (t : Nat) (st : flux_state R)
    (hmono : ∀ i, i < t → st.last_layer i = l → st.last_layer (i + 1) = l) (s2 : Nat) :
    (push_up env t st).2.submoist l s2 = st.submoist l s2 ∨
      (push_up env t st).2.submoist l s2 = env.submax_moist l s2 - env.subice l s2 := by
  induction t generalizing st with
  | zero => exact Or.inl rfl
  | succ t ih =>
    unfold push_up
    simp only
    split_ifs with hover
    · have hrec := ih { st with
        Q12 := set2 st.Q12 (st.last_layer t) (st.last_sub (t + 1))
          (st.Q12 (st.last_layer t) (st.last_sub (t + 1))
            - (st.submoist (st.last_layer (t + 1)) (st.last_sub (t + 1))
                + env.subice (st.last_layer (t + 1)) (st.last_sub (t + 1))
                - env.submax_moist (st.last_layer (t + 1)) (st.last_sub (t + 1)))
              * env.sublayer (st.last_layer (t + 1)) (st.last_sub (t + 1))
              / env.sublayer (st.last_layer t) (st.last_sub (t + 1)))
        submoist := set2 (set2 st.submoist (st.last_layer t) (st.last_sub (t + 1))
          (st.submoist (st.last_layer t) (st.last_sub (t + 1))
            + (st.submoist (st.last_layer (t + 1)) (st.last_sub (t + 1))
                + env.subice (st.last_layer (t + 1)) (st.last_sub (t + 1))
                - env.submax_moist (st.last_layer (t + 1)) (st.last_sub (t + 1)))
              * env.sublayer (st.last_layer (t + 1)) (st.last_sub (t + 1))
              / env.sublayer (st.last_layer t) (st.last_sub (t + 1))))
          (st.last_layer (t + 1)) (st.last_sub (t + 1))
          (env.submax_moist (st.last_layer (t + 1)) (st.last_sub (t + 1))
            - env.subice (st.last_layer (t + 1)) (st.last_sub (t + 1))) }
        (fun i hi h => hmono i (by omega) h)
      rcases hrec with h | h
      · rw [h]
        simp only
        by_cases hsrc : l = st.last_layer (t + 1) ∧ s2 = st.last_sub (t + 1)
        · right
          obtain ⟨h1, h2⟩ := hsrc
          rw [h1, h2, set2_same]
        · rw [set2_other _ _ _ _ _ _ hsrc]
          by_cases htgt : l = st.last_layer t ∧ s2 = st.last_sub (t + 1)
          · exfalso
            apply hsrc
            exact ⟨(hmono t (by omega) htgt.1.symm).symm, htgt.2⟩
          · left
            rw [set2_other _ _ _ _ _ _ htgt]
      · exact Or.inr h
    · exact Or.inl rfl

theorem redistribute_up_layer (env : col_env R) (l : Nat) (st : flux_state R)
    (hmono : ∀ i, i < st.last_index → st.last_layer i = l → st.last_layer (i + 1) = l)
    (s2 : Nat) :
    (redistribute_up env st).submoist l s2 = st.submoist l s2 ∨
      (redistribute_up env st).submoist l s2 = env.submax_moist l s2 - env.subice l s2 := by
  have hp := push_up_layer env l st.last_index st hmono s2
  unfold redistribute_up
  simp only
  split_ifs with h
  · simp only
    by_cases hs : l = (push_up env st.last_index st).2.last_layer (push_up env st.last_index st).1 ∧
        s2 = (push_up env st.last_index st).2.last_sub (push_up env st.last_index st).1
    · right
      obtain ⟨h1, h2⟩ := hs
      rw [h1, h2, set2_same]
    · rw [set2_other _ _ _ _ _ _ hs]
      exact hp
  · exact hp

/-- The slot that starts the upward walk ends at capacity minus ice. -/
theorem redistribute_up_current (env : col_env R) (l s : Nat) (st : flux_state R)
    (hpos : 0 < st.last_index)
    (hl : st.last_layer st.last_index = l) (hs : st.last_sub st.last_index = s)
    (hmono : ∀ i, i < st.last_index → st.last_layer i = l → st.last_layer (i + 1) = l)
    (hover : st.submoist l s + env.subice l s > env.submax_moist l s) :
    (redistribute_up env st).submoist l s = env.submax_moist l s - env.subice l s := by
  obtain ⟨p, hp⟩ : ∃ p, st.last_index = p + 1 := ⟨st.last_index - 1, by omega⟩
  have hfirst : ∀ s2, (push_up env st.last_index st).2.submoist l s2
      = (if s2 = s then env.submax_moist l s - env.subice l s else st.submoist l s2) ∨
      (push_up env st.last_index st).2.submoist l s2
        = env.submax_moist l s2 - env.subice l s2 := by
    intro s2
    rw [hp] at hl hs hmono ⊢
    unfold push_up
    simp only
    rw [hl, hs, if_pos hover]
    have hrec := push_up_layer env l p { st with
        Q12 := set2 st.Q12 (st.last_layer p) s
          (st.Q12 (st.last_layer p) s
            - (st.submoist l s + env.subice l s - env.submax_moist l s)
              * env.sublayer l s / env.sublayer (st.last_layer p) s)
        submoist := set2 (set2 st.submoist (st.last_layer p) s
          (st.submoist (st.last_layer p) s
            + (st.submoist l s + env.subice l s - env.submax_moist l s)
              * env.sublayer l s / env.sublayer (st.last_layer p) s))
          l s (env.submax_moist l s - env.subice l s) }
        (fun i hi h => hmono i (by omega) h) s2
    rcases hrec with h | h
    · left
      rw [h]
      simp only
      by_cases hs2 : s2 = s
      · subst hs2
        rw [set2_same, if_pos rfl]
      · rw [if_neg hs2, set2_other _ _ _ _ _ _ (fun hc => hs2 hc.2)]
        by_cases htgt : l = st.last_layer p ∧ s2 = s
        · exact absurd htgt.2 hs2
        · rw [set2_other _ _ _ _ _ _ htgt]
    · exact Or.inr h
  have hcur : (push_up env st.last_index st).2.submoist l s
      = env.submax_moist l s - env.subice l s := by
    rcases hfirst s with h | h
    · rw [h, if_pos rfl]
    · exact h
  unfold redistribute_up
  simp only
  split_ifs with h
  · simp only
    by_cases hs2 : l = (push_up env st.last_index st).2.last_layer (push_up env st.last_index st).1 ∧
        s = (push_up env st.last_index st).2.last_sub (push_up env st.last_index st).1
    · obtain ⟨h1, h2⟩ := hs2
      rw [h1, h2, set2_same]
    · rw [set2_other _ _ _ _ _ _ hs2]
      exact hcur
  · exact hcur

/-- The moisture update of an active slot either leaves the slot at capacity minus ice
or at its plain new value, which then is not above capacity; the other slots of the
layer are untouched or reset to capacity minus ice. -/
theorem advance_update_layer (env : col_env R) (st : flux_state R) (l s : Nat)
    (hfirst : st.firstlayer = false → 0 < st.last_index)
    (hl : st.last_layer st.last_index = l) (hs : st.last_sub st.last_index = s)
    (hmono : ∀ i, i < st.last_index → st.last_layer i = l → st.last_layer (i + 1) = l) :
    ((advance_update env st l s).1.submoist l s = env.submax_moist l s - env.subice l s ∨
      ((advance_update env st l s).1.submoist l s = advance_moist env st l s ∧
        ¬ (advance_moist env st l s + env.subice l s > env.submax_moist l s))) ∧
    (∀ s2, s2 ≠ s →
      (advance_update env st l s).1.submoist l s2 = st.submoist l s2 ∨
        (advance_update env st l s).1.submoist l s2
          = env.submax_moist l s2 - env.subice l s2) := by
  unfold advance_update
  simp only
  by_cases hover : advance_moist env st l s + env.subice l s > env.submax_moist l s
  · by_cases hfz : st.froz_solid (st.last_index + 1) = false
    · rw [if_pos ⟨hover, hfz⟩]
      refine ⟨Or.inl ?_, ?_⟩
      · simp only [set2_same]
      · intro s2 hs2
        left
        simp only
        rw [set2_other _ _ _ _ _ _ (fun h => hs2 h.2), set2_other _ _ _ _ _ _ (fun h => hs2 h.2)]
    · have hfz2 : st.froz_solid (st.last_index + 1) = true := by
        cases h : st.froz_solid (st.last_index + 1)
        · exact absurd h hfz
        · rfl
      rw [if_neg (fun h => hfz h.2), if_pos ⟨hover, hfz2⟩]
      by_cases hf : st.firstlayer = true
      · rw [if_pos hf]
        refine ⟨Or.inl ?_, ?_⟩
        · simp only [set2_same]
        · intro s2 hs2
          left
          simp only
          rw [set2_other _ _ _ _ _ _ (fun h => hs2 h.2),
            set2_other _ _ _ _ _ _ (fun h => hs2 h.2)]
      · rw [if_neg hf]
        have hff : st.firstlayer = false := by
          cases h : st.firstlayer
          · rfl
          · exact absurd h hf
        refine ⟨Or.inl ?_, ?_⟩
        · apply redistribute_up_current env l s
            { st with submoist := set2 st.submoist l s (advance_moist env st l s) }
            (hfirst hff) hl hs hmono
          simp only [set2_same]
          exact hover
        · intro s2 hs2
          have h := redistribute_up_layer env l
            { st with submoist := set2 st.submoist l s (advance_moist env st l s) } hmono s2
          simp only at h
          rw [set2_other _ _ _ _ _ _ (fun h => hs2 h.2)] at h
          exact h
  · rw [if_neg (fun h => hover h.1), if_neg (fun h => hover h.1)]
    refine ⟨Or.inr ⟨?_, hover⟩, ?_⟩
    · simp only [set2_same]
    · intro s2 hs2
      left
      simp only
      rw [set2_other _ _ _ _ _ _ (fun h => hs2 h.2)]

/-- A property `ok` of slot values that holds for capacity minus ice, for the residual
value and for every value that triggers neither check holds for an active slot after it
has been processed, and survives on the other slots of the layer. -/
theorem advance_slot_layer (env : col_env R) (st : flux_state R) (l s : Nat)
    (ha : active env l s)
    (hfirst : st.firstlayer = false → 0 < st.last_index)
    (hl : st.last_layer st.last_index = l) (hs : st.last_sub st.last_index = s)
    (hmono : ∀ i, i < st.last_index → st.last_layer i = l → st.last_layer (i + 1) = l) :
    ((advance_slot env st l s).submoist l s = env.submax_moist l s - env.subice l s ∨
      (advance_slot env st l s).submoist l s = env.resid_moist l ∨
      (¬ ((advance_slot env st l s).submoist l s + env.subice l s > env.submax_moist l s) ∧
        ¬ ((advance_slot env st l s).submoist l s + env.subice l s < env.resid_moist l))) ∧
    (∀ s2, s2 ≠ s →
      (advance_slot env st l s).submoist l s2 = st.submoist l s2 ∨
        (advance_slot env st l s).submoist l s2
          = env.submax_moist l s2 - env.subice l s2) := by
  obtain ⟨hcur, hoth⟩ := advance_update_layer env st l s hfirst hl hs hmono
  rw [advance_slot_active env st l s ha]
  have hd : ∀ x : flux_state R, ∀ q : R, (hand_down env x l s q).submoist = x.submoist :=
    fun _ _ => rfl
  rw [hd]
  unfold residual_floor
  simp only
  split_ifs with hfl
  · refine ⟨Or.inr (Or.inl ?_), ?_⟩
    · simp only [set2_same]
    · intro s2 hs2
      simp only
      rw [set2_other _ _ _ _ _ _ (fun h => hs2 h.2)]
      exact hoth s2 hs2
  · refine ⟨?_, ?_⟩
    · rcases hcur with h | ⟨h, hno⟩
      · exact Or.inl h
      · right
        right
        refine ⟨?_, hfl⟩
        simp only
        rw [h]
        exact hno
    · intro s2 hs2
      exact hoth s2 hs2

theorem advance_slot_counters (env : col_env R) (st : flux_state R) (l s : Nat)
    (ha : active env l s) :
    (advance_slot env st l s).last_index = st.last_index + 1 ∧
      (advance_slot env st l s).firstlayer = false := by
  obtain ⟨_, _, _, _, _, h6, _⟩ := advance_update_frame env st l s
  obtain ⟨_, _, _, _, _, g6, g7, _⟩ := residual_floor_frame env
    { (advance_update env st l s).1 with firstlayer := false } l s
  rw [advance_slot_active env st l s ha]
  refine ⟨?_, ?_⟩
  · show (residual_floor env { (advance_update env st l s).1 with firstlayer := false } l s).last_index
      + 1 = _
    rw [g6]
    show (advance_update env st l s).1.last_index + 1 = _
    rw [h6]
  · show (residual_floor env { (advance_update env st l s).1 with firstlayer := false } l s).firstlayer
      = false
    rw [g7]

/-- After one pass of the hourly loop, started from any state, every active slot has
been written back with a value that is capacity minus ice, the residual value, or a
value that triggers neither the capacity nor the residual check; `ok` is any property
that holds for these three kinds of value. -/
theorem time_step_written (pw : R → R → R) (env : col_env R) (st : flux_state R)
    (ok : Nat → Nat → R → Prop)
    (hreset : ∀ l s, l < env.opts.Nlayer → s < 3 → active env l s →
      ok l s (env.submax_moist l s - env.subice l s))
    (hfloor : ∀ l s, l < env.opts.Nlayer → s < 3 → active env l s → ok l s (env.resid_moist l))
    (hplain : ∀ l s v, l < env.opts.Nlayer → s < 3 → active env l s →
      ¬ (v + env.subice l s > env.submax_moist l s) →
      ¬ (v + env.subice l s < env.resid_moist l) → ok l s v) :
    ∀ l s, l < env.opts.Nlayer → s < 3 → active env l s →
      ok l s (layer_moist (time_step pw env st).layer l s) := by
  have hh := cond_pass_history pw env { st with inflow := env.dt_inflow, last_cnt := 0 } rfl
  have key := advance_pass_invariant env (fun l s x =>
      x.last_layer
          = (cond_pass pw env { st with inflow := env.dt_inflow, last_cnt := 0 }).last_layer ∧
        x.last_sub
          = (cond_pass pw env { st with inflow := env.dt_inflow, last_cnt := 0 }).last_sub ∧
        x.last_index = slot_position env (3 * l + s) ∧
        (x.firstlayer = false → 0 < x.last_index) ∧
        (∀ s2, s2 < s → active env l s2 → ok l s2 (x.submoist l s2)) ∧
        (∀ l2 s2, l2 < l → s2 < 3 → active env l2 s2 → ok l2 s2 (layer_moist x.layer l2 s2)))
    (cond_pass pw env { st with inflow := env.dt_inflow, last_cnt := 0 }) ?_ ?_ ?_
  · intro l s hl hs ha
    exact key.2.2.2.2.2 l s hl hs ha
  · refine ⟨rfl, rfl, ?_, ?_, ?_, ?_⟩
    · simp [slot_position]
    · intro h
      cases h
    · intro s2 h
      omega
    · intro l2 s2 h
      omega
  · intro l s x hl hs ⟨k1, k2, k3, k4, k5, k6⟩
    obtain ⟨f1, _, f3, f4, _, _⟩ := advance_slot_frame env x l s
    by_cases ha : active env l s
    · obtain ⟨g1, g2, g3, _⟩ := history_at_slot env _ l s hl hs hh ha
      rw [← k1, ← k3] at g1 g3
      rw [← k2, ← k3] at g2
      obtain ⟨hcur, hoth⟩ := advance_slot_layer env x l s ha k4 g1 g2 g3
      obtain ⟨c1, c2⟩ := advance_slot_counters env x l s ha
      have hak : active_at env (3 * l + s) := (active_at_linear env l s hs).2 ha
      refine ⟨f3.trans k1, f4.trans k2, ?_, ?_, ?_, ?_⟩
      · rw [c1, k3]
        exact (slot_position_succ_active env _ hak).symm
      · intro _
        rw [c1]
        omega
      · intro s2 hs2 ha2
        by_cases he : s2 = s
        · subst he
          rcases hcur with h | h | ⟨h1, h2⟩
          · rw [h]
            exact hreset l s2 hl hs ha
          · rw [h]
            exact hfloor l s2 hl hs ha
          · exact hplain l s2 _ hl hs ha h1 h2
        · rcases hoth s2 he with h | h
          · rw [h]
            exact k5 s2 (by omega) ha2
          · rw [h]
            exact hreset l s2 hl (by omega) ha2
      · intro l2 s2 hl2 hs2 ha2
        rw [f1]
        exact k6 l2 s2 hl2 hs2 ha2
    · rw [advance_slot_inactive env x l s ha]
      have hak : ¬ active_at env (3 * l + s) := fun h => ha ((active_at_linear env l s hs).1 h)
      refine ⟨k1, k2, ?_, k4, ?_, k6⟩
      · rw [k3]
        exact (slot_position_succ_inactive env _ hak).symm
      · intro s2 hs2 ha2
        by_cases he : s2 = s
        · subst he
          exact absurd ha2 ha
        · exact k5 s2 (by omega) ha2
  · intro l x hl ⟨k1, k2, k3, k4, k5, k6⟩
    refine ⟨k1, k2, ?_, k4, ?_, ?_⟩
    · show x.last_index = slot_position env (3 * (l + 1) + 0)
      rw [k3]
      have e : 3 * (l + 1) + 0 = 3 * l + 3 := by ring
      rw [e]
    · intro s2 h
      omega
    · intro l2 s2 hl2 hs2 ha2
      by_cases he : l2 = l
      · subst he
        rw [writeback_layer_moist env x l2 s2 hs2, if_pos ha2.1]
        exact k5 s2 hs2 ha2
      · have h2 : layer_moist (writeback env x l).layer l2 s2 = layer_moist x.layer l2 s2 := by
          unfold layer_moist
          rw [writeback_layer_other env x l l2 he]
        rw [h2]
        exact k6 l2 s2 (by omega) hs2 ha2

/-- The written-back values of the active slots after a branch with `dt >= 1`. -/
theorem branch_body_written (pw : R → R → R) (opts : option_struct) (soil : soil_con_struct R)
    (layer : Nat → layer_data_struct R) (inflow : R) (dt : Int) (hdt : 1 ≤ dt)
    (ok : Nat → Nat → R → Prop)
    (hreset : ∀ l s, l < opts.Nlayer → s < 3 →
      active (branch_env pw opts soil layer inflow dt) l s →
      ok l s (soil.max_moist l - subice_of layer l s))
    (hfloor : ∀ l s, l < opts.Nlayer → s < 3 →
      active (branch_env pw opts soil layer inflow dt) l s → ok l s (resid_moist_of opts soil l))
    (hplain : ∀ l s v, l < opts.Nlayer → s < 3 →
      active (branch_env pw opts soil layer inflow dt) l s →
      ¬ (v + subice_of layer l s > soil.max_moist l) →
      ¬ (v + subice_of layer l s < resid_moist_of opts soil l) → ok l s v) :
    ∀ l s, l < opts.Nlayer → s < 3 → active (branch_env pw opts soil layer inflow dt) l s →
      ok l s (layer_moist (branch_body pw opts soil layer inflow dt).layer l s) := by
  intro l s hl hs ha
  obtain ⟨_, hn1⟩ := int_toNat_cast (R := R) dt hdt
  obtain ⟨n, hn⟩ : ∃ n, dt.toNat = n + 1 := ⟨dt.toNat - 1, by omega⟩
  have hstep := time_step_written pw (branch_env pw opts soil layer inflow dt)
    (time_loop pw (branch_env pw opts soil layer inflow dt) n (branch_init pw opts soil layer inflow))
    ok hreset hfloor hplain l s hl hs ha
  rw [← time_loop_succ, ← hn] at hstep
  have hsame : layer_moist (branch_body pw opts soil layer inflow dt).layer l s
      = layer_moist (time_loop pw (branch_env pw opts soil layer inflow dt) dt.toNat
          (branch_init pw opts soil layer inflow)).layer l s := by
    by_cases hl2 : l = opts.Nlayer - 1
    · have hs2 : s ≠ 2 := fun h => ha.2 ⟨hl2, h⟩
      have h3 : s = 0 ∨ s = 1 := by omega
      subst hl2
      rcases h3 with h | h <;> subst h <;> simp [branch_body, layer_moist, set1]
    · unfold layer_moist
      simp [branch_body, set1, hl2]
  rw [hsame]
  exact hstep


/-! ## The bottom layer -/

theorem bottom_update_upper (env : col_env R) (l : Nat) (evap moist baseflow inflow : R) :
    (bottom_update env l evap moist baseflow inflow).1 + env.subice l 2
      ≤ env.submax_moist l 2 := by
  unfold bottom_update
  simp only
  split_ifs with h1 h2 h3 h4 h5
  all_goals first
    | (simp only [sub_add_cancel]; exact le_refl _)
    | exact not_lt.1 (by assumption)

theorem bottom_update_lower (env : col_env R) (l : Nat) (evap moist baseflow inflow : R)
    (hice : env.subice l 2 = 0) (hres : env.resid_moist l ≤ env.submax_moist l 2)
    (havail : env.resid_moist l ≤ moist + inflow / env.sublayer l 2 - evap) :
    env.resid_moist l ≤ (bottom_update env l evap moist baseflow inflow).1 := by
  unfold bottom_update
  simp only [hice, add_zero, sub_zero]
  split_ifs with h1 h2 h3 h4 h5
  all_goals first
    | exact hres
    | exact le_refl _
    | (simp only at *; linarith)

theorem advance_pass_evap (env : col_env R) (st : flux_state R) (k : Nat) :
    ((advance_pass env st).layer k).evap = (st.layer k).evap := by
  apply advance_pass_invariant env (fun _ _ x => (x.layer k).evap = (st.layer k).evap) st rfl
  · intro l s x _ _ h
    rw [(advance_slot_frame env x l s).1]
    exact h
  · intro l x _ h
    rw [writeback_evap]
    exact h

theorem time_loop_evap (pw : R → R → R) (env : col_env R) (n : Nat) (st : flux_state R)
    (k : Nat) : ((time_loop pw env n st).layer k).evap = (st.layer k).evap := by
  apply time_loop_invariant pw env (fun x => (x.layer k).evap = (st.layer k).evap) _ n st rfl
  intro x hx
  show ((advance_pass env (cond_pass pw env { x with inflow := env.dt_inflow, last_cnt := 0 })).layer
    k).evap = _
  rw [advance_pass_evap, (cond_pass_frame pw env _).1]
  exact hx

theorem branch_body_bottom (pw : R → R → R) (opts : option_struct) (soil : soil_con_struct R)
    (layer : Nat → layer_data_struct R) (inflow : R) (dt : Int) :
    ((branch_body pw opts soil layer inflow dt).layer (opts.Nlayer - 1)).moist
      = (bottom_update (branch_env pw opts soil layer inflow dt) (opts.Nlayer - 1)
          (layer (opts.Nlayer - 1)).evap
          ((time_loop pw (branch_env pw opts soil layer inflow dt) dt.toNat
            (branch_init pw opts soil layer inflow)).submoist (opts.Nlayer - 1) 2)
          (arno_baseflow pw soil dt (opts.Nlayer - 1)
            ((time_loop pw (branch_env pw opts soil layer inflow dt) dt.toNat
              (branch_init pw opts soil layer inflow)).submoist (opts.Nlayer - 1) 2))
          (time_loop pw (branch_env pw opts soil layer inflow dt) dt.toNat
            (branch_init pw opts soil layer inflow)).dt_outflow).1 := by
  have he := time_loop_evap pw (branch_env pw opts soil layer inflow dt) dt.toNat
    (branch_init pw opts soil layer inflow) (opts.Nlayer - 1)
  have he2 : ((branch_init pw opts soil layer inflow).layer (opts.Nlayer - 1)).evap
      = (layer (opts.Nlayer - 1)).evap := rfl
  rw [he2] at he
  rw [← he]
  simp [branch_body, set1]

/-- Upper bound of the written-back state (shared by the amended C3): every slot of
positive thickness, the bottom layer's unfrozen slot included when its thickness is
positive. -/
theorem branch_body_upper (pw : R → R → R) (opts : option_struct) (soil : soil_con_struct R)
    (layer : Nat → layer_data_struct R) (inflow : R) (dt : Int) (hdt : 1 ≤ dt)
    (hcons : ∀ l s, l < opts.Nlayer → s < 3 →
      active (branch_env pw opts soil layer inflow dt) l s →
      resid_moist_of opts soil l + subice_of layer l s ≤ soil.max_moist l) :
    ∀ l s, l < opts.Nlayer → s < 3 → 0 < sublayer_of soil layer l s →
      layer_moist (branch_body pw opts soil layer inflow dt).layer l s + subice_of layer l s
        ≤ soil.max_moist l := by
  intro l s hl hs hpos
  by_cases hb : l = opts.Nlayer - 1 ∧ s = 2
  · obtain ⟨h1, h2⟩ := hb
    subst h2
    rw [h1]
    have h := bottom_update_upper (branch_env pw opts soil layer inflow dt) (opts.Nlayer - 1)
      (layer (opts.Nlayer - 1)).evap
      ((time_loop pw (branch_env pw opts soil layer inflow dt) dt.toNat
        (branch_init pw opts soil layer inflow)).submoist (opts.Nlayer - 1) 2)
      (arno_baseflow pw soil dt (opts.Nlayer - 1)
        ((time_loop pw (branch_env pw opts soil layer inflow dt) dt.toNat
          (branch_init pw opts soil layer inflow)).submoist (opts.Nlayer - 1) 2))
      (time_loop pw (branch_env pw opts soil layer inflow dt) dt.toNat
        (branch_init pw opts soil layer inflow)).dt_outflow
    rw [← branch_body_bottom] at h
    exact h
  · have ha : active (branch_env pw opts soil layer inflow dt) l s := ⟨hpos, hb⟩
    exact branch_body_written pw opts soil layer inflow dt hdt
      (fun l s v => v + subice_of layer l s ≤ soil.max_moist l)
      (fun l s _ _ _ => by simp only [sub_add_cancel]; exact le_refl _)
      (fun l s hl hs ha => hcons l s hl hs ha)
      (fun l s v _ _ _ h1 _ => not_lt.1 h1) l s hl hs ha

/-- Lower bound of the written-back state (shared by the amended C2); the bound of the
bottom layer is for an unfrozen slot of positive thickness. -/
theorem branch_body_lower (pw : R → R → R) (opts : option_struct) (soil : soil_con_struct R)
    (layer : Nat → layer_data_struct R) (inflow : R) (dt : Int) (hdt : 1 ≤ dt)
    (hcons : ∀ l s, l < opts.Nlayer → s < 3 →
      active (branch_env pw opts soil layer inflow dt) l s →
      0 ≤ subice_of layer l s ∧ resid_moist_of opts soil l ≤ soil.max_moist l) :
    (∀ l s, l < opts.Nlayer → s < 3 → active (branch_env pw opts soil layer inflow dt) l s →
      resid_moist_of opts soil l
        ≤ layer_moist (branch_body pw opts soil layer inflow dt).layer l s + subice_of layer l s) ∧
    (0 < sublayer_of soil layer (opts.Nlayer - 1) 2 →
      resid_moist_of opts soil (opts.Nlayer - 1) ≤ soil.max_moist (opts.Nlayer - 1) →
      resid_moist_of opts soil (opts.Nlayer - 1)
        ≤ (time_loop pw (branch_env pw opts soil layer inflow dt) dt.toNat
              (branch_init pw opts soil layer inflow)).submoist (opts.Nlayer - 1) 2
          + (time_loop pw (branch_env pw opts soil layer inflow dt) dt.toNat
              (branch_init pw opts soil layer inflow)).dt_outflow
            / sublayer_of soil layer (opts.Nlayer - 1) 2
          - (layer (opts.Nlayer - 1)).evap →
      resid_moist_of opts soil (opts.Nlayer - 1)
        ≤ ((branch_body pw opts soil layer inflow dt).layer (opts.Nlayer - 1)).moist) := by
  refine ⟨?_, ?_⟩
  · intro l s hl hs ha
    exact branch_body_written pw opts soil layer inflow dt hdt
      (fun l s v => resid_moist_of opts soil l ≤ v + subice_of layer l s)
      (fun l s hl hs ha => by
        simp only [sub_add_cancel]
        exact (hcons l s hl hs ha).2)
      (fun l s hl hs ha => le_add_of_nonneg_right (hcons l s hl hs ha).1)
      (fun l s v _ _ _ _ h2 => not_lt.1 h2) l s hl hs ha
  · intro _ hres havail
    rw [branch_body_bottom]
    exact bottom_update_lower (branch_env pw opts soil layer inflow dt) (opts.Nlayer - 1) _ _ _ _
      rfl hres havail

theorem not_has_negative_thirsty : ¬ has_negative thirsty_layer plain_opts.Nlayer := by
  rintro ⟨l, _, h⟩
  unfold thirsty_layer at h
  split_ifs at h <;> norm_num at h

/-- Claim C2 (counterexample).  Two inputs, one sub-step each, no inflow, no drainage.
First: two unfrozen layers of 10 mm, residual moisture 0, and an evaporative demand of
50 mm on the bottom layer; the shortfall cannot be borrowed from the (zero) baseflow,
so line 506 puts it back into the moisture, and the bottom layer is written back with
-40 mm.  Second: residual moisture 10 mm, the first layer frozen over its whole depth
with 12 mm of water, 8 mm of ice and an evaporative demand of 6 mm; the floor of line
440 tests moisture plus ice (14 mm), so the frozen moisture is written back as 6 mm. -/
theorem C2_counterexample_below_residual :
    (∃ r, runoff_branch int_pow plain_opts still_soil thirsty_layer 0 1 = Except.ok r ∧
      0 < sublayer_of still_soil thirsty_layer 1 2 ∧
      layer_moist r.layer 1 2 = -40 ∧ resid_moist_of plain_opts still_soil 1 = 0 ∧
      ¬ (resid_moist_of plain_opts still_soil 1 ≤ layer_moist r.layer 1 2)) ∧
    (∃ r, runoff_branch int_pow frost_opts frost_soil frost_layer 0 1 = Except.ok r ∧
      0 < sublayer_of frost_soil frost_layer 0 1 ∧
      layer_moist r.layer 0 1 = 6 ∧ resid_moist_of frost_opts frost_soil 0 = 10 ∧
      ¬ (resid_moist_of frost_opts frost_soil 0 ≤ layer_moist r.layer 0 1)) := by
  have hneg : ¬ has_negative frost_layer frost_opts.Nlayer := by
    rintro ⟨l, _, h⟩
    unfold frost_layer at h
    split_ifs at h <;> norm_num at h
  have h1 : layer_moist (branch_body int_pow plain_opts still_soil thirsty_layer 0 1).layer 1 2
      = -40 := by
    norm_num [layer_moist, branch_body, time_loop, time_step, cond_pass, advance_pass,
      advance_layer, advance_slot, advance_update, advance_moist, residual_floor, hand_down,
      cond_slot, writeback, branch_env, branch_init, plain_opts, still_soil, thirsty_layer,
      List.range_succ, set1, set2, sublayer_of, submoist_of, subice_of, submax_moist_of,
      resid_moist_of, surface_runoff, bottom_update, arno_baseflow]
  have h2 : layer_moist (branch_body int_pow frost_opts frost_soil frost_layer 0 1).layer 0 1
      = 6 := by
    norm_num [layer_moist, branch_body, time_loop, time_step, cond_pass, advance_pass,
      advance_layer, advance_slot, advance_update, advance_moist, residual_floor, hand_down,
      cond_slot, writeback, branch_env, branch_init, frost_opts, frost_soil, still_soil,
      frost_layer, List.range_succ, set1, set2, sublayer_of, submoist_of, subice_of,
      submax_moist_of, resid_moist_of, surface_runoff, bottom_update, arno_baseflow]
  have r1 : resid_moist_of plain_opts still_soil 1 = 0 := by simp [resid_moist_of, plain_opts]
  have r2 : resid_moist_of frost_opts frost_soil 0 = 10 := by
    norm_num [resid_moist_of, frost_opts, frost_soil, still_soil]
  refine ⟨⟨branch_body int_pow plain_opts still_soil thirsty_layer 0 1,
      runoff_branch_ok_of_not_negative _ _ _ _ _ _ not_has_negative_thirsty, ?_, h1, r1, ?_⟩,
    ⟨branch_body int_pow frost_opts frost_soil frost_layer 0 1,
      runoff_branch_ok_of_not_negative _ _ _ _ _ _ hneg, ?_, h2, r2, ?_⟩⟩
  · norm_num [sublayer_of, still_soil, thirsty_layer]
  · rw [h1, r1]
    norm_num
  · norm_num [sublayer_of, frost_soil, still_soil, frost_layer]
  · rw [h2, r2]
    norm_num

/-- Claim C2 (amended).  For every input with `dt >= 1` and no negative moisture in which
every slot of positive thickness other than the bottom reservoir has non-negative ice
content and a residual moisture not above its maximum moisture: the branch completes;
every such slot is written back with moisture plus ice at least the residual moisture
(so thawed and unfrozen slots, which carry no ice, have moisture >= residual); and,
when the bottom layer's unfrozen slot has positive thickness, the bottom layer's
moisture is at least its residual moisture whenever that does not exceed the maximum
moisture and the water available to the bottom layer before drainage (moisture +
integrated inflow / fraction - evaporative demand) is not below it. -/
theorem C2_lower_bound_consistent_column (pw : R → R → R) (opts : option_struct)
    (soil : soil_con_struct R) (layer : Nat → layer_data_struct R) (inflow : R) (dt : Int)
    (hdt : 1 ≤ dt) (hneg : ¬ has_negative layer opts.Nlayer)
    (hcons : ∀ l s, l < opts.Nlayer → s < 3 →
      active (branch_env pw opts soil layer inflow dt) l s →
      0 ≤ subice_of layer l s ∧ resid_moist_of opts soil l ≤ soil.max_moist l) :
    ∃ r, runoff_branch pw opts soil layer inflow dt = Except.ok r ∧
      (∀ l s, l < opts.Nlayer → s < 3 → active (branch_env pw opts soil layer inflow dt) l s →
        resid_moist_of opts soil l ≤ layer_moist r.layer l s + subice_of layer l s) ∧
      (∀ l s, l < opts.Nlayer → s < 3 → s ≠ 1 →
        active (branch_env pw opts soil layer inflow dt) l s →
        resid_moist_of opts soil l ≤ layer_moist r.layer l s) ∧
      (0 < sublayer_of soil layer (opts.Nlayer - 1) 2 →
        resid_moist_of opts soil (opts.Nlayer - 1) ≤ soil.max_moist (opts.Nlayer - 1) →
        resid_moist_of opts soil (opts.Nlayer - 1)
          ≤ (time_loop pw (branch_env pw opts soil layer inflow dt) dt.toNat
                (branch_init pw opts soil layer inflow)).submoist (opts.Nlayer - 1) 2
            + (time_loop pw (branch_env pw opts soil layer inflow dt) dt.toNat
                (branch_init pw opts soil layer inflow)).dt_outflow
              / sublayer_of soil layer (opts.Nlayer - 1) 2
            - (layer (opts.Nlayer - 1)).evap →
        resid_moist_of opts soil (opts.Nlayer - 1) ≤ (r.layer (opts.Nlayer - 1)).moist) := by
  obtain ⟨h1, h2⟩ := branch_body_lower pw opts soil layer inflow dt hdt hcons
  refine ⟨branch_body pw opts soil layer inflow dt,
    runoff_branch_ok_of_not_negative pw opts soil layer inflow dt hneg, h1, ?_, h2⟩
  intro l s hl hs hs1 ha
  have h := h1 l s hl hs ha
  have hice : subice_of layer l s = 0 := by
    have h3 : s = 0 ∨ s = 2 := by omega
    rcases h3 with h | h <;> subst h <;> rfl
  rw [hice, add_zero] at h
  exact h

theorem C2_lower_bound_consistent_column_witness :
    ∃ r, runoff_branch int_pow plain_opts still_soil plain_layer 5 1 = Except.ok r ∧
      (∀ l s, l < plain_opts.Nlayer → s < 3 →
        active (branch_env int_pow plain_opts still_soil plain_layer 5 1) l s →
        resid_moist_of plain_opts still_soil l
          ≤ layer_moist r.layer l s + subice_of plain_layer l s) ∧
      (∀ l s, l < plain_opts.Nlayer → s < 3 → s ≠ 1 →
        active (branch_env int_pow plain_opts still_soil plain_layer 5 1) l s →
        resid_moist_of plain_opts still_soil l ≤ layer_moist r.layer l s) ∧
      (0 < sublayer_of still_soil plain_layer (plain_opts.Nlayer - 1) 2 →
        resid_moist_of plain_opts still_soil (plain_opts.Nlayer - 1)
          ≤ still_soil.max_moist (plain_opts.Nlayer - 1) →
        resid_moist_of plain_opts still_soil (plain_opts.Nlayer - 1)
          ≤ (time_loop int_pow (branch_env int_pow plain_opts still_soil plain_layer 5 1)
                (1 : Int).toNat (branch_init int_pow plain_opts still_soil plain_layer 5)).submoist
              (plain_opts.Nlayer - 1) 2
            + (time_loop int_pow (branch_env int_pow plain_opts still_soil plain_layer 5 1)
                (1 : Int).toNat (branch_init int_pow plain_opts still_soil plain_layer 5)).dt_outflow
              / sublayer_of still_soil plain_layer (plain_opts.Nlayer - 1) 2
            - (plain_layer (plain_opts.Nlayer - 1)).evap →
        resid_moist_of plain_opts still_soil (plain_opts.Nlayer - 1)
          ≤ (r.layer (plain_opts.Nlayer - 1)).moist) :=
  C2_lower_bound_consistent_column int_pow plain_opts still_soil plain_layer 5 1
    (by decide) not_has_negative_plain
    (fun l s _ _ _ => by
      refine ⟨?_, ?_⟩
      · unfold subice_of plain_layer
        split <;> norm_num
      · simp [resid_moist_of, plain_opts, still_soil])

/-- Claim C3 (counterexample).  Full-energy mode, two unfrozen layers of 10 mm, no inflow,
one sub-step; the first layer has a capacity of 10 mm and a residual moisture of 20 mm.
The residual check of lines 440-446 comes last and raises the moisture to 20 mm: the
written-back moisture plus ice exceeds the maximum moisture. -/
theorem C3_counterexample_residual_above_capacity :
    ∃ r, runoff_branch int_pow energy_opts (odd_soil (R := ℚ)) plain_layer 0 1 = Except.ok r ∧
      0 < sublayer_of (odd_soil (R := ℚ)) plain_layer 0 2 ∧
      layer_moist r.layer 0 2 = 20 ∧ (odd_soil (R := ℚ)).max_moist 0 = 10 ∧
      ¬ (layer_moist r.layer 0 2 + subice_of plain_layer 0 2 ≤ (odd_soil (R := ℚ)).max_moist 0) := by
  have hneg : ¬ has_negative plain_layer energy_opts.Nlayer := not_has_negative_plain
  refine ⟨branch_body int_pow energy_opts odd_soil plain_layer 0 1,
    runoff_branch_ok_of_not_negative _ _ _ _ _ _ hneg, ?_, ?_, ?_, ?_⟩
  · norm_num [sublayer_of, odd_soil, plain_layer]
  · norm_num [layer_moist, branch_body, time_loop, time_step, cond_pass, advance_pass,
      advance_layer, advance_slot, advance_update, advance_moist, residual_floor, hand_down,
      cond_slot, writeback, branch_env, branch_init, energy_opts, odd_soil, plain_layer,
      List.range_succ, set1, set2, sublayer_of, submoist_of, subice_of, submax_moist_of,
      resid_moist_of, surface_runoff, bottom_update, arno_baseflow]
  · simp [odd_soil]
  · norm_num [layer_moist, branch_body, time_loop, time_step, cond_pass, advance_pass,
      advance_layer, advance_slot, advance_update, advance_moist, residual_floor, hand_down,
      cond_slot, writeback, branch_env, branch_init, energy_opts, odd_soil, plain_layer,
      List.range_succ, set1, set2, sublayer_of, submoist_of, subice_of, submax_moist_of,
      resid_moist_of, surface_runoff, bottom_update, arno_baseflow]

/-- Claim C3 (amended).  For every input with `dt >= 1` and no negative moisture in which
every slot of positive thickness other than the bottom reservoir has residual moisture
plus ice content not above its maximum moisture: the branch completes, and every slot
of positive thickness (the bottom layer's unfrozen slot included when its thickness is
positive) is written back with moisture plus ice at most the layer's maximum moisture. -/
theorem C3_upper_bound_consistent_column (pw : R → R → R) (opts : option_struct)
    (soil : soil_con_struct R) (layer : Nat → layer_data_struct R) (inflow : R) (dt : Int)
    (hdt : 1 ≤ dt) (hneg : ¬ has_negative layer opts.Nlayer)
    (hcons : ∀ l s, l < opts.Nlayer → s < 3 →
      active (branch_env pw opts soil layer inflow dt) l s →
      resid_moist_of opts soil l + subice_of layer l s ≤ soil.max_moist l) :
    ∃ r, runoff_branch pw opts soil layer inflow dt = Except.ok r ∧
      ∀ l s, l < opts.Nlayer → s < 3 → 0 < sublayer_of soil layer l s →
        layer_moist r.layer l s + subice_of layer l s ≤ soil.max_moist l :=
  ⟨branch_body pw opts soil layer inflow dt,
    runoff_branch_ok_of_not_negative pw opts soil layer inflow dt hneg,
    branch_body_upper pw opts soil layer inflow dt hdt hcons⟩

theorem C3_upper_bound_consistent_column_witness :
    ∃ r, runoff_branch int_pow plain_opts still_soil plain_layer 5 1 = Except.ok r ∧
      ∀ l s, l < plain_opts.Nlayer → s < 3 → 0 < sublayer_of still_soil plain_layer l s →
        layer_moist r.layer l s + subice_of plain_layer l s ≤ still_soil.max_moist l :=
  C3_upper_bound_consistent_column int_pow plain_opts still_soil plain_layer 5 1
    (by decide) not_has_negative_plain
    (fun l s _ _ _ => by
      have h1 : resid_moist_of plain_opts still_soil l = 0 := by simp [resid_moist_of, plain_opts]
      have h2 : subice_of plain_layer l s = 0 := by
        unfold subice_of plain_layer
        split <;> rfl
      rw [h1, h2]
      simp [still_soil])


/-! ## The infiltration curve over the reals -/

theorem floor_eq_max (r : R) : (if r < 0 then 0 else r) = max 0 r := by
  rw [max_def]
  split_ifs with h1 h2 h2
  · exfalso; exact absurd h1 (not_lt.2 h2)
  · rfl
  · rfl
  · exfalso; exact h1 (lt_of_not_le h2)

/-- With the real power, `b > 0`, positive capacity and moisture not above capacity,
the surface runoff is the floor at zero of
`inflow - cap + m + cap * max(y0 - inflow/maxInfil, 0)^(1+b)`, where
`y0 = (1 - m/cap)^(1/(1+b))`. -/
theorem surface_runoff_real (b inflow m cap : ℝ) (hb : 0 < b) (hcap : 0 < cap) (hm : m ≤ cap) :
    surface_runoff Real.rpow b inflow m cap =
      max 0 (inflow - cap + m + cap *
        (max ((1 - m / cap) ^ (1 / (1 + b)) - inflow / ((1 + b) * cap)) 0) ^ (1 + b)) := by
  have hb1 : 0 < 1 + b := by linarith
  have hM : 0 < (1 + b) * cap := mul_pos hb1 hcap
  have hx0 : 0 ≤ 1 - m / cap := by
    have : m / cap ≤ 1 := (div_le_one hcap).2 hm
    linarith
  have hy : (1 - (1 - (1 - m / cap) ^ (b / (1 + b)))) ^ (1 / b) = (1 - m / cap) ^ (1 / (1 + b)) := by
    have h1 : 1 - (1 - (1 - m / cap) ^ (b / (1 + b))) = (1 - m / cap) ^ (b / (1 + b)) := by ring
    rw [h1, ← Real.rpow_mul hx0]
    congr 1
    field_simp
    ring
  have hy0 : 0 ≤ (1 - m / cap) ^ (1 / (1 + b)) := Real.rpow_nonneg hx0 _
  have hpow : ((1 - m / cap) ^ (1 / (1 + b))) ^ (1 + b) = 1 - m / cap := by
    rw [← Real.rpow_mul hx0]
    have : 1 / (1 + b) * (1 + b) = 1 := by field_simp
    rw [this, Real.rpow_one]
  unfold surface_runoff
  simp only [Real.rpow_eq_pow, hy, one_mul]
  have hbasis : 1 - ((1 + b) * cap * (1 - (1 - m / cap) ^ (1 / (1 + b))) + inflow) / ((1 + b) * cap)
      = (1 - m / cap) ^ (1 / (1 + b)) - inflow / ((1 + b) * cap) := by
    generalize (1 - m / cap) ^ (1 / (1 + b)) = y
    field_simp
    ring
  by_cases h0 : inflow = 0
  · subst h0
    simp only [if_true, lt_irrefl, if_false, zero_div, sub_zero, max_eq_left hy0, hpow]
    have : 0 - cap + m + cap * (1 - m / cap) = 0 := by
      field_simp
    rw [this]
    simp
  · simp only [h0, if_false, ne_of_gt hM]
    by_cases h1 : (1 + b) * cap * (1 - (1 - m / cap) ^ (1 / (1 + b))) + inflow > (1 + b) * cap
    · have hneg : (1 - m / cap) ^ (1 / (1 + b)) - inflow / ((1 + b) * cap) ≤ 0 := by
        rw [← hbasis]
        have : 1 < ((1 + b) * cap * (1 - (1 - m / cap) ^ (1 / (1 + b))) + inflow) / ((1 + b) * cap) :=
          (one_lt_div hM).2 h1
        linarith
      simp only [h1, if_true, max_eq_right hneg, Real.zero_rpow (ne_of_gt hb1), mul_zero, add_zero]
      exact floor_eq_max _
    · have hpos : 0 ≤ (1 - m / cap) ^ (1 / (1 + b)) - inflow / ((1 + b) * cap) := by
        rw [← hbasis]
        have : ((1 + b) * cap * (1 - (1 - m / cap) ^ (1 / (1 + b))) + inflow) / ((1 + b) * cap) ≤ 1 :=
          (div_le_one hM).2 (not_lt.1 h1)
        linarith
      simp only [h1, if_false, max_eq_left hpos, hbasis]
      exact floor_eq_max _


/-- The surface runoff of the infiltration calculator never decreases when the inflow
grows (real power, `b > 0`, positive capacity, moisture clipped to capacity). -/
theorem surface_runoff_mono (b m cap i1 i2 : ℝ) (hb : 0 < b) (hcap : 0 < cap) (hm : m ≤ cap)
    (h0 : 0 ≤ i1) (h12 : i1 ≤ i2) :
    surface_runoff Real.rpow b i1 m cap ≤ surface_runoff Real.rpow b i2 m cap := by
  rw [surface_runoff_real b i1 m cap hb hcap hm, surface_runoff_real b i2 m cap hb hcap hm]
  have hb1 : 0 < 1 + b := by linarith
  have hp : (1 : ℝ) ≤ 1 + b := by linarith
  have hM : 0 < (1 + b) * cap := mul_pos hb1 hcap
  have hx0 : 0 ≤ 1 - m / cap := by
    have : m / cap ≤ 1 := (div_le_one hcap).2 hm
    linarith
  have hy0 : 0 ≤ (1 - m / cap) ^ (1 / (1 + b)) := Real.rpow_nonneg hx0 _
  have hpow : ((1 - m / cap) ^ (1 / (1 + b))) ^ (1 + b) = 1 - m / cap := by
    rw [← Real.rpow_mul hx0]
    have : 1 / (1 + b) * (1 + b) = 1 := by field_simp
    rw [this, Real.rpow_one]
  generalize hy : (1 - m / cap) ^ (1 / (1 + b)) = y at hy0 hpow ⊢
  apply max_le (le_max_left _ _)
  rcases eq_or_lt_of_le h0 with hz | hpos
  · rw [← hz]
    have : (0 : ℝ) - cap + m + cap * (max (y - 0 / ((1 + b) * cap)) 0) ^ (1 + b) = 0 := by
      rw [zero_div, sub_zero, max_eq_left hy0, hpow]
      field_simp
    rw [this]
    exact le_max_left _ _
  · have hi2 : 0 < i2 := lt_of_lt_of_le hpos h12
    have ht0 : 0 ≤ i1 / i2 := div_nonneg h0 (le_of_lt hi2)
    have ht1 : i1 / i2 ≤ 1 := (div_le_one hi2).2 h12
    have hi1 : i1 = i1 / i2 * i2 := by field_simp
    have hu2 : 0 ≤ max (y - i2 / ((1 + b) * cap)) 0 := le_max_right _ _
    have hu1 : 0 ≤ max (y - i1 / ((1 + b) * cap)) 0 := le_max_right _ _
    have hmix : max (y - i1 / ((1 + b) * cap)) 0
        ≤ i1 / i2 * max (y - i2 / ((1 + b) * cap)) 0 + (1 - i1 / i2) * y := by
      apply max_le
      · have h1 : y - i1 / ((1 + b) * cap)
            = i1 / i2 * (y - i2 / ((1 + b) * cap)) + (1 - i1 / i2) * y := by
          field_simp
          ring
        rw [h1]
        have := mul_le_mul_of_nonneg_left (le_max_left (y - i2 / ((1 + b) * cap)) 0) ht0
        linarith
      · have h1 := mul_nonneg ht0 hu2
        have h2 := mul_nonneg (sub_nonneg.2 ht1) hy0
        linarith
    have hconv := (convexOn_rpow hp).2 (Set.mem_Ici.2 hu2) (Set.mem_Ici.2 hy0) ht0
      (sub_nonneg.2 ht1) (by ring)
    simp only [smul_eq_mul] at hconv
    have hle : (max (y - i1 / ((1 + b) * cap)) 0) ^ (1 + b)
        ≤ i1 / i2 * (max (y - i2 / ((1 + b) * cap)) 0) ^ (1 + b) + (1 - i1 / i2) * y ^ (1 + b) :=
      le_trans (Real.rpow_le_rpow hu1 hmix (le_of_lt hb1)) hconv
    rw [hpow] at hle
    have hG : i1 - cap + m + cap * (max (y - i1 / ((1 + b) * cap)) 0) ^ (1 + b)
        ≤ i1 / i2 * (i2 - cap + m + cap * (max (y - i2 / ((1 + b) * cap)) 0) ^ (1 + b)) := by
      have h3 := mul_le_mul_of_nonneg_left hle (le_of_lt hcap)
      have h4 : cap * (1 - m / cap) = cap - m := by field_simp
      have h5 : i1 / i2 * i2 = i1 := by field_simp
      nlinarith [h3, h4, h5]
    refine le_trans hG ?_
    have h6 : i1 / i2 * (i2 - cap + m + cap * (max (y - i2 / ((1 + b) * cap)) 0) ^ (1 + b))
        ≤ i1 / i2 * max 0 (i2 - cap + m + cap * (max (y - i2 / ((1 + b) * cap)) 0) ^ (1 + b)) :=
      mul_le_mul_of_nonneg_left (le_max_right _ _) ht0
    have h7 : i1 / i2 * max 0 (i2 - cap + m + cap * (max (y - i2 / ((1 + b) * cap)) 0) ^ (1 + b))
        ≤ 1 * max 0 (i2 - cap + m + cap * (max (y - i2 / ((1 + b) * cap)) 0) ^ (1 + b)) :=
      mul_le_mul_of_nonneg_right ht1 (le_max_left _ _)
    linarith

/-! ## The two-layer scenario -/

theorem surface_runoff_eq_closed_form (pw : R → R → R) (b inflow m cap : R) :
    surface_runoff pw b inflow m cap = closed_form_4_2 pw inflow m cap b := by
  unfold surface_runoff closed_form_4_2
  simp only [one_mul]
  exact floor_eq_max _

theorem scenario_fractions (depth expt : Nat → R) (Ds Dsmax Ws c : R) (hdepth : depth 0 ≠ 0) :
    sublayer_of (scenario_soil depth expt Ds Dsmax Ws c) (scenario_layer (R := R)) 0 0 = 0 ∧
      sublayer_of (scenario_soil depth expt Ds Dsmax Ws c) (scenario_layer (R := R)) 0 1 = 0 ∧
      sublayer_of (scenario_soil depth expt Ds Dsmax Ws c) (scenario_layer (R := R)) 0 2 = 1 := by
  refine ⟨?_, ?_, ?_⟩
  · simp [sublayer_of, scenario_layer]
  · simp [sublayer_of, scenario_layer]
  · simp only [sublayer_of, scenario_soil, scenario_layer, sub_zero]
    exact div_self hdepth

theorem scenario_capacity (fe dp : Bool) (depth expt : Nat → R) (Ds Dsmax Ws c : R)
    (hdepth : depth 0 ≠ 0) :
    top_max_moist_of (scenario_opts fe dp)
      (submax_moist_of (scenario_soil depth expt Ds Dsmax Ws c))
      (sublayer_of (scenario_soil depth expt Ds Dsmax Ws c) scenario_layer) = 100 := by
  obtain ⟨h0, h1, h2⟩ := scenario_fractions depth expt Ds Dsmax Ws c hdepth
  simp only [top_max_moist_of, scenario_opts, gt_iff_lt, lt_irrefl, if_false, List.foldl,
    h0, h1, h2, submax_moist_of]
  simp [scenario_soil]

theorem scenario_runoff (pw : R → R → R) (fe dp : Bool) (depth expt : Nat → R)
    (Ds Dsmax Ws c : R) (hdepth : depth 0 ≠ 0) :
    (branch_body pw (scenario_opts fe dp) (scenario_soil depth expt Ds Dsmax Ws c)
        scenario_layer 30 24).runoff = surface_runoff pw (3 / 10) 30 50 100 := by
  rw [branch_runoff_unblocked pw (scenario_opts fe dp) (scenario_soil depth expt Ds Dsmax Ws c)
    scenario_layer 30 24 (unblocked_of_not_frozen _ rfl)]
  obtain ⟨h0, h1, h2⟩ := scenario_fractions depth expt Ds Dsmax Ws c hdepth
  have hcap := scenario_capacity fe dp depth expt Ds Dsmax Ws c hdepth
  have hsum : top_moist_sum (scenario_opts fe dp)
      (submoist_of (scenario_soil depth expt Ds Dsmax Ws c) scenario_layer)
      (subice_of scenario_layer)
      (sublayer_of (scenario_soil depth expt Ds Dsmax Ws c) scenario_layer) = 50 := by
    simp only [top_moist_sum, scenario_opts, gt_iff_lt, lt_irrefl, if_false, List.foldl,
      h0, h1, h2]
    simp [submoist_of, subice_of, scenario_layer]
  have hm : top_moist_of (scenario_opts fe dp)
      (submoist_of (scenario_soil depth expt Ds Dsmax Ws c) scenario_layer)
      (subice_of scenario_layer) (submax_moist_of (scenario_soil depth expt Ds Dsmax Ws c))
      (sublayer_of (scenario_soil depth expt Ds Dsmax Ws c) scenario_layer) = 50 := by
    unfold top_moist_of
    rw [hcap, hsum]
    norm_num
  rw [hcap, hm]
  rfl

/-- The number `(1/2)^(10/13)` lies strictly between 0.585 and 0.5875. -/
theorem half_pow_bounds :
    (585 / 1000 : ℝ) < (1 / 2 : ℝ) ^ ((10 : ℝ) / 13) ∧
      (1 / 2 : ℝ) ^ ((10 : ℝ) / 13) < 5875 / 10000 := by
  have hy0 : (0 : ℝ) ≤ (1 / 2 : ℝ) ^ ((10 : ℝ) / 13) := Real.rpow_nonneg (by norm_num) _
  have h13 : ((1 / 2 : ℝ) ^ ((10 : ℝ) / 13)) ^ (13 : ℕ) = (1 / 2 : ℝ) ^ (10 : ℕ) := by
    rw [← Real.rpow_natCast, ← Real.rpow_mul (by norm_num : (0 : ℝ) ≤ 1 / 2)]
    have : (10 : ℝ) / 13 * ((13 : ℕ) : ℝ) = ((10 : ℕ) : ℝ) := by norm_num
    rw [this, Real.rpow_natCast]
  constructor
  · apply lt_of_pow_lt_pow_left₀ 13 hy0
    rw [h13]
    norm_num
  · apply lt_of_pow_lt_pow_left₀ 13 (by norm_num : (0 : ℝ) ≤ 5875 / 10000)
    rw [h13]
    norm_num

/-- For `a >= 0`: the real power `a^(13/10)` raised to the tenth is `a^13`. -/
theorem rpow_thirteen_tenths (a : ℝ) (ha : 0 ≤ a) :
    (a ^ ((13 : ℝ) / 10)) ^ (10 : ℕ) = a ^ (13 : ℕ) := by
  rw [← Real.rpow_natCast, ← Real.rpow_mul ha]
  have : (13 : ℝ) / 10 * ((10 : ℕ) : ℝ) = ((13 : ℕ) : ℝ) := by norm_num
  rw [this, Real.rpow_natCast]

theorem scenario_values :
    (54 / 10 : ℝ) < surface_runoff Real.rpow (3 / 10) 30 50 100 ∧
      surface_runoff Real.rpow (3 / 10) 30 200 400 < 54 / 10 := by
  obtain ⟨hlo, hhi⟩ := half_pow_bounds
  have e1 : (1 - (50 : ℝ) / 100) ^ (1 / (1 + (3 : ℝ) / 10)) = (1 / 2 : ℝ) ^ ((10 : ℝ) / 13) := by
    norm_num
  have e2 : (1 - (200 : ℝ) / 400) ^ (1 / (1 + (3 : ℝ) / 10)) = (1 / 2 : ℝ) ^ ((10 : ℝ) / 13) := by
    norm_num
  have e3 : (1 : ℝ) + 3 / 10 = 13 / 10 := by norm_num
  constructor
  · rw [surface_runoff_real _ _ _ _ (by norm_num) (by norm_num) (by norm_num), e1, e3]
    apply lt_of_lt_of_le _ (le_max_right _ _)
    have ha : (0 : ℝ) ≤ 585 / 1000 - 3 / 13 := by norm_num
    have hbase : (585 / 1000 - 3 / 13 : ℝ)
        ≤ max ((1 / 2 : ℝ) ^ ((10 : ℝ) / 13) - 30 / (13 / 10 * 100)) 0 := by
      apply le_trans _ (le_max_left _ _)
      have : (30 : ℝ) / (13 / 10 * 100) = 3 / 13 := by norm_num
      rw [this]
      linarith
    have hmono := Real.rpow_le_rpow ha hbase (by norm_num : (0 : ℝ) ≤ 13 / 10)
    have hv : (254 / 1000 : ℝ) < (585 / 1000 - 3 / 13 : ℝ) ^ ((13 : ℝ) / 10) := by
      apply lt_of_pow_lt_pow_left₀ 10 (Real.rpow_nonneg ha _)
      rw [rpow_thirteen_tenths _ ha]
      norm_num
    linarith
  · rw [surface_runoff_real _ _ _ _ (by norm_num) (by norm_num) (by norm_num), e2, e3]
    apply max_lt (by norm_num)
    have hc : (0 : ℝ) ≤ 5875 / 10000 - 3 / 52 := by norm_num
    have hbase : max ((1 / 2 : ℝ) ^ ((10 : ℝ) / 13) - 30 / (13 / 10 * 400)) 0
        ≤ (5875 / 10000 - 3 / 52 : ℝ) := by
      apply max_le _ hc
      have : (30 : ℝ) / (13 / 10 * 400) = 3 / 52 := by norm_num
      rw [this]
      linarith
    have hmono := Real.rpow_le_rpow (le_max_right _ _) hbase (by norm_num : (0 : ℝ) ≤ 13 / 10)
    have hw : (5875 / 10000 - 3 / 52 : ℝ) ^ ((13 : ℝ) / 10) < 4385 / 10000 := by
      apply lt_of_pow_lt_pow_left₀ 10 (by norm_num : (0 : ℝ) ≤ 4385 / 10000)
      rw [rpow_thirteen_tenths _ hc]
      norm_num
    linarith

/-- Claim C6 (counterexample).  In the scenario (two layers, so only the first layer
enters the aggregate: capacity 100, moisture 50) the runoff output is above 5.4,
while the closed form of section 4.2 at capacity 400 and moisture 200 is below 5.4. -/
theorem C6_counterexample_two_layer_aggregate :
    (branch_body Real.rpow (scenario_opts false false)
        (scenario_soil (fun _ => 1) (fun _ => 3) 1 1 (1 / 2) 1) scenario_layer 30 24).runoff
      ≠ closed_form_4_2 Real.rpow 30 200 400 (3 / 10) := by
  rw [scenario_runoff Real.rpow false false (fun _ => 1) (fun _ => 3) 1 1 (1 / 2) 1 one_ne_zero,
    ← surface_runoff_eq_closed_form]
  obtain ⟨h1, h2⟩ := scenario_values
  exact ne_of_gt (lt_trans h2 h1)

/-- Claim C6 (amended).  For the two-layer scenario (frozen-soil mode off,
`b_infilt = 0.3`, maximum moistures 100 and 300, residual moisture 0, initial
moistures 50 and 150, `Ksat` 50 and 20, `dt = 24`, inflow 30, zero evaporation, and a
first layer of non-zero depth) the runoff output equals the closed form of section
4.2 evaluated with capacity 100 and moisture 50: with two layers only the first one
enters the aggregate. -/
theorem C6_scenario_runoff_first_layer_only (pw : R → R → R) (fe dp : Bool)
    (depth expt : Nat → R) (Ds Dsmax Ws c : R) (hdepth : depth 0 ≠ 0) :
    (branch_body pw (scenario_opts fe dp) (scenario_soil depth expt Ds Dsmax Ws c)
        scenario_layer 30 24).runoff = closed_form_4_2 pw 30 50 100 (3 / 10) := by
  rw [scenario_runoff pw fe dp depth expt Ds Dsmax Ws c hdepth, surface_runoff_eq_closed_form]

theorem C6_scenario_runoff_first_layer_only_witness :
    (branch_body int_pow (scenario_opts false false)
        (scenario_soil (fun _ => 1) (fun _ => 3) 1 1 (1 / 2) 1) scenario_layer 30 24).runoff
      = closed_form_4_2 int_pow 30 50 100 (3 / 10) :=
  C6_scenario_runoff_first_layer_only int_pow false false (fun _ => 1) (fun _ => 3) 1 1 (1 / 2) 1
    one_ne_zero


/-! ## Runoff as a function of the inflow -/

theorem top_moist_le_cap (opts : option_struct) (submoist subice submax_moist sublayer : Nat → Nat → R) :
    top_moist_of opts submoist subice submax_moist sublayer
      ≤ top_max_moist_of opts submax_moist sublayer := by
  unfold top_moist_of
  split_ifs with h
  · exact le_refl _
  · exact not_lt.1 h

theorem unblocked_inflow_irrelevant (pw : R → R → R) (opts : option_struct)
    (soil : soil_con_struct R) (layer : Nat → layer_data_struct R) (i1 i2 : R) (dt : Int)
    (h : unblocked (branch_env pw opts soil layer i1 dt)) :
    unblocked (branch_env pw opts soil layer i2 dt) := h

/-- Monotonicity of the runoff output in the inflow for columns without an impermeable
slot, over the reals. -/
theorem runoff_mono_unblocked (opts : option_struct) (soil : soil_con_struct ℝ)
    (layer : Nat → layer_data_struct ℝ) (dt : Int) (i1 i2 : ℝ)
    (hb : 0 < soil.b_infilt)
    (hcap : 0 < top_max_moist_of opts (submax_moist_of soil) (sublayer_of soil layer))
    (h0 : 0 ≤ i1) (h12 : i1 ≤ i2)
    (hopen : unblocked (branch_env Real.rpow opts soil layer i1 dt)) :
    (branch_body Real.rpow opts soil layer i1 dt).runoff
      ≤ (branch_body Real.rpow opts soil layer i2 dt).runoff := by
  rw [branch_runoff_unblocked Real.rpow opts soil layer i1 dt hopen,
    branch_runoff_unblocked Real.rpow opts soil layer i2 dt
      (unblocked_inflow_irrelevant Real.rpow opts soil layer i1 i2 dt hopen)]
  exact surface_runoff_mono _ _ _ _ _ hb hcap (top_moist_le_cap _ _ _ _ _) h0 h12


set_option maxHeartbeats 4000000 in
set_option maxRecDepth 100000 in
theorem odd_runoff_16 :
    (branch_body Real.rpow odd_opts odd_soil odd_layer 16 3).runoff = 737 / 45 := by
  norm_num [branch_body, time_loop, time_step, cond_pass, advance_pass, advance_layer,
    advance_slot, advance_update, advance_moist, residual_floor, hand_down, cond_slot,
    writeback, branch_env, branch_init, odd_opts, odd_soil, odd_layer, redistribute_up, push_up,
    List.range_succ, set1, set2, sublayer_of, submoist_of, subice_of, submax_moist_of,
    resid_moist_of, surface_runoff, top_moist_of, top_moist_sum, top_max_moist_of,
    Real.rpow_eq_pow, Real.one_rpow, Real.rpow_two]

set_option maxHeartbeats 4000000 in
set_option maxRecDepth 100000 in
theorem odd_runoff_18 :
    (branch_body Real.rpow odd_opts odd_soil odd_layer 18 3).runoff = 64 / 5 := by
  norm_num [branch_body, time_loop, time_step, cond_pass, advance_pass, advance_layer,
    advance_slot, advance_update, advance_moist, residual_floor, hand_down, cond_slot,
    writeback, branch_env, branch_init, odd_opts, odd_soil, odd_layer, redistribute_up, push_up,
    List.range_succ, set1, set2, sublayer_of, submoist_of, subice_of, submax_moist_of,
    resid_moist_of, surface_runoff, top_moist_of, top_moist_sum, top_max_moist_of,
    Real.rpow_eq_pow, Real.one_rpow, Real.rpow_two]

theorem odd_capacity :
    top_max_moist_of odd_opts (submax_moist_of (odd_soil (R := ℝ)))
      (sublayer_of odd_soil odd_layer) = 30 := by
  norm_num [top_max_moist_of, odd_opts, odd_soil, odd_layer, submax_moist_of, sublayer_of]

/-- Claim C5 (counterexample).  Three dry layers, `b_infilt = 1`, aggregate capacity 30,
`dt = 3`; the first layer has capacity 10 mm but residual moisture 20 mm, and the
frozen lower half of the second layer is impermeable.  Inflow 16 gives runoff 737/45
(about 16.4), inflow 18 gives runoff 64/5 (12.8): more inflow, less runoff. -/
theorem C5_counterexample_blocked_column :
    (0 : ℝ) < (odd_soil (R := ℝ)).b_infilt ∧
      (0 : ℝ) < top_max_moist_of odd_opts (submax_moist_of (odd_soil (R := ℝ)))
        (sublayer_of odd_soil odd_layer) ∧
      (0 : ℝ) ≤ 16 ∧ (16 : ℝ) ≤ 18 ∧
      ¬ ((branch_body Real.rpow odd_opts odd_soil odd_layer 16 3).runoff
          ≤ (branch_body Real.rpow odd_opts odd_soil odd_layer 18 3).runoff) := by
  refine ⟨?_, ?_, by norm_num, by norm_num, ?_⟩
  · simp [odd_soil]
  · rw [odd_capacity]
    norm_num
  · rw [odd_runoff_16, odd_runoff_18]
    norm_num

/-- Claim C5 (amended).  For a column in which no active frozen slot meets the
impermeability test (in particular whenever frozen-soil mode is off), with `b > 0` and
positive aggregate capacity: two invocations that differ only in the inflow, with
`0 <= inflow1 <= inflow2`, give `runoff1 <= runoff2` (real arithmetic, real power). -/
theorem C5_runoff_monotone_open_column (opts : option_struct) (soil : soil_con_struct ℝ)
    (layer : Nat → layer_data_struct ℝ) (dt : Int) (i1 i2 : ℝ)
    (hb : 0 < soil.b_infilt)
    (hcap : 0 < top_max_moist_of opts (submax_moist_of soil) (sublayer_of soil layer))
    (h0 : 0 ≤ i1) (h12 : i1 ≤ i2)
    (hopen : unblocked (branch_env Real.rpow opts soil layer i1 dt)) :
    (branch_body Real.rpow opts soil layer i1 dt).runoff
      ≤ (branch_body Real.rpow opts soil layer i2 dt).runoff :=
  runoff_mono_unblocked opts soil layer dt i1 i2 hb hcap h0 h12 hopen

theorem C5_runoff_monotone_open_column_witness :
    (branch_body Real.rpow (scenario_opts false false)
        (scenario_soil (fun _ => 1) (fun _ => 3) 1 1 (1 / 2) 1) scenario_layer 10 24).runoff
      ≤ (branch_body Real.rpow (scenario_opts false false)
        (scenario_soil (fun _ => 1) (fun _ => 3) 1 1 (1 / 2) 1) scenario_layer 30 24).runoff :=
  C5_runoff_monotone_open_column (scenario_opts false false)
    (scenario_soil (fun _ => 1) (fun _ => 3) 1 1 (1 / 2) 1) scenario_layer 24 10 30
    (by simp only [scenario_soil]; norm_num)
    (by rw [scenario_capacity false false (fun _ => 1) (fun _ => 3) 1 1 (1 / 2) 1 one_ne_zero]
        norm_num)
    (by norm_num) (by norm_num) (unblocked_of_not_frozen _ rfl)
/-! ## The degenerate single-sublayer mode and the reference integration -/

theorem degenerate_branch_env (pw : R → R → R) (opts : option_struct) (soil : soil_con_struct R)
    (layer : Nat → layer_data_struct R) (inflow : R) (dt : Int)
    (hF : opts.FROZEN_SOIL = false)
    (hz : ∀ l, l < opts.Nlayer →
      (layer l).tdepth = 0 ∧ (layer l).fdepth = 0 ∧ soil.depth l ≠ 0) :
    degenerate (branch_env pw opts soil layer inflow dt) := by
  refine ⟨hF, ?_⟩
  intro l hl
  obtain ⟨ht, hf, hd⟩ := hz l hl
  simp only [branch_env, sublayer_of, ht, hf, sub_zero, zero_div, true_and]
  exact div_self hd

theorem degenerate_inactive (env : col_env R) (hd : degenerate env) (l s : Nat)
    (hl : l < env.opts.Nlayer) (hs : s < 2) : ¬ active env l s := by
  obtain ⟨h0, h1, _⟩ := hd.2 l hl
  intro ha
  have h := ha.1
  have hs2 : s = 0 ∨ s = 1 := by omega
  rcases hs2 with h2 | h2 <;> subst h2
  · rw [h0] at h; exact lt_irrefl _ h
  · rw [h1] at h; exact lt_irrefl _ h

theorem degenerate_active (env : col_env R) (hd : degenerate env) (l : Nat)
    (hl : l < env.opts.Nlayer) (hb : l ≠ env.opts.Nlayer - 1) : active env l 2 := by
  obtain ⟨_, _, h2⟩ := hd.2 l hl
  refine ⟨?_, fun h => hb h.1⟩
  rw [h2]
  exact zero_lt_one

theorem degenerate_bottom_inactive (env : col_env R) (s : Nat) :
    (s = 2 → ¬ active env (env.opts.Nlayer - 1) s) := by
  intro hs ha
  exact ha.2 ⟨rfl, hs⟩

theorem raise_eq_max (a r : R) : (if a < r then r else a) = max a r := by
  rw [max_def]
  split_ifs with h2 h3 h3
  · rfl
  · exact absurd (le_of_lt h2) h3
  · exact le_antisymm h3 (not_lt.1 h2)
  · rfl

/-- In the degenerate mode the conductivity pass leaves in `Q12` of a processed layer
the guarded conductivity of its moisture. -/
theorem cond_slot_degenerate (pw : R → R → R) (env : col_env R) (st : flux_state R) (l : Nat)
    (hF : env.opts.FROZEN_SOIL = false) (ha : active env l 2)
    (hres : env.resid_moist = resid_moist_of env.opts env.soil)
    (hK : ∀ k, env.Ksat k = env.soil.Ksat k / 24) :
    (cond_slot pw env st l 2).Q12 = set2 st.Q12 l 2
      (guarded_conductivity pw env.opts env.soil l (st.submoist l 2) (st.layer l).evap) := by
  have hg := (cond_guard_iff env l 2).2 ha
  unfold cond_slot
  rw [if_pos hg]
  simp only [hF, Bool.false_eq_true, false_and, if_false]
  unfold guarded_conductivity claimed_conductivity
  rw [hres, hK, raise_eq_max]

/-- State after the conductivity pass in the degenerate mode. -/
theorem cond_pass_degenerate (pw : R → R → R) (env : col_env R) (st : flux_state R)
    (hd : degenerate env) (hq : quiet st)
    (hres : env.resid_moist = resid_moist_of env.opts env.soil)
    (hK : ∀ k, env.Ksat k = env.soil.Ksat k / 24) :
    quiet (cond_pass pw env st) ∧
      ∀ l, l < env.opts.Nlayer → l ≠ env.opts.Nlayer - 1 →
        (cond_pass pw env st).Q12 l 2
          = guarded_conductivity pw env.opts env.soil l (st.submoist l 2) (st.layer l).evap := by
  have h := cond_pass_invariant pw env
    (fun k x => quiet x ∧ x.submoist = st.submoist ∧ x.layer = st.layer ∧
      ∀ l, 3 * l + 2 < k → l ≠ env.opts.Nlayer - 1 →
        x.Q12 l 2
          = guarded_conductivity pw env.opts env.soil l (st.submoist l 2) (st.layer l).evap)
    st ⟨hq, rfl, rfl, fun l hl => absurd hl (Nat.not_lt_zero _)⟩ ?_
  · exact ⟨h.1, fun l hl hb => h.2.2.2 l (by omega) hb⟩
  · intro l s x hl hs ⟨hxq, hxm, hxl, hx⟩
    by_cases ha : active env l s
    · have hs2 : s = 2 := by
        by_contra hne
        exact degenerate_inactive env hd l s hl (by omega) ha
      subst hs2
      obtain ⟨-, hfm, -⟩ := cond_slot_frame pw env x l 2
      obtain ⟨hfl, -⟩ := cond_slot_frame pw env x l 2
      refine ⟨cond_slot_quiet pw env x l 2 hl (unblocked_of_not_frozen env hd.1) hxq,
        hfm.trans hxm, hfl.trans hxl, ?_⟩
      intro k hk hkb
      rw [cond_slot_degenerate pw env x l hd.1 ha hres hK]
      by_cases hkl : k = l
      · subst hkl
        rw [set2_same, hxm, hxl]
      · rw [set2_other _ _ _ _ _ _ (fun h => hkl h.1)]
        exact hx k (by omega) hkb
    · rw [cond_slot_inactive pw env x l s ha]
      refine ⟨hxq, hxm, hxl, ?_⟩
      intro k hk hkb
      by_cases hkl : k = l
      · subst hkl
        have hs2 : s = 2 := by omega
        subst hs2
        exact absurd (degenerate_active env hd k hl hkb) ha
      · exact hx k (by omega) hkb

/-- One active slot of the advance pass in the degenerate mode, in closed form. -/
theorem advance_slot_degenerate (env : col_env R) (st : flux_state R) (l : Nat)
    (hq : quiet st) (ha : active env l 2) (h1 : env.sublayer l 2 = 1)
    (hice : env.subice l 2 = 0) :
    (advance_slot env st l 2).submoist = set2 st.submoist l 2
        (settle_moist (env.submax_moist l 2) (env.resid_moist l)
          (st.submoist l 2 + st.inflow - (if st.firstlayer = true then env.dt_runoff else 0)
            - (st.Q12 l 2 + (st.layer l).evap / (env.dt : R)))) ∧
      (advance_slot env st l 2).inflow =
        settle_flux (env.submax_moist l 2) (env.resid_moist l) (st.Q12 l 2)
          (st.submoist l 2 + st.inflow - (if st.firstlayer = true then env.dt_runoff else 0)
            - (st.Q12 l 2 + (st.layer l).evap / (env.dt : R))) ∧
      (advance_slot env st l 2).firstlayer = false ∧
      (∀ k, k ≠ l → (advance_slot env st l 2).Q12 k 2 = st.Q12 k 2) := by
  have hm : advance_moist env st l 2
      = st.submoist l 2 + st.inflow - (if st.firstlayer = true then env.dt_runoff else 0)
        - (st.Q12 l 2 + (st.layer l).evap / (env.dt : R)) := by
    unfold advance_moist
    rw [h1]
    split_ifs <;> ring
  rw [advance_slot_active env st l 2 ha, advance_update_quiet env st l 2 hq, hm, hice]
  generalize st.submoist l 2 + st.inflow - (if st.firstlayer = true then env.dt_runoff else 0)
        - (st.Q12 l 2 + (st.layer l).evap / (env.dt : R)) = m
  simp only [add_zero, sub_zero]
  unfold settle_moist settle_flux
  by_cases hover : m > env.submax_moist l 2
  · simp only [if_pos hover]
    by_cases hfl : env.submax_moist l 2 < env.resid_moist l
    · refine ⟨?_, ?_, ?_, ?_⟩
      · simp [hand_down, residual_floor, set2_same, set2_set2, hfl, hice]
      · simp [hand_down, residual_floor, set2_same, set2_set2, hfl, hice, h1]
      · simp [hand_down, residual_floor, set2_same, set2_set2, hfl, hice]
      · intro k hk
        simp [hand_down, residual_floor, set2_same, set2_set2, hfl, hice, set2, hk]
    · refine ⟨?_, ?_, ?_, ?_⟩
      · simp [hand_down, residual_floor, set2_same, set2_set2, hfl, hice]
      · simp [hand_down, residual_floor, set2_same, set2_set2, hfl, hice, h1]
      · simp [hand_down, residual_floor, set2_same, set2_set2, hfl, hice]
      · intro k hk
        simp [hand_down, residual_floor, set2_same, set2_set2, hfl, hice, set2, hk]
  · simp only [if_neg hover]
    by_cases hfl : m < env.resid_moist l
    · refine ⟨?_, ?_, ?_, ?_⟩
      · simp [hand_down, residual_floor, set2_same, set2_set2, hfl, hice]
      · simp [hand_down, residual_floor, set2_same, set2_set2, hfl, hice, h1]
      · simp [hand_down, residual_floor, set2_same, set2_set2, hfl, hice]
      · intro k hk
        simp [hand_down, residual_floor, set2_same, set2_set2, hfl, hice, set2, hk]
    · refine ⟨?_, ?_, ?_, ?_⟩
      · simp [hand_down, residual_floor, set2_same, set2_set2, hfl, hice]
      · simp [hand_down, residual_floor, set2_same, set2_set2, hfl, hice, h1]
      · simp [hand_down, residual_floor, set2_same, set2_set2, hfl, hice]
      · intro k hk
        simp [hand_down, residual_floor, set2_same, set2_set2, hfl, hice, set2, hk]

theorem advance_layer_degenerate (env : col_env R) (hd : degenerate env) (st : flux_state R)
    (l : Nat) (hl : l < env.opts.Nlayer) :
    advance_layer env st l = writeback env (advance_slot env st l 2) l := by
  unfold advance_layer
  rw [foldl_three, advance_slot_inactive env st l 0 (degenerate_inactive env hd l 0 hl (by omega)),
    advance_slot_inactive env st l 1 (degenerate_inactive env hd l 1 hl (by omega))]

theorem writeback_tracks (env : col_env R) (hd : degenerate env) (evap : Nat → R)
    (st : flux_state R) (m : Nat → R) (l : Nat) (hl : l < env.opts.Nlayer)
    (hq : quiet st) (hsub : ∀ k, st.submoist k 2 = m k)
    (hlay : ∀ k, k ≠ l → (st.layer k).moist = m k)
    (hev : ∀ k, (st.layer k).evap = evap k) :
    quiet (writeback env st l) ∧ (∀ k, (writeback env st l).submoist k 2 = m k) ∧
      (∀ k, ((writeback env st l).layer k).moist = m k) ∧
      (∀ k, ((writeback env st l).layer k).evap = evap k) := by
  obtain ⟨hwm, -, hwf, -⟩ := writeback_frame env st l
  refine ⟨?_, ?_, ?_, ?_⟩
  · intro i
    rw [hwf]
    exact hq i
  · intro k
    rw [hwm]
    exact hsub k
  · intro k
    by_cases hk : k = l
    · subst hk
      have h := writeback_layer_moist env st k 2 (by omega)
      rw [(hd.2 k hl).2.2, if_pos zero_lt_one] at h
      exact h.trans (hsub k)
    · rw [writeback_layer_other env st l k hk]
      exact hlay k hk
  · intro k
    rw [writeback_evap]
    exact hev k

/-- One layer of the advance pass in the degenerate mode is one layer step of the
reference integration with the guarded conductivity. -/
theorem advance_layer_tracks (pw : R → R → R) (env : col_env R) (hd : degenerate env)
    (hice : ∀ l, env.subice l 2 = 0)
    (hmax : ∀ l, env.submax_moist l 2 = env.soil.max_moist l)
    (hres : env.resid_moist = resid_moist_of env.opts env.soil)
    (evap : Nat → R) (st : flux_state R) (s : ref_state R) (l : Nat)
    (hl : l < env.opts.Nlayer) (ht : tracks evap st s)
    (hin : st.inflow = s.flux) (hf : st.firstlayer = s.first)
    (hQ : ∀ k, l ≤ k → k < env.opts.Nlayer → k ≠ env.opts.Nlayer - 1 →
      st.Q12 k 2 = guarded_conductivity pw env.opts env.soil k (s.moist k) (evap k)) :
    tracks evap (advance_layer env st l)
        (ref_layer_step (guarded_conductivity pw env.opts env.soil) env.opts env.soil evap
          env.dt env.dt_runoff s l) ∧
      (advance_layer env st l).inflow
        = (ref_layer_step (guarded_conductivity pw env.opts env.soil) env.opts env.soil evap
            env.dt env.dt_runoff s l).flux ∧
      (advance_layer env st l).firstlayer
        = (ref_layer_step (guarded_conductivity pw env.opts env.soil) env.opts env.soil evap
            env.dt env.dt_runoff s l).first ∧
      (∀ k, l + 1 ≤ k → k < env.opts.Nlayer → k ≠ env.opts.Nlayer - 1 →
        (advance_layer env st l).Q12 k 2
          = guarded_conductivity pw env.opts env.soil k
              ((ref_layer_step (guarded_conductivity pw env.opts env.soil) env.opts env.soil
                evap env.dt env.dt_runoff s l).moist k) (evap k)) := by
  obtain ⟨hq, hsub, hlay, hev, hout⟩ := ht
  rw [advance_layer_degenerate env hd st l hl]
  by_cases hb : l = env.opts.Nlayer - 1
  · have hina : ¬ active env l 2 := fun ha => ha.2 ⟨hb, rfl⟩
    rw [advance_slot_inactive env st l 2 hina]
    have hr : ref_layer_step (guarded_conductivity pw env.opts env.soil) env.opts env.soil evap
        env.dt env.dt_runoff s l = s := by
      unfold ref_layer_step
      rw [if_pos hb]
    rw [hr]
    obtain ⟨h1, h2, h3, h4⟩ := writeback_tracks env hd evap st s.moist l hl hq hsub
      (fun k _ => hlay k) hev
    obtain ⟨-, hwq, -, -, -, -, -, hwf, hwi, -, hwo⟩ := writeback_frame env st l
    refine ⟨⟨h1, h2, h3, h4, hwo.trans hout⟩, hwi.trans hin, hwf.trans hf, ?_⟩
    intro k hk1 hk2 hk3
    rw [hwq]
    exact hQ k (by omega) hk2 hk3
  · have ha : active env l 2 := degenerate_active env hd l hl hb
    obtain ⟨am, ai, af, aq⟩ := advance_slot_degenerate env st l hq ha (hd.2 l hl).2.2 (hice l)
    obtain ⟨al, afs, -, -, -, ao⟩ := advance_slot_frame env st l 2
    have hr : ref_layer_step (guarded_conductivity pw env.opts env.soil) env.opts env.soil evap
        env.dt env.dt_runoff s l =
        { moist := set1 s.moist l
            (settle_moist (env.soil.max_moist l) (resid_moist_of env.opts env.soil l)
              (s.moist l + s.flux - (if s.first = true then env.dt_runoff else 0)
                - (guarded_conductivity pw env.opts env.soil l (s.moist l) (evap l)
                    + evap l / (env.dt : R))))
          flux := settle_flux (env.soil.max_moist l) (resid_moist_of env.opts env.soil l)
              (guarded_conductivity pw env.opts env.soil l (s.moist l) (evap l))
              (s.moist l + s.flux - (if s.first = true then env.dt_runoff else 0)
                - (guarded_conductivity pw env.opts env.soil l (s.moist l) (evap l)
                    + evap l / (env.dt : R)))
          first := false
          outflow := s.outflow } := by
      unfold ref_layer_step
      rw [if_neg hb]
    rw [hr]
    have hq12 := hQ l (le_refl l) hl hb
    rw [hq12, hsub l, hin, hf, hev l, hmax l, hres] at am ai
    have hsub2 : ∀ k, (advance_slot env st l 2).submoist k 2
        = set1 s.moist l
            (settle_moist (env.soil.max_moist l) (resid_moist_of env.opts env.soil l)
              (s.moist l + s.flux - (if s.first = true then env.dt_runoff else 0)
                - (guarded_conductivity pw env.opts env.soil l (s.moist l) (evap l)
                    + evap l / (env.dt : R)))) k := by
      intro k
      rw [am]
      by_cases hk : k = l
      · subst hk
        rw [set2_same]
        simp [set1]
      · rw [set2_other _ _ _ _ _ _ (fun h => hk h.1)]
        simp [set1, hk, hsub k]
    have hq2 : quiet (advance_slot env st l 2) := fun i => by
      rw [afs]
      exact hq i
    obtain ⟨h1, h2, h3, h4⟩ := writeback_tracks env hd evap (advance_slot env st l 2) _ l hl
      hq2 hsub2
      (fun k hk => by
        rw [al]
        simp [set1, hk, hlay k])
      (fun k => by
        rw [al]
        exact hev k)
    obtain ⟨-, hwq, -, -, -, -, -, hwf, hwi, -, hwo⟩ := writeback_frame env (advance_slot env st l 2) l
    refine ⟨⟨h1, h2, h3, h4, ?_⟩, ?_, ?_, ?_⟩
    · exact hwo.trans (ao.trans hout)
    · exact hwi.trans ai
    · exact hwf.trans af
    · intro k hk1 hk2 hk3
      have hkl : k ≠ l := by omega
      rw [hwq, aq k hkl]
      simp only [set1, if_neg hkl]
      exact hQ k (by omega) hk2 hk3

theorem advance_fold_tracks (pw : R → R → R) (env : col_env R) (hd : degenerate env)
    (hice : ∀ l, env.subice l 2 = 0)
    (hmax : ∀ l, env.submax_moist l 2 = env.soil.max_moist l)
    (hres : env.resid_moist = resid_moist_of env.opts env.soil)
    (evap : Nat → R) (st : flux_state R) (s : ref_state R)
    (ht : tracks evap st s) (hin : st.inflow = s.flux) (hf : st.firstlayer = s.first)
    (hQ : ∀ k, k < env.opts.Nlayer → k ≠ env.opts.Nlayer - 1 →
      st.Q12 k 2 = guarded_conductivity pw env.opts env.soil k (s.moist k) (evap k))
    (n : Nat) (hn : n ≤ env.opts.Nlayer) :
    tracks evap ((List.range n).foldl (advance_layer env) st)
        ((List.range n).foldl
          (ref_layer_step (guarded_conductivity pw env.opts env.soil) env.opts env.soil evap
            env.dt env.dt_runoff) s) ∧
      ((List.range n).foldl (advance_layer env) st).inflow
        = ((List.range n).foldl
            (ref_layer_step (guarded_conductivity pw env.opts env.soil) env.opts env.soil evap
              env.dt env.dt_runoff) s).flux ∧
      ((List.range n).foldl (advance_layer env) st).firstlayer
        = ((List.range n).foldl
            (ref_layer_step (guarded_conductivity pw env.opts env.soil) env.opts env.soil evap
              env.dt env.dt_runoff) s).first ∧
      (∀ k, n ≤ k → k < env.opts.Nlayer → k ≠ env.opts.Nlayer - 1 →
        ((List.range n).foldl (advance_layer env) st).Q12 k 2
          = guarded_conductivity pw env.opts env.soil k
              (((List.range n).foldl
                (ref_layer_step (guarded_conductivity pw env.opts env.soil) env.opts env.soil
                  evap env.dt env.dt_runoff) s).moist k) (evap k)) := by
  induction n with
  | zero =>
    simp only [List.range_zero, List.foldl_nil]
    exact ⟨ht, hin, hf, fun k _ hk1 hk2 => hQ k hk1 hk2⟩
  | succ n ih =>
    obtain ⟨i1, i2, i3, i4⟩ := ih (by omega)
    simp only [List.range_succ, List.foldl_append, List.foldl_cons, List.foldl_nil]
    exact advance_layer_tracks pw env hd hice hmax hres evap _ _ n (by omega) i1 i2 i3 i4

/-- One sub-step of the program in the degenerate mode is one sub-step of the
reference integration with the guarded conductivity. -/
theorem time_step_tracks (pw : R → R → R) (env : col_env R) (hd : degenerate env)
    (hice : ∀ l, env.subice l 2 = 0)
    (hmax : ∀ l, env.submax_moist l 2 = env.soil.max_moist l)
    (hres : env.resid_moist = resid_moist_of env.opts env.soil)
    (hK : ∀ k, env.Ksat k = env.soil.Ksat k / 24)
    (evap : Nat → R) (st : flux_state R) (s : ref_state R) (ht : tracks evap st s) :
    tracks evap (time_step pw env st)
      (ref_time_step (guarded_conductivity pw env.opts env.soil) env.opts env.soil evap
        env.dt env.dt_inflow env.dt_runoff s) := by
  obtain ⟨hq, hsub, hlay, hev, hout⟩ := ht
  have hq0 : quiet { st with inflow := env.dt_inflow, last_cnt := 0 } := hq
  obtain ⟨cq, cQ⟩ := cond_pass_degenerate pw env
    { st with inflow := env.dt_inflow, last_cnt := 0 } hd hq0 hres hK
  obtain ⟨cl, cm, -, ci, co, -, -⟩ := cond_pass_frame pw env
    { st with inflow := env.dt_inflow, last_cnt := 0 }
  have ht1 : tracks evap
      { cond_pass pw env { st with inflow := env.dt_inflow, last_cnt := 0 } with
        firstlayer := true, last_index := 0 }
      { s with flux := env.dt_inflow, first := true } := by
    refine ⟨cq, ?_, ?_, ?_, ?_⟩
    · intro l
      show (cond_pass pw env { st with inflow := env.dt_inflow, last_cnt := 0 }).submoist l 2 = _
      rw [cm]
      exact hsub l
    · intro l
      show ((cond_pass pw env { st with inflow := env.dt_inflow, last_cnt := 0 }).layer l).moist = _
      rw [cl]
      exact hlay l
    · intro l
      show ((cond_pass pw env { st with inflow := env.dt_inflow, last_cnt := 0 }).layer l).evap = _
      rw [cl]
      exact hev l
    · show (cond_pass pw env { st with inflow := env.dt_inflow, last_cnt := 0 }).dt_outflow = _
      rw [co]
      exact hout
  obtain ⟨⟨f1, f2, f3, f4, f5⟩, fi, -, -⟩ := advance_fold_tracks pw env hd hice hmax hres evap
    { cond_pass pw env { st with inflow := env.dt_inflow, last_cnt := 0 } with
      firstlayer := true, last_index := 0 }
    { s with flux := env.dt_inflow, first := true } ht1
    (by
      show (cond_pass pw env { st with inflow := env.dt_inflow, last_cnt := 0 }).inflow = _
      rw [ci])
    rfl
    (fun k hk1 hk2 => by
      show (cond_pass pw env { st with inflow := env.dt_inflow, last_cnt := 0 }).Q12 k 2 = _
      rw [cQ k hk1 hk2]
      show guarded_conductivity pw env.opts env.soil k (st.submoist k 2) (st.layer k).evap = _
      rw [hsub k, hev k])
    env.opts.Nlayer (le_refl _)
  refine ⟨f1, f2, f3, f4, ?_⟩
  show (advance_pass env (cond_pass pw env { st with inflow := env.dt_inflow, last_cnt := 0 })).dt_outflow
      + (advance_pass env (cond_pass pw env { st with inflow := env.dt_inflow, last_cnt := 0 })).inflow
    = _
  unfold advance_pass
  rw [f5, fi]
  rfl

theorem time_loop_tracks (pw : R → R → R) (env : col_env R) (hd : degenerate env)
    (hice : ∀ l, env.subice l 2 = 0)
    (hmax : ∀ l, env.submax_moist l 2 = env.soil.max_moist l)
    (hres : env.resid_moist = resid_moist_of env.opts env.soil)
    (hK : ∀ k, env.Ksat k = env.soil.Ksat k / 24)
    (evap : Nat → R) (n : Nat) (st : flux_state R) (s : ref_state R) (ht : tracks evap st s) :
    tracks evap (time_loop pw env n st)
      (ref_time_loop (guarded_conductivity pw env.opts env.soil) env.opts env.soil evap
        env.dt env.dt_inflow env.dt_runoff n s) := by
  induction n generalizing st s with
  | zero => exact ht
  | succ n ih =>
    exact ih _ _ (time_step_tracks pw env hd hice hmax hres hK evap st s ht)

theorem bottom_update_degenerate (env : col_env R) (l : Nat) (h1 : env.sublayer l 2 = 1)
    (hice : env.subice l 2 = 0) (evap moist baseflow inflow : R) :
    bottom_update env l evap moist baseflow inflow
      = ref_bottom (env.submax_moist l 2) (env.resid_moist l) evap moist baseflow inflow := by
  unfold bottom_update ref_bottom
  simp only [h1, hice, div_one, add_zero, sub_zero]

theorem degenerate_top (opts : option_struct) (soil : soil_con_struct R)
    (layer : Nat → layer_data_struct R)
    (h0 : sublayer_of soil layer 0 0 = 0) (h1 : sublayer_of soil layer 0 1 = 0)
    (h2 : sublayer_of soil layer 0 2 = 1) :
    top_max_moist_of opts (submax_moist_of soil) (sublayer_of soil layer)
        = (if opts.Nlayer > 2 then soil.max_moist 0 + soil.max_moist 1 else soil.max_moist 0) ∧
      top_moist_of opts (submoist_of soil layer) (subice_of layer) (submax_moist_of soil)
          (sublayer_of soil layer)
        = (if (if opts.Nlayer > 2 then (layer 0).moist + (layer 1).moist else (layer 0).moist)
              > (if opts.Nlayer > 2 then soil.max_moist 0 + soil.max_moist 1
                  else soil.max_moist 0)
           then (if opts.Nlayer > 2 then soil.max_moist 0 + soil.max_moist 1
                  else soil.max_moist 0)
           else (if opts.Nlayer > 2 then (layer 0).moist + (layer 1).moist
                  else (layer 0).moist)) := by
  have hc : top_max_moist_of opts (submax_moist_of soil) (sublayer_of soil layer)
      = (if opts.Nlayer > 2 then soil.max_moist 0 + soil.max_moist 1 else soil.max_moist 0) := by
    unfold top_max_moist_of
    split_ifs <;> simp [List.foldl, h0, h1, h2, submax_moist_of]
  have hs : top_moist_sum opts (submoist_of soil layer) (subice_of layer) (sublayer_of soil layer)
      = (if opts.Nlayer > 2 then (layer 0).moist + (layer 1).moist else (layer 0).moist) := by
    unfold top_moist_sum
    split_ifs <;> simp [List.foldl, h0, h1, h2, submoist_of, subice_of]
  refine ⟨hc, ?_⟩
  unfold top_moist_of
  rw [hc, hs]

/-- In the degenerate mode a branch produces what the reference integration with the
guarded conductivity produces. -/
theorem branch_body_reference (pw : R → R → R) (opts : option_struct) (soil : soil_con_struct R)
    (layer : Nat → layer_data_struct R) (inflow : R) (dt : Int)
    (hN : 0 < opts.Nlayer) (hF : opts.FROZEN_SOIL = false)
    (hz : ∀ l, l < opts.Nlayer →
      (layer l).tdepth = 0 ∧ (layer l).fdepth = 0 ∧ soil.depth l ≠ 0) :
    (branch_body pw opts soil layer inflow dt).runoff
        = (reference_column (guarded_conductivity pw opts soil) pw opts soil
            (fun l => (layer l).moist) (fun l => (layer l).evap) inflow dt).runoff ∧
      (branch_body pw opts soil layer inflow dt).baseflow
        = (reference_column (guarded_conductivity pw opts soil) pw opts soil
            (fun l => (layer l).moist) (fun l => (layer l).evap) inflow dt).baseflow ∧
      ∀ l, ((branch_body pw opts soil layer inflow dt).layer l).moist
        = (reference_column (guarded_conductivity pw opts soil) pw opts soil
            (fun l => (layer l).moist) (fun l => (layer l).evap) inflow dt).moist l := by
  have hd := degenerate_branch_env pw opts soil layer inflow dt hF hz
  obtain ⟨t0, t1, t2⟩ := hd.2 0 hN
  obtain ⟨hc, htop⟩ := degenerate_top opts soil layer t0 t1 t2
  have hrun := branch_runoff_unblocked pw opts soil layer inflow dt
    (unblocked_of_not_frozen _ hF)
  have ht0 : tracks (fun l => (layer l).evap) (branch_init pw opts soil layer inflow)
      { moist := fun l => (layer l).moist, flux := inflow, first := true, outflow := 0 } :=
    ⟨quiet_branch_init pw opts soil layer inflow, fun _ => rfl, fun _ => rfl, fun _ => rfl, rfl⟩
  have hlast : opts.Nlayer - 1 < (branch_env pw opts soil layer inflow dt).opts.Nlayer :=
    Nat.sub_lt hN Nat.one_pos
  obtain ⟨-, lm, ll, lv, lo⟩ := time_loop_tracks pw (branch_env pw opts soil layer inflow dt) hd
    (fun _ => rfl) (fun _ => rfl) rfl (fun _ => rfl) (fun l => (layer l).evap) dt.toNat _ _ ht0
  have hb := bottom_update_degenerate (branch_env pw opts soil layer inflow dt) (opts.Nlayer - 1)
    (hd.2 (opts.Nlayer - 1) hlast).2.2 rfl
  have hdr : (branch_env pw opts soil layer inflow dt).dt_runoff
      = surface_runoff pw soil.b_infilt inflow
          (if (if opts.Nlayer > 2 then (layer 0).moist + (layer 1).moist else (layer 0).moist)
                > (if opts.Nlayer > 2 then soil.max_moist 0 + soil.max_moist 1
                    else soil.max_moist 0)
             then (if opts.Nlayer > 2 then soil.max_moist 0 + soil.max_moist 1
                    else soil.max_moist 0)
             else (if opts.Nlayer > 2 then (layer 0).moist + (layer 1).moist
                    else (layer 0).moist))
          (if opts.Nlayer > 2 then soil.max_moist 0 + soil.max_moist 1 else soil.max_moist 0)
        / (dt : R) := by
    show surface_runoff pw soil.b_infilt inflow _ _ / (dt : R) = _
    rw [hc, htop]
  rw [hdr] at lm ll lo
  refine ⟨?_, ?_, ?_⟩
  · rw [hrun, hc, htop]
    rfl
  · show (bottom_update (branch_env pw opts soil layer inflow dt) (opts.Nlayer - 1) _ _ _ _).2
        * (branch_env pw opts soil layer inflow dt).sublayer (opts.Nlayer - 1) 2 = _
    rw [hb, (hd.2 (opts.Nlayer - 1) hlast).2.2, mul_one, lm, lo, lv]
    rfl
  · intro l
    show (set1 (time_loop pw (branch_env pw opts soil layer inflow dt) dt.toNat
        (branch_init pw opts soil layer inflow)).layer (opts.Nlayer - 1) _ l).moist = _
    by_cases hl : l = opts.Nlayer - 1
    · subst hl
      simp only [set1, if_true]
      rw [hb, lm, lo, lv]
      exact (if_pos rfl).symm
    · simp only [set1, if_neg hl]
      rw [ll]
      show _ = set1 _ (opts.Nlayer - 1) _ l
      simp only [set1, if_neg hl]
      rfl

theorem guarded_eq_claimed (pw : R → R → R) (opts : option_struct) (soil : soil_con_struct R)
    (l : Nat) (moist evap : R) (he : 0 ≤ evap) (hp : pw 0 (soil.expt l) = 0) :
    guarded_conductivity pw opts soil l moist evap
      = claimed_conductivity pw opts soil l moist evap := by
  unfold guarded_conductivity
  split_ifs with h
  · rfl
  · unfold claimed_conductivity
    have h1 : max (moist - evap) (resid_moist_of opts soil l) = resid_moist_of opts soil l :=
      max_eq_right (by linarith [not_lt.1 h])
    rw [h1, sub_self, zero_div, hp, mul_zero]

theorem ref_fold_congr (K K2 : Nat → R → R → R) (opts : option_struct) (soil : soil_con_struct R)
    (evap : Nat → R) (dt : Int) (dr : R)
    (h : ∀ l, l < opts.Nlayer → ∀ m, K l m (evap l) = K2 l m (evap l))
    (n : Nat) (hn : n ≤ opts.Nlayer) (s : ref_state R) :
    (List.range n).foldl (ref_layer_step K opts soil evap dt dr) s
      = (List.range n).foldl (ref_layer_step K2 opts soil evap dt dr) s := by
  induction n with
  | zero => rfl
  | succ n ih =>
    simp only [List.range_succ, List.foldl_append, List.foldl_cons, List.foldl_nil]
    rw [ih (by omega)]
    unfold ref_layer_step
    simp only [h n (by omega)]

theorem ref_time_loop_congr (K K2 : Nat → R → R → R) (opts : option_struct)
    (soil : soil_con_struct R) (evap : Nat → R) (dt : Int) (di dr : R)
    (h : ∀ l, l < opts.Nlayer → ∀ m, K l m (evap l) = K2 l m (evap l))
    (n : Nat) (s : ref_state R) :
    ref_time_loop K opts soil evap dt di dr n s = ref_time_loop K2 opts soil evap dt di dr n s := by
  induction n generalizing s with
  | zero => rfl
  | succ n ih =>
    have hs : ref_time_step K opts soil evap dt di dr s
        = ref_time_step K2 opts soil evap dt di dr s := by
      unfold ref_time_step
      simp only [ref_fold_congr K K2 opts soil evap dt dr h opts.Nlayer (le_refl _)]
    show ref_time_loop K opts soil evap dt di dr n (ref_time_step K opts soil evap dt di dr s)
      = ref_time_loop K2 opts soil evap dt di dr n (ref_time_step K2 opts soil evap dt di dr s)
    rw [hs, ih]

theorem reference_column_congr (K K2 : Nat → R → R → R) (pw : R → R → R) (opts : option_struct)
    (soil : soil_con_struct R) (moist evap : Nat → R) (inflow : R) (dt : Int)
    (h : ∀ l, l < opts.Nlayer → ∀ m, K l m (evap l) = K2 l m (evap l)) :
    reference_column K pw opts soil moist evap inflow dt
      = reference_column K2 pw opts soil moist evap inflow dt := by
  unfold reference_column
  simp only [ref_time_loop_congr K K2 opts soil evap dt _ _ h]

theorem not_has_negative_with_frozen_fields (layer : Nat → layer_data_struct R) (a b c : Nat → R)
    (N : Nat) (hneg : ¬ has_negative layer N) (hab : ∀ l, l < N → 0 ≤ a l ∧ 0 ≤ b l) :
    ¬ has_negative (with_frozen_fields layer a b c) N := by
  rintro ⟨l, hl, h⟩
  rcases h with h | h | h
  · exact absurd h (not_lt.2 (hab l hl).1)
  · exact absurd h (not_lt.2 (hab l hl).2)
  · exact hneg ⟨l, hl, Or.inr (Or.inr h)⟩

/-- Claim C10 (counterexample).  Frozen-soil mode off, no fronts, two layers, `Ksat` 24
mm/day, maximum moisture 100, residual moisture 0, one sub-step, no inflow.  The
first layer holds no water (its moisture equals the residual value) and has an
evaporative demand of -50 mm.  Lines 302-313 give a layer whose moisture does not
exceed the residual value the conductivity 0, so the layer ends with 50 mm; the
formula of the claim gives `1 * (50/100)^1 = 1/2`, and the reference integration ends
with 49.5 mm in the first layer. -/
theorem C10_counterexample_condensing_dry_layer :
    plain_opts.FROZEN_SOIL = false ∧
      (∀ l, (dewy_layer l).tdepth = 0 ∧ (dewy_layer l).fdepth = 0 ∧
        0 ≤ (dewy_layer l).moist_thaw ∧ 0 ≤ (dewy_layer l).moist_froz ∧
        0 ≤ (dewy_layer l).ice) ∧
      ∃ r, runoff_branch int_pow plain_opts open_soil dewy_layer 0 1 = Except.ok r ∧
        (r.layer 0).moist = 50 ∧
        (reference_column (claimed_conductivity int_pow plain_opts open_soil) int_pow
          plain_opts open_soil (fun l => (dewy_layer l).moist) (fun l => (dewy_layer l).evap)
          0 1).moist 0 = 99 / 2 ∧
        (r.layer 0).moist ≠
          (reference_column (claimed_conductivity int_pow plain_opts open_soil) int_pow
            plain_opts open_soil (fun l => (dewy_layer l).moist)
            (fun l => (dewy_layer l).evap) 0 1).moist 0 := by
  have hneg : ¬ has_negative dewy_layer plain_opts.Nlayer := by
    rintro ⟨l, _, h⟩
    unfold dewy_layer at h
    split_ifs at h <;> norm_num at h
  have h1 : ((branch_body int_pow plain_opts open_soil dewy_layer 0 1).layer 0).moist = 50 := by
    norm_num [branch_body, time_loop, time_step, cond_pass, advance_pass,
      advance_layer, advance_slot, advance_update, advance_moist, residual_floor, hand_down,
      cond_slot, writeback, branch_env, branch_init, plain_opts, open_soil, still_soil,
      dewy_layer, List.range_succ, set1, set2, sublayer_of, submoist_of, subice_of,
      submax_moist_of, resid_moist_of, surface_runoff, bottom_update, arno_baseflow]
  have h2 : (reference_column (claimed_conductivity int_pow plain_opts open_soil) int_pow
      plain_opts open_soil (fun l => (dewy_layer l).moist) (fun l => (dewy_layer l).evap)
      0 1).moist 0 = 99 / 2 := by
    norm_num [reference_column, ref_time_loop, ref_time_step, ref_layer_step, ref_bottom,
      claimed_conductivity, settle_moist, settle_flux, plain_opts, open_soil, still_soil,
      dewy_layer, List.range_succ, set1, resid_moist_of, surface_runoff, arno_baseflow,
      int_pow]
  refine ⟨rfl, ?_, branch_body int_pow plain_opts open_soil dewy_layer 0 1,
    runoff_branch_ok_of_not_negative _ _ _ _ _ _ hneg, h1, h2, ?_⟩
  · intro l
    unfold dewy_layer
    split_ifs <;> norm_num
  · rw [h1, h2]
    norm_num

/-- Claim C10 (amended).  For a column of at least one layer with frozen-soil mode
disabled, every layer's thaw and freeze depths zero, non-zero layer depths and no
negative moisture: the branch completes, and its runoff, baseflow and per-layer
moisture equal those of the reference single-column integration (one moisture value
per layer, same infiltration curve, same excess/floor rules, same baseflow law) whose
per-sub-step conductivity is
`Ksat/24*((max(moist - evap, resid) - resid)/(max_moist - resid))^expt` for a layer with
`moist > resid` and zero otherwise.  That reference is the one with the unguarded
formula whenever every evaporative demand is non-negative and `pow(0, expt) = 0`.
The three results do not change when the layers' `moist_thaw`, `moist_froz` (kept
non-negative) and `ice` values are replaced. -/
theorem C10_degenerate_mode_refines_guarded_reference (pw : R → R → R) (opts : option_struct)
    (soil : soil_con_struct R) (layer : Nat → layer_data_struct R) (inflow : R) (dt : Int)
    (hN : 0 < opts.Nlayer) (hF : opts.FROZEN_SOIL = false)
    (hz : ∀ l, l < opts.Nlayer →
      (layer l).tdepth = 0 ∧ (layer l).fdepth = 0 ∧ soil.depth l ≠ 0)
    (hneg : ¬ has_negative layer opts.Nlayer) :
    ∃ r, runoff_branch pw opts soil layer inflow dt = Except.ok r ∧
      r.runoff = (reference_column (guarded_conductivity pw opts soil) pw opts soil
        (fun l => (layer l).moist) (fun l => (layer l).evap) inflow dt).runoff ∧
      r.baseflow = (reference_column (guarded_conductivity pw opts soil) pw opts soil
        (fun l => (layer l).moist) (fun l => (layer l).evap) inflow dt).baseflow ∧
      (∀ l, (r.layer l).moist = (reference_column (guarded_conductivity pw opts soil) pw opts
        soil (fun l => (layer l).moist) (fun l => (layer l).evap) inflow dt).moist l) ∧
      ((∀ l, l < opts.Nlayer → 0 ≤ (layer l).evap ∧ pw 0 (soil.expt l) = 0) →
        reference_column (guarded_conductivity pw opts soil) pw opts soil
            (fun l => (layer l).moist) (fun l => (layer l).evap) inflow dt
          = reference_column (claimed_conductivity pw opts soil) pw opts soil
            (fun l => (layer l).moist) (fun l => (layer l).evap) inflow dt) ∧
      (∀ a b c : Nat → R, (∀ l, l < opts.Nlayer → 0 ≤ a l ∧ 0 ≤ b l) →
        ∃ r2, runoff_branch pw opts soil (with_frozen_fields layer a b c) inflow dt
            = Except.ok r2 ∧
          r2.runoff = r.runoff ∧ r2.baseflow = r.baseflow ∧
          ∀ l, (r2.layer l).moist = (r.layer l).moist) := by
  obtain ⟨h1, h2, h3⟩ := branch_body_reference pw opts soil layer inflow dt hN hF hz
  refine ⟨branch_body pw opts soil layer inflow dt,
    runoff_branch_ok_of_not_negative pw opts soil layer inflow dt hneg, h1, h2, h3, ?_, ?_⟩
  · intro he
    exact reference_column_congr _ _ pw opts soil _ _ inflow dt
      (fun l hl m => guarded_eq_claimed pw opts soil l m _ (he l hl).1 (he l hl).2)
  · intro a b c hab
    obtain ⟨g1, g2, g3⟩ := branch_body_reference pw opts soil (with_frozen_fields layer a b c)
      inflow dt hN hF hz
    refine ⟨branch_body pw opts soil (with_frozen_fields layer a b c) inflow dt,
      runoff_branch_ok_of_not_negative pw opts soil _ inflow dt
        (not_has_negative_with_frozen_fields layer a b c opts.Nlayer hneg hab), ?_, ?_, ?_⟩
    · exact g1.trans h1.symm
    · exact g2.trans h2.symm
    · intro l
      exact (g3 l).trans (h3 l).symm

theorem C10_degenerate_mode_refines_guarded_reference_witness :
    ∃ r, runoff_branch int_pow plain_opts open_soil plain_layer 5 1 = Except.ok r ∧
      r.runoff = (reference_column (guarded_conductivity int_pow plain_opts open_soil) int_pow
        plain_opts open_soil (fun l => (plain_layer l).moist) (fun l => (plain_layer l).evap)
        5 1).runoff ∧
      r.baseflow = (reference_column (guarded_conductivity int_pow plain_opts open_soil) int_pow
        plain_opts open_soil (fun l => (plain_layer l).moist) (fun l => (plain_layer l).evap)
        5 1).baseflow ∧
      (∀ l, (r.layer l).moist = (reference_column
        (guarded_conductivity int_pow plain_opts open_soil) int_pow plain_opts
        open_soil (fun l => (plain_layer l).moist) (fun l => (plain_layer l).evap) 5 1).moist l) ∧
      ((∀ l, l < plain_opts.Nlayer →
          0 ≤ (plain_layer l).evap ∧ int_pow 0 (open_soil.expt l) = 0) →
        reference_column (guarded_conductivity int_pow plain_opts open_soil) int_pow plain_opts
            open_soil (fun l => (plain_layer l).moist) (fun l => (plain_layer l).evap) 5 1
          = reference_column (claimed_conductivity int_pow plain_opts open_soil) int_pow
            plain_opts open_soil (fun l => (plain_layer l).moist)
            (fun l => (plain_layer l).evap) 5 1) ∧
      (∀ a b c : Nat → ℚ, (∀ l, l < plain_opts.Nlayer → 0 ≤ a l ∧ 0 ≤ b l) →
        ∃ r2, runoff_branch int_pow plain_opts open_soil (with_frozen_fields plain_layer a b c)
            5 1 = Except.ok r2 ∧
          r2.runoff = r.runoff ∧ r2.baseflow = r.baseflow ∧
          ∀ l, (r2.layer l).moist = (r.layer l).moist) :=
  C10_degenerate_mode_refines_guarded_reference int_pow plain_opts open_soil plain_layer 5 1
    (by decide) rfl
    (fun l _ => by
      refine ⟨rfl, rfl, ?_⟩
      simp [open_soil, still_soil])
    not_has_negative_plain

/-! ## The baseflow generator and the thickness fractions -/

theorem arno_baseflow_linear (pw : R → R → R) (soil : soil_con_struct R) (dt : Int) (l : Nat)
    (moist : R) (h : ¬ moist > soil.Ws * soil.max_moist l) :
    arno_baseflow pw soil dt l moist
      = soil.Ds * (soil.Dsmax * (dt : R) / 24) / (soil.Ws * soil.max_moist l) * moist := by
  unfold arno_baseflow
  simp only [if_neg h]

theorem arno_baseflow_power (pw : R → R → R) (soil : soil_con_struct R) (dt : Int) (l : Nat)
    (moist : R) (h : moist > soil.Ws * soil.max_moist l) :
    arno_baseflow pw soil dt l moist
      = soil.Ds * (soil.Dsmax * (dt : R) / 24) / (soil.Ws * soil.max_moist l) * moist
        + (soil.Dsmax * (dt : R) / 24 - soil.Ds * (soil.Dsmax * (dt : R) / 24) / soil.Ws)
          * pw ((moist - soil.Ws * soil.max_moist l)
              / (soil.max_moist l - soil.Ws * soil.max_moist l)) soil.c := by
  unfold arno_baseflow
  simp only [if_pos h]

/-- Claim C13.  With the real power and an exponent `c > 0`, at a bottom moisture of
exactly `Ws * max_moist` the drainage computed by the baseflow generator (lines 481-493,
before the bound checks) is the linear-branch value `frac * moist`, and it equals that
value plus the power-law excess term
`(Dsmax' - Ds*Dsmax'/Ws) * ((moist - Ws*max_moist)/(max_moist - Ws*max_moist))^c`
evaluated at that moisture, the term being zero there: both regimes give the same
value at the threshold (`Dsmax' = Dsmax*dt/24`). -/
theorem C13_baseflow_continuous_at_threshold (soil : soil_con_struct ℝ) (dt : Int) (l : Nat)
    (hc : 0 < soil.c) :
    arno_baseflow Real.rpow soil dt l (soil.Ws * soil.max_moist l)
        = soil.Ds * (soil.Dsmax * (dt : ℝ) / 24) / (soil.Ws * soil.max_moist l)
            * (soil.Ws * soil.max_moist l) ∧
      arno_baseflow Real.rpow soil dt l (soil.Ws * soil.max_moist l)
        = soil.Ds * (soil.Dsmax * (dt : ℝ) / 24) / (soil.Ws * soil.max_moist l)
            * (soil.Ws * soil.max_moist l)
          + (soil.Dsmax * (dt : ℝ) / 24 - soil.Ds * (soil.Dsmax * (dt : ℝ) / 24) / soil.Ws)
            * Real.rpow ((soil.Ws * soil.max_moist l - soil.Ws * soil.max_moist l)
                / (soil.max_moist l - soil.Ws * soil.max_moist l)) soil.c := by
  have h1 := arno_baseflow_linear Real.rpow soil dt l (soil.Ws * soil.max_moist l)
    (lt_irrefl _)
  refine ⟨h1, ?_⟩
  rw [h1, sub_self, zero_div]
  have h0 : Real.rpow 0 soil.c = 0 := Real.zero_rpow (ne_of_gt hc)
  rw [h0, mul_zero, add_zero]

theorem C13_baseflow_continuous_at_threshold_witness :
    arno_baseflow Real.rpow (scenario_soil (fun _ => 1) (fun _ => 3) (1 / 10) 10 (3 / 4) 2)
        24 1 ((scenario_soil (fun _ => 1) (fun _ => 3) (1 / 10) 10 (3 / 4) 2 :
            soil_con_struct ℝ).Ws
          * (scenario_soil (fun _ => 1) (fun _ => 3) (1 / 10) 10 (3 / 4) 2 :
            soil_con_struct ℝ).max_moist 1)
        = (scenario_soil (fun _ => 1) (fun _ => 3) (1 / 10) 10 (3 / 4) 2 :
              soil_con_struct ℝ).Ds
            * ((scenario_soil (fun _ => 1) (fun _ => 3) (1 / 10) 10 (3 / 4) 2 :
              soil_con_struct ℝ).Dsmax * ((24 : Int) : ℝ) / 24)
            / ((scenario_soil (fun _ => 1) (fun _ => 3) (1 / 10) 10 (3 / 4) 2 :
                soil_con_struct ℝ).Ws
              * (scenario_soil (fun _ => 1) (fun _ => 3) (1 / 10) 10 (3 / 4) 2 :
                soil_con_struct ℝ).max_moist 1)
            * ((scenario_soil (fun _ => 1) (fun _ => 3) (1 / 10) 10 (3 / 4) 2 :
                soil_con_struct ℝ).Ws
              * (scenario_soil (fun _ => 1) (fun _ => 3) (1 / 10) 10 (3 / 4) 2 :
                soil_con_struct ℝ).max_moist 1) :=
  (C13_baseflow_continuous_at_threshold
    (scenario_soil (fun _ => 1) (fun _ => 3) (1 / 10) 10 (3 / 4) 2) 24 1
    (by norm_num [scenario_soil])).1

/-- Claim C14.  For a bottom layer whose unfrozen moisture equals `max_moist > 0`, with
`0 < Ws < 1` and the real power: the baseflow generator takes the power-law branch
(`moist > Ws * max_moist`), and the drainage it computes before the bound checks is
`Ds*Dsmax'/Ws + (Dsmax' - Ds*Dsmax'/Ws) * 1^c`, which is the maximum rate
`Dsmax' = Dsmax*dt/24`. -/
theorem C14_baseflow_at_saturation (soil : soil_con_struct ℝ) (dt : Int) (l : Nat)
    (hmax : 0 < soil.max_moist l) (hW0 : 0 < soil.Ws) (hW1 : soil.Ws < 1) :
    soil.max_moist l > soil.Ws * soil.max_moist l ∧
      arno_baseflow Real.rpow soil dt l (soil.max_moist l)
        = soil.Ds * (soil.Dsmax * (dt : ℝ) / 24) / soil.Ws
          + (soil.Dsmax * (dt : ℝ) / 24 - soil.Ds * (soil.Dsmax * (dt : ℝ) / 24) / soil.Ws)
            * Real.rpow 1 soil.c ∧
      arno_baseflow Real.rpow soil dt l (soil.max_moist l) = soil.Dsmax * (dt : ℝ) / 24 := by
  have hgt : soil.max_moist l > soil.Ws * soil.max_moist l := by nlinarith
  have hden : soil.max_moist l - soil.Ws * soil.max_moist l ≠ 0 := by linarith
  have hp := arno_baseflow_power Real.rpow soil dt l (soil.max_moist l) hgt
  rw [div_self hden] at hp
  have hlin : soil.Ds * (soil.Dsmax * (dt : ℝ) / 24) / (soil.Ws * soil.max_moist l)
      * soil.max_moist l = soil.Ds * (soil.Dsmax * (dt : ℝ) / 24) / soil.Ws := by
    field_simp
    ring
  rw [hlin] at hp
  refine ⟨hgt, hp, ?_⟩
  rw [hp]
  have h1 : Real.rpow 1 soil.c = 1 := Real.one_rpow _
  rw [h1]
  ring

theorem C14_baseflow_at_saturation_witness :
    (scenario_soil (fun _ => 1) (fun _ => 3) (1 / 10) 10 (3 / 4) 2 :
        soil_con_struct ℝ).max_moist 1
      > (scenario_soil (fun _ => 1) (fun _ => 3) (1 / 10) 10 (3 / 4) 2 :
          soil_con_struct ℝ).Ws
        * (scenario_soil (fun _ => 1) (fun _ => 3) (1 / 10) 10 (3 / 4) 2 :
          soil_con_struct ℝ).max_moist 1 ∧
      arno_baseflow Real.rpow (scenario_soil (fun _ => 1) (fun _ => 3) (1 / 10) 10 (3 / 4) 2)
          24 1 ((scenario_soil (fun _ => 1) (fun _ => 3) (1 / 10) 10 (3 / 4) 2 :
            soil_con_struct ℝ).max_moist 1)
        = (scenario_soil (fun _ => 1) (fun _ => 3) (1 / 10) 10 (3 / 4) 2 :
            soil_con_struct ℝ).Dsmax * ((24 : Int) : ℝ) / 24 :=
  ⟨(C14_baseflow_at_saturation
      (scenario_soil (fun _ => 1) (fun _ => 3) (1 / 10) 10 (3 / 4) 2) 24 1
      (by norm_num [scenario_soil]) (by norm_num [scenario_soil])
      (by norm_num [scenario_soil])).1,
    (C14_baseflow_at_saturation
      (scenario_soil (fun _ => 1) (fun _ => 3) (1 / 10) 10 (3 / 4) 2) 24 1
      (by norm_num [scenario_soil]) (by norm_num [scenario_soil])
      (by norm_num [scenario_soil])).2.2⟩

/-- Claim C17.  For every layer of non-zero depth and every thaw and freeze depth, the
three thickness fractions of the state builder (lines 158-165) sum to 1; each of them
is non-negative whenever `0 <= tdepth <= fdepth <= depth`. -/
theorem C17_fractions_sum_to_one (soil : soil_con_struct R) (layer : Nat → layer_data_struct R)
    (lindex : Nat) (hdepth : soil.depth lindex ≠ 0) :
    sublayer_of soil layer lindex 0 + sublayer_of soil layer lindex 1
        + sublayer_of soil layer lindex 2 = 1 ∧
      (0 ≤ (layer lindex).tdepth → (layer lindex).tdepth ≤ (layer lindex).fdepth →
        (layer lindex).fdepth ≤ soil.depth lindex →
        0 ≤ sublayer_of soil layer lindex 0 ∧ 0 ≤ sublayer_of soil layer lindex 1 ∧
          0 ≤ sublayer_of soil layer lindex 2) := by
  refine ⟨?_, ?_⟩
  · simp only [sublayer_of]
    field_simp
  · intro h0 h1 h2
    have hd : 0 < soil.depth lindex :=
      lt_of_le_of_ne (le_trans h0 (le_trans h1 h2)) (Ne.symm hdepth)
    simp only [sublayer_of]
    exact ⟨div_nonneg h0 (le_of_lt hd), div_nonneg (sub_nonneg.2 h1) (le_of_lt hd),
      div_nonneg (sub_nonneg.2 h2) (le_of_lt hd)⟩

theorem C17_fractions_sum_to_one_witness :
    sublayer_of still_soil thawing_layer 0 0 + sublayer_of still_soil thawing_layer 0 1
        + sublayer_of still_soil thawing_layer 0 2 = 1 ∧
      (0 ≤ (thawing_layer 0).tdepth → (thawing_layer 0).tdepth ≤ (thawing_layer 0).fdepth →
        (thawing_layer 0).fdepth ≤ still_soil.depth 0 →
        0 ≤ sublayer_of still_soil thawing_layer 0 0 ∧
          0 ≤ sublayer_of still_soil thawing_layer 0 1 ∧
          0 ≤ sublayer_of still_soil thawing_layer 0 2) :=
  C17_fractions_sum_to_one still_soil thawing_layer 0 (by norm_num [still_soil])

/-! ## The surface runoff never exceeds the inflow -/

theorem surface_runoff_nonneg (pw : R → R → R) (b inflow m cap : R) :
    0 ≤ surface_runoff pw b inflow m cap := by
  have key : ∀ r : R, 0 ≤ (if r < 0 then 0 else r) := fun r => by
    split_ifs with h
    · exact le_refl _
    · exact not_lt.1 h
  unfold surface_runoff
  exact key _

theorem surface_runoff_le_inflow (b inflow m cap : ℝ) (hb : 0 < b) (hcap : 0 < cap)
    (hm : m ≤ cap) (h0 : 0 ≤ inflow) :
    surface_runoff Real.rpow b inflow m cap ≤ inflow := by
  rw [surface_runoff_real b inflow m cap hb hcap hm]
  have hb1 : 0 < 1 + b := by linarith
  have hM : 0 < (1 + b) * cap := mul_pos hb1 hcap
  have hx0 : 0 ≤ 1 - m / cap := by
    have : m / cap ≤ 1 := (div_le_one hcap).2 hm
    linarith
  have hy0 : 0 ≤ (1 - m / cap) ^ (1 / (1 + b)) := Real.rpow_nonneg hx0 _
  have hpow : ((1 - m / cap) ^ (1 / (1 + b))) ^ (1 + b) = 1 - m / cap := by
    rw [← Real.rpow_mul hx0]
    have : 1 / (1 + b) * (1 + b) = 1 := by field_simp
    rw [this, Real.rpow_one]
  generalize hy : (1 - m / cap) ^ (1 / (1 + b)) = y at hy0 hpow ⊢
  apply max_le h0
  have hz0 : 0 ≤ max (y - inflow / ((1 + b) * cap)) 0 := le_max_right _ _
  have hzy : max (y - inflow / ((1 + b) * cap)) 0 ≤ y := by
    apply max_le _ hy0
    have : 0 ≤ inflow / ((1 + b) * cap) := div_nonneg h0 (le_of_lt hM)
    linarith
  have hle : (max (y - inflow / ((1 + b) * cap)) 0) ^ (1 + b) ≤ y ^ (1 + b) :=
    Real.rpow_le_rpow hz0 hzy (le_of_lt hb1)
  rw [hpow] at hle
  have h3 := mul_le_mul_of_nonneg_left hle (le_of_lt hcap)
  have h4 : cap * (1 - m / cap) = cap - m := by field_simp
  linarith

/-- Claim C19.  For every inflow `>= 0`, shape parameter `b > 0`, capacity `> 0` and
aggregate moisture not above the capacity, the runoff of the infiltration calculator
(lines 228-249, real power) satisfies `0 <= runoff <= inflow`; hence for every
sub-step count `dt >= 1` the share `inflow/dt - runoff/dt` delivered per sub-step to
the first active slot (lines 255-256) is not negative. -/
theorem C19_surface_runoff_bounded_by_inflow (b inflow m cap : ℝ) (hb : 0 < b)
    (hcap : 0 < cap) (hm : m ≤ cap) (h0 : 0 ≤ inflow) :
    0 ≤ surface_runoff Real.rpow b inflow m cap ∧
      surface_runoff Real.rpow b inflow m cap ≤ inflow ∧
      ∀ dt : Int, 1 ≤ dt →
        0 ≤ inflow / (dt : ℝ) - surface_runoff Real.rpow b inflow m cap / (dt : ℝ) := by
  have h1 := surface_runoff_le_inflow b inflow m cap hb hcap hm h0
  refine ⟨surface_runoff_nonneg _ _ _ _ _, h1, ?_⟩
  intro dt hdt
  have hpos : (0 : ℝ) < (dt : ℝ) := int_cast_pos dt hdt
  rw [← sub_div]
  exact div_nonneg (sub_nonneg.2 h1) (le_of_lt hpos)

theorem C19_surface_runoff_bounded_by_inflow_witness :
    0 ≤ surface_runoff Real.rpow (3 / 10) 30 50 100 ∧
      surface_runoff Real.rpow (3 / 10) 30 50 100 ≤ 30 ∧
      ∀ dt : Int, 1 ≤ dt →
        0 ≤ 30 / (dt : ℝ) - surface_runoff Real.rpow (3 / 10) 30 50 100 / (dt : ℝ) :=
  C19_surface_runoff_bounded_by_inflow (3 / 10) 30 50 100 (by norm_num) (by norm_num)
    (by norm_num) (by norm_num)

/-! ## Impermeable frozen slots in the conductivity pass -/

theorem slot_position_lt_of_active (env : col_env R) {j k : Nat} (hj : active_at env j)
    (hjk : j < k) : slot_position env j < slot_position env k := by
  have h1 := slot_position_succ_active env j hj
  have h2 : slot_position env (j + 1) ≤ slot_position env k := slot_position_mono env hjk
  omega

theorem set1_same {α : Type} (a : Nat → α) (i : Nat) (v : α) : set1 a i v i = v := by
  simp [set1]

theorem set1_other {α : Type} (a : Nat → α) (i p : Nat) (v : α) (h : p ≠ i) :
    set1 a i v p = a p := by
  simp [set1, h]

theorem cond_slot_impermeable_eq (pw : R → R → R) (env : col_env R) (st : flux_state R)
    (l : Nat) (ha : active env l 1) (hi : impermeable env l) :
    cond_slot pw env st l 1 =
      { st with
        Q12 := if st.last_cnt > 0
               then set2 (set2 st.Q12 l 1 0) (st.last_layer (st.last_cnt - 1))
                      (st.last_sub (st.last_cnt - 1)) 0
               else set2 st.Q12 l 1 0
        froz_solid := set1 (set1 st.froz_solid st.last_cnt false) st.last_cnt true
        last_layer := set1 st.last_layer st.last_cnt l
        last_sub := set1 st.last_sub st.last_cnt 1
        last_cnt := st.last_cnt + 1 } := by
  have hg := (cond_guard_iff env l 1).2 ha
  obtain ⟨h1, h2, h3⟩ := hi
  unfold cond_slot
  rw [if_pos hg]
  simp only [h1, h2, h3, and_self, if_true]

theorem set2_zero_or {α : Type} [Zero α] (q : Nat → Nat → α) (i j a b : Nat) :
    set2 q i j 0 a b = q a b ∨ set2 q i j 0 a b = 0 := by
  unfold set2
  split_ifs
  · exact Or.inr rfl
  · exact Or.inl rfl

/-- What an impermeable frozen slot leaves behind when the conductivity pass visits it. -/
theorem cond_slot_impermeable (pw : R → R → R) (env : col_env R) (st : flux_state R) (l : Nat)
    (ha : active env l 1) (hi : impermeable env l) :
    (cond_slot pw env st l 1).Q12 l 1 = 0 ∧
      (cond_slot pw env st l 1).froz_solid st.last_cnt = true ∧
      (0 < st.last_cnt →
        (cond_slot pw env st l 1).Q12 (st.last_layer (st.last_cnt - 1))
          (st.last_sub (st.last_cnt - 1)) = 0) := by
  rw [cond_slot_impermeable_eq pw env st l ha hi]
  refine ⟨?_, ?_, ?_⟩
  · show (if st.last_cnt > 0
        then set2 (set2 st.Q12 l 1 0) (st.last_layer (st.last_cnt - 1))
          (st.last_sub (st.last_cnt - 1)) 0
        else set2 st.Q12 l 1 0) l 1 = 0
    split_ifs with hc
    · rcases set2_zero_or (set2 st.Q12 l 1 0) (st.last_layer (st.last_cnt - 1))
        (st.last_sub (st.last_cnt - 1)) l 1 with h | h
      · rw [h]
        exact set2_same _ _ _ _
      · exact h
    · exact set2_same _ _ _ _
  · exact set1_same _ _ _
  · intro hc
    show (if st.last_cnt > 0
        then set2 (set2 st.Q12 l 1 0) (st.last_layer (st.last_cnt - 1))
          (st.last_sub (st.last_cnt - 1)) 0
        else set2 st.Q12 l 1 0) _ _ = 0
    rw [if_pos hc]
    exact set2_same _ _ _ _

/-- A slot visited by the conductivity pass changes `Q12` only at itself, or puts zero
somewhere else; it writes `froz_solid` only at `last_cnt`. -/
theorem cond_slot_writes (pw : R → R → R) (env : col_env R) (st : flux_state R) (l s : Nat) :
    (∀ a b, ¬ (a = l ∧ b = s) →
      (cond_slot pw env st l s).Q12 a b = st.Q12 a b ∨ (cond_slot pw env st l s).Q12 a b = 0) ∧
      (∀ i, i ≠ st.last_cnt → (cond_slot pw env st l s).froz_solid i = st.froz_solid i) := by
  unfold cond_slot
  by_cases ha : env.sublayer l s > 0 ∧
      (l ≠ env.opts.Nlayer - 1 ∨ (l = env.opts.Nlayer - 1 ∧ s ≠ 2))
  · rw [if_pos ha]
    by_cases hb : env.opts.FROZEN_SOIL = true ∧ s = 1 ∧
        env.submax_moist l s / (env.soil.depth l * 1000) < 13 / 100 ∧
        env.sublayer l 1 * env.soil.depth l > 5 / 100
    · simp only [if_pos hb]
      refine ⟨fun a b hab => ?_, fun i hne => ?_⟩
      · split_ifs with hc
        · rcases set2_zero_or (set2 st.Q12 l s 0) (st.last_layer (st.last_cnt - 1))
            (st.last_sub (st.last_cnt - 1)) a b with h | h
          · left
            exact h.trans (set2_other _ _ _ _ _ _ hab)
          · exact Or.inr h
        · left
          exact set2_other _ _ _ _ _ _ hab
      · exact (set1_other _ _ _ _ hne).trans (set1_other _ _ _ _ hne)
    · simp only [if_neg hb]
      refine ⟨fun a b hab => ?_, fun i hne => ?_⟩
      · left
        split_ifs <;> exact set2_other _ _ _ _ _ _ hab
      · split_ifs <;> exact set1_other _ _ _ _ hne
  · rw [if_neg ha]
    exact ⟨fun a b _ => Or.inl rfl, fun i _ => rfl⟩

theorem cond_slot_history_step (pw : R → R → R) (env : col_env R) (x : flux_state R)
    (l s : Nat) (hs : s < 3) (hx : history_upto env x (3 * l + s)) :
    history_upto env (cond_slot pw env x l s) (3 * l + s + 1) := by
  obtain ⟨hc, hh⟩ := hx
  by_cases ha : active env l s
  · obtain ⟨c1, c2, c3⟩ := cond_slot_history pw env x l s ha
    have hak : active_at env (3 * l + s) := (active_at_linear env l s hs).2 ha
    refine ⟨?_, ?_⟩
    · rw [c1, hc, slot_position_succ_active env _ hak]
    · intro i hi
      rw [c1] at hi
      rw [c2, c3]
      by_cases hix : i = x.last_cnt
      · refine ⟨3 * l + s, by omega, hak, ?_, ?_, ?_⟩
        · rw [hix, hc]
        · simp only [set1, hix, if_true]
          omega
        · simp only [set1, hix, if_true]
          omega
      · obtain ⟨j, hj, hja, hjp, hl, hsb⟩ := hh i (by omega)
        refine ⟨j, by omega, hja, hjp, ?_, ?_⟩
        · simp only [set1, hix, if_false]
          exact hl
        · simp only [set1, hix, if_false]
          exact hsb
  · rw [cond_slot_inactive pw env x l s ha]
    have hak : ¬ active_at env (3 * l + s) := fun h => ha ((active_at_linear env l s hs).1 h)
    refine ⟨?_, ?_⟩
    · rw [hc, slot_position_succ_inactive env _ hak]
    · intro i hi
      obtain ⟨j, hj, hja, hjp, hl, hsb⟩ := hh i hi
      exact ⟨j, by omega, hja, hjp, hl, hsb⟩

/-- At the end of a conductivity pass started with `last_cnt = 0`, every active frozen
slot that meets the impermeability test has `Q12 = 0`, its history position is flagged
in `froz_solid`, and the slot recorded just before it has `Q12 = 0` as well. -/
theorem cond_pass_impermeable (pw : R → R → R) (env : col_env R) (st : flux_state R)
    (h0 : st.last_cnt = 0) (l : Nat) (hl : l < env.opts.Nlayer) (ha : active env l 1)
    (hi : impermeable env l) :
    (cond_pass pw env st).Q12 l 1 = 0 ∧
      (cond_pass pw env st).froz_solid (slot_position env (3 * l + 1)) = true ∧
      (0 < slot_position env (3 * l + 1) →
        (cond_pass pw env st).Q12
          ((cond_pass pw env st).last_layer (slot_position env (3 * l + 1) - 1))
          ((cond_pass pw env st).last_sub (slot_position env (3 * l + 1) - 1)) = 0) := by
  have h := cond_pass_invariant pw env
    (fun k x => history_upto env x k ∧
      ∀ l, 3 * l + 1 < k → active env l 1 → impermeable env l →
        x.Q12 l 1 = 0 ∧ x.froz_solid (slot_position env (3 * l + 1)) = true ∧
        (0 < slot_position env (3 * l + 1) →
          x.Q12 (x.last_layer (slot_position env (3 * l + 1) - 1))
            (x.last_sub (slot_position env (3 * l + 1) - 1)) = 0))
    st ?_ ?_
  · exact h.2 l (by omega) ha hi
  · refine ⟨⟨?_, ?_⟩, fun l hl => absurd hl (Nat.not_lt_zero _)⟩
    · rw [h0]
      simp [slot_position]
    · intro i hi
      rw [h0] at hi
      omega
  · intro l2 s2 x hl2 hs2 ⟨hx, hfacts⟩
    refine ⟨cond_slot_history_step pw env x l2 s2 hs2 hx, ?_⟩
    intro l1 hlt ha1 hi1
    have hak1 : active_at env (3 * l1 + 1) := (active_at_linear env l1 1 (by omega)).2 ha1
    by_cases hcur : 3 * l1 + 1 = 3 * l2 + s2
    · have e1 : l2 = l1 := by omega
      have e2 : s2 = 1 := by omega
      subst e1
      subst e2
      obtain ⟨q1, q2, q3⟩ := cond_slot_impermeable pw env x l2 ha1 hi1
      obtain ⟨-, c2, c3⟩ := cond_slot_history pw env x l2 1 ha1
      have hcnt : x.last_cnt = slot_position env (3 * l2 + 1) := hx.1
      refine ⟨q1, ?_, ?_⟩
      · rw [← hcnt]
        exact q2
      · intro hpos
        rw [← hcnt] at hpos ⊢
        rw [c2, c3, set1_other _ _ _ _ (by omega), set1_other _ _ _ _ (by omega)]
        exact q3 hpos
    · have hold : 3 * l1 + 1 < 3 * l2 + s2 := by omega
      obtain ⟨f1, f2, f3⟩ := hfacts l1 hold ha1 hi1
      by_cases ha2 : active env l2 s2
      · obtain ⟨w1, w2⟩ := cond_slot_writes pw env x l2 s2
        obtain ⟨-, c2, c3⟩ := cond_slot_history pw env x l2 s2 ha2
        have hcnt : x.last_cnt = slot_position env (3 * l2 + s2) := hx.1
        have hplt : slot_position env (3 * l1 + 1) < x.last_cnt := by
          rw [hcnt]
          exact slot_position_lt_of_active env hak1 hold
        refine ⟨?_, ?_, ?_⟩
        · rcases w1 l1 1 (fun h => by omega) with h | h
          · rw [h]
            exact f1
          · exact h
        · rw [w2 _ (by omega)]
          exact f2
        · intro hpos
          rw [c2, c3, set1_other _ _ _ _ (by omega), set1_other _ _ _ _ (by omega)]
          obtain ⟨j, hj, -, -, hjl, hjs⟩ := hx.2 (slot_position env (3 * l1 + 1) - 1) (by omega)
          rcases w1 (x.last_layer (slot_position env (3 * l1 + 1) - 1))
            (x.last_sub (slot_position env (3 * l1 + 1) - 1))
            (fun h => by
              rw [hjl, hjs] at h
              omega) with h | h
          · rw [h]
            exact f3 hpos
          · exact h
      · rw [cond_slot_inactive pw env x l2 s2 ha2]
        exact ⟨f1, f2, f3⟩

/-- Claim C11.  In frozen-soil mode, in every sub-step (whatever the state `st` at its
start), at the end of the conductivity pass of lines 261-319 every active frozen slot
`[l][1]` whose capacity fraction `max_moist/(depth*1000)` is below 0.13 and whose
thickness `fraction*depth` exceeds 0.05 has `Q12 = 0`; the entry of `froz_solid` at its
position in the history of active slots is set; its own history entry is `(l, 1)`;
and when it is not the first recorded slot, the slot recorded immediately before it
has `Q12 = 0` as well. -/
theorem C11_impermeable_slot_conductivity (pw : R → R → R) (env : col_env R)
    (st : flux_state R) (l : Nat) (hl : l < env.opts.Nlayer)
    (hfrozen : env.opts.FROZEN_SOIL = true) (ha : active env l 1)
    (hcap : env.submax_moist l 1 / (env.soil.depth l * 1000) < 13 / 100)
    (hthick : env.sublayer l 1 * env.soil.depth l > 5 / 100) :
    (cond_pass pw env { st with inflow := env.dt_inflow, last_cnt := 0 }).Q12 l 1 = 0 ∧
      (cond_pass pw env { st with inflow := env.dt_inflow, last_cnt := 0 }).froz_solid
        (slot_position env (3 * l + 1)) = true ∧
      (cond_pass pw env { st with inflow := env.dt_inflow, last_cnt := 0 }).last_layer
        (slot_position env (3 * l + 1)) = l ∧
      (cond_pass pw env { st with inflow := env.dt_inflow, last_cnt := 0 }).last_sub
        (slot_position env (3 * l + 1)) = 1 ∧
      (0 < slot_position env (3 * l + 1) →
        (cond_pass pw env { st with inflow := env.dt_inflow, last_cnt := 0 }).Q12
          ((cond_pass pw env { st with inflow := env.dt_inflow, last_cnt := 0 }).last_layer
            (slot_position env (3 * l + 1) - 1))
          ((cond_pass pw env { st with inflow := env.dt_inflow, last_cnt := 0 }).last_sub
            (slot_position env (3 * l + 1) - 1)) = 0) := by
  obtain ⟨h1, h2, h3⟩ := cond_pass_impermeable pw env
    { st with inflow := env.dt_inflow, last_cnt := 0 } rfl l hl ha ⟨hfrozen, hcap, hthick⟩
  obtain ⟨h4, h5, -, -⟩ := history_at_slot env
    (cond_pass pw env { st with inflow := env.dt_inflow, last_cnt := 0 }) l 1 hl (by omega)
    (cond_pass_history pw env { st with inflow := env.dt_inflow, last_cnt := 0 } rfl) ha
  exact ⟨h1, h2, h4, h5, h3⟩

theorem odd_env_active_frozen : active odd_env 1 1 := by
  unfold active
  norm_num [odd_env, branch_env, sublayer_of, odd_soil, odd_layer, odd_opts]

theorem odd_env_impermeable : impermeable odd_env 1 := by
  unfold impermeable
  norm_num [odd_env, branch_env, sublayer_of, submax_moist_of, odd_soil, odd_layer, odd_opts]

theorem C11_impermeable_slot_conductivity_witness :
    (cond_pass int_pow odd_env { odd_start with inflow := odd_env.dt_inflow, last_cnt := 0 }).Q12
        1 1 = 0 ∧
      (cond_pass int_pow odd_env
        { odd_start with inflow := odd_env.dt_inflow, last_cnt := 0 }).froz_solid
        (slot_position odd_env (3 * 1 + 1)) = true ∧
      (cond_pass int_pow odd_env
        { odd_start with inflow := odd_env.dt_inflow, last_cnt := 0 }).last_layer
        (slot_position odd_env (3 * 1 + 1)) = 1 ∧
      (cond_pass int_pow odd_env
        { odd_start with inflow := odd_env.dt_inflow, last_cnt := 0 }).last_sub
        (slot_position odd_env (3 * 1 + 1)) = 1 ∧
      (0 < slot_position odd_env (3 * 1 + 1) →
        (cond_pass int_pow odd_env
          { odd_start with inflow := odd_env.dt_inflow, last_cnt := 0 }).Q12
          ((cond_pass int_pow odd_env
            { odd_start with inflow := odd_env.dt_inflow, last_cnt := 0 }).last_layer
            (slot_position odd_env (3 * 1 + 1) - 1))
          ((cond_pass int_pow odd_env
            { odd_start with inflow := odd_env.dt_inflow, last_cnt := 0 }).last_sub
            (slot_position odd_env (3 * 1 + 1) - 1)) = 0) :=
  C11_impermeable_slot_conductivity int_pow odd_env odd_start 1 (by decide) rfl
    odd_env_active_frozen odd_env_impermeable.2.1 odd_env_impermeable.2.2

/-! ## The intermediate states of the passes and the indices of the history arrays -/

theorem div_mod_linear (k : Nat) : 3 * (k / 3) + k % 3 = k := by omega

theorem cond_upto_fold (pw : R → R → R) (env : col_env R) (st : flux_state R) (n : Nat) :
    cond_upto pw env st (3 * n)
      = (List.range n).foldl
          (fun s lindex => [0, 1, 2].foldl (fun s2 sub => cond_slot pw env s2 lindex sub) s)
          st := by
  induction n with
  | zero => rfl
  | succ n ih =>
    have e : 3 * (n + 1) = 3 * n + 1 + 1 + 1 := by ring
    have d0 : 3 * n / 3 = n := by omega
    have m0 : 3 * n % 3 = 0 := by omega
    have d1 : (3 * n + 1) / 3 = n := by omega
    have m1 : (3 * n + 1) % 3 = 1 := by omega
    have d2 : (3 * n + 1 + 1) / 3 = n := by omega
    have m2 : (3 * n + 1 + 1) % 3 = 2 := by omega
    rw [e]
    simp only [cond_upto, d0, m0, d1, m1, d2, m2, List.range_succ, List.foldl_append,
      List.foldl_cons, List.foldl_nil]
    rw [ih]
    rfl

theorem cond_upto_pass (pw : R → R → R) (env : col_env R) (st : flux_state R) :
    cond_upto pw env st (3 * env.opts.Nlayer) = cond_pass pw env st :=
  cond_upto_fold pw env st env.opts.Nlayer

theorem advance_upto_fold (env : col_env R) (st : flux_state R) (n : Nat) :
    advance_upto env st (3 * n)
      = (List.range n).foldl (advance_layer env) { st with firstlayer := true, last_index := 0 } := by
  induction n with
  | zero => rfl
  | succ n ih =>
    have e : 3 * (n + 1) = 3 * n + 1 + 1 + 1 := by ring
    have d0 : 3 * n / 3 = n := by omega
    have m0 : 3 * n % 3 = 0 := by omega
    have d1 : (3 * n + 1) / 3 = n := by omega
    have m1 : (3 * n + 1) % 3 = 1 := by omega
    have d2 : (3 * n + 1 + 1) / 3 = n := by omega
    have m2 : (3 * n + 1 + 1) % 3 = 2 := by omega
    rw [e]
    simp only [advance_upto, d0, m0, d1, m1, d2, m2, List.range_succ, List.foldl_append,
      List.foldl_cons, List.foldl_nil, advance_layer]
    rw [ih]
    simp

theorem advance_upto_pass (env : col_env R) (st : flux_state R) :
    advance_upto env st (3 * env.opts.Nlayer) = advance_pass env st :=
  advance_upto_fold env st env.opts.Nlayer

theorem cond_upto_history (pw : R → R → R) (env : col_env R) (st : flux_state R)
    (h0 : st.last_cnt = 0) (k : Nat) : history_upto env (cond_upto pw env st k) k := by
  induction k with
  | zero =>
    refine ⟨?_, ?_⟩
    · show st.last_cnt = _
      rw [h0]
      simp [slot_position]
    · intro i hi
      have : i < st.last_cnt := hi
      omega
  | succ k ih =>
    have h := cond_slot_history_step pw env (cond_upto pw env st k) (k / 3) (k % 3)
      (Nat.mod_lt _ (by omega)) (by rw [div_mod_linear]; exact ih)
    rw [div_mod_linear] at h
    exact h

theorem active_at_iff (env : col_env R) (k : Nat) :
    active_at env k ↔ active env (k / 3) (k % 3) := Iff.rfl

/-- The counters and the arrays that the advance pass does not write, at every point of
the pass. -/
theorem advance_upto_counters (env : col_env R) (st : flux_state R) (k : Nat) :
    (advance_upto env st k).last_index = slot_position env k ∧
      ((advance_upto env st k).firstlayer = false → 0 < slot_position env k) ∧
      (advance_upto env st k).last_layer = st.last_layer ∧
      (advance_upto env st k).last_sub = st.last_sub ∧
      (advance_upto env st k).froz_solid = st.froz_solid ∧
      (advance_upto env st k).last_cnt = st.last_cnt := by
  induction k with
  | zero =>
    refine ⟨?_, ?_, rfl, rfl, rfl, rfl⟩
    · show 0 = _
      simp [slot_position]
    · intro h
      exact absurd h (by simp [advance_upto])
  | succ k ih =>
    obtain ⟨i1, i2, i3, i4, i5, i6⟩ := ih
    have hslot : (advance_slot env (advance_upto env st k) (k / 3) (k % 3)).last_index
          = slot_position env (k + 1) ∧
        ((advance_slot env (advance_upto env st k) (k / 3) (k % 3)).firstlayer = false →
          0 < slot_position env (k + 1)) := by
      by_cases ha : active env (k / 3) (k % 3)
      · obtain ⟨c1, -⟩ := advance_slot_counters env (advance_upto env st k) _ _ ha
        rw [c1, i1, slot_position_succ_active env k ha]
        exact ⟨rfl, fun _ => Nat.succ_pos _⟩
      · rw [advance_slot_inactive env _ _ _ ha, i1, slot_position_succ_inactive env k ha]
        exact ⟨rfl, i2⟩
    obtain ⟨-, f2, f3, f4, f5, -⟩ := advance_slot_frame env (advance_upto env st k) (k / 3) (k % 3)
    by_cases hm : k % 3 = 2
    · have e : advance_upto env st (k + 1)
          = writeback env (advance_slot env (advance_upto env st k) (k / 3) (k % 3)) (k / 3) := by
        simp only [advance_upto, if_pos hm]
      obtain ⟨-, -, w3, w4, w5, w6, w7, w8, -⟩ := writeback_frame env
        (advance_slot env (advance_upto env st k) (k / 3) (k % 3)) (k / 3)
      rw [e, w7, w8, w4, w5, w3, w6]
      exact ⟨hslot.1, hslot.2, f3.trans i3, f4.trans i4, f2.trans i5, f5.trans i6⟩
    · have e : advance_upto env st (k + 1)
          = advance_slot env (advance_upto env st k) (k / 3) (k % 3) := by
        simp only [advance_upto, if_neg hm]
      rw [e]
      exact ⟨hslot.1, hslot.2, f3.trans i3, f4.trans i4, f2.trans i5, f5.trans i6⟩

theorem slot_position_le (env : col_env R) (k : Nat) : slot_position env k ≤ k :=
  Nat.count_le (active_at env)

/-- With at least one layer the history never holds more than `3N - 1` slots: the
unfrozen slot of the bottom layer is not recorded. -/
theorem slot_position_total (env : col_env R) (hN : 1 ≤ env.opts.Nlayer) :
    slot_position env (3 * env.opts.Nlayer) ≤ 3 * env.opts.Nlayer - 1 := by
  have hk : 3 * env.opts.Nlayer = (3 * env.opts.Nlayer - 1) + 1 := by omega
  have hina : ¬ active_at env (3 * env.opts.Nlayer - 1) := by
    intro h
    have d : (3 * env.opts.Nlayer - 1) / 3 = env.opts.Nlayer - 1 := by omega
    have m : (3 * env.opts.Nlayer - 1) % 3 = 2 := by omega
    exact h.2 ⟨d, m⟩
  rw [hk, slot_position_succ_inactive env _ hina]
  exact slot_position_le env _

theorem slot_position_succ_le (env : col_env R) (hN : 1 ≤ env.opts.Nlayer) (k : Nat)
    (hk : k < 3 * env.opts.Nlayer) (ha : active_at env k) :
    slot_position env k + 1 ≤ 3 * env.opts.Nlayer - 1 := by
  rw [← slot_position_succ_active env k ha]
  exact le_trans (slot_position_mono env (by omega)) (slot_position_total env hN)

theorem push_up_indices_le (env : col_env R) (t : Nat) (st : flux_state R) :
    ∀ i ∈ push_up_indices env t st, i ≤ t := by
  induction t generalizing st with
  | zero =>
    intro i hi
    simp only [push_up_indices, List.mem_singleton] at hi
    omega
  | succ t ih =>
    intro i hi
    unfold push_up_indices at hi
    simp only at hi
    split_ifs at hi with h
    · simp only [List.mem_cons] at hi
      rcases hi with h1 | h1 | h1
      · omega
      · omega
      · have := ih _ i h1
        omega
    · simp only [List.mem_singleton] at hi
      omega

theorem cond_slot_indices_le (env : col_env R) (x : flux_state R) (k : Nat)
    (hN : 1 ≤ env.opts.Nlayer) (hk : k < 3 * env.opts.Nlayer)
    (hcnt : x.last_cnt = slot_position env k) :
    ∀ i ∈ cond_slot_indices env x (k / 3) (k % 3), i ≤ 3 * env.opts.Nlayer - 1 := by
  intro i hi
  unfold cond_slot_indices at hi
  split_ifs at hi with hg hb
  · have ha : active_at env k := (cond_guard_iff env (k / 3) (k % 3)).1 hg
    have := slot_position_succ_le env hN k hk ha
    simp only [List.mem_cons, List.mem_singleton, List.not_mem_nil, or_false] at hi
    rcases hi with h | h <;> omega
  · have ha : active_at env k := (cond_guard_iff env (k / 3) (k % 3)).1 hg
    have := slot_position_succ_le env hN k hk ha
    simp only [List.mem_singleton] at hi
    omega
  · exact absurd hi (List.not_mem_nil _)

theorem advance_slot_indices_le (env : col_env R) (x : flux_state R) (k : Nat)
    (hN : 1 ≤ env.opts.Nlayer) (hk : k < 3 * env.opts.Nlayer)
    (hidx : x.last_index = slot_position env k) :
    ∀ i ∈ advance_slot_indices env x (k / 3) (k % 3), i ≤ 3 * env.opts.Nlayer - 1 := by
  intro i hi
  unfold advance_slot_indices at hi
  split_ifs at hi with hg hover hb
  · have ha : active_at env k := hg
    have := slot_position_succ_le env hN k hk ha
    simp only [List.mem_cons] at hi
    rcases hi with h | h
    · omega
    · have := push_up_indices_le env _ _ i h
      omega
  · have ha : active_at env k := hg
    have := slot_position_succ_le env hN k hk ha
    simp only [List.mem_singleton] at hi
    omega
  · exact absurd hi (List.not_mem_nil _)
  · exact absurd hi (List.not_mem_nil _)

/-- Claim C20.  For every column with `N >= 1` layers and every thickness
configuration, in every sub-step (whatever the state `st` at its start): the
conductivity pass records at most `3N - 1` active slots; when the advance pass visits
an active slot `k = 3*lindex + sub`, its counter `last_index` is the history position of
that slot, with `last_layer[last_index] = lindex` and `last_sub[last_index] = sub`; and
every index at which `last_layer`, `last_sub` or `froz_solid` is read or written while
either pass visits a slot (`last_cnt`, `last_cnt - 1`, `last_index + 1`, and `tmp_index`,
`tmp_index - 1` in the upward walk) is at most `3N - 1`.  The intermediate states
`cond_upto` and `advance_upto` end in the states of the two passes. -/
theorem C20_history_index_safety (pw : R → R → R) (env : col_env R) (st : flux_state R)
    (hN : 1 ≤ env.opts.Nlayer) :
    (cond_pass pw env { st with inflow := env.dt_inflow, last_cnt := 0 }).last_cnt
        ≤ 3 * env.opts.Nlayer - 1 ∧
      (∀ k, k < 3 * env.opts.Nlayer →
        ∀ i ∈ cond_slot_indices env
            (cond_upto pw env { st with inflow := env.dt_inflow, last_cnt := 0 } k)
            (k / 3) (k % 3),
          i ≤ 3 * env.opts.Nlayer - 1) ∧
      (∀ k, k < 3 * env.opts.Nlayer → active_at env k →
        (advance_upto env
            (cond_pass pw env { st with inflow := env.dt_inflow, last_cnt := 0 }) k).last_index
          = slot_position env k ∧
        (advance_upto env
            (cond_pass pw env { st with inflow := env.dt_inflow, last_cnt := 0 }) k).last_layer
          (advance_upto env
            (cond_pass pw env { st with inflow := env.dt_inflow, last_cnt := 0 }) k).last_index
          = k / 3 ∧
        (advance_upto env
            (cond_pass pw env { st with inflow := env.dt_inflow, last_cnt := 0 }) k).last_sub
          (advance_upto env
            (cond_pass pw env { st with inflow := env.dt_inflow, last_cnt := 0 }) k).last_index
          = k % 3) ∧
      (∀ k, k < 3 * env.opts.Nlayer →
        ∀ i ∈ advance_slot_indices env
            (advance_upto env
              (cond_pass pw env { st with inflow := env.dt_inflow, last_cnt := 0 }) k)
            (k / 3) (k % 3),
          i ≤ 3 * env.opts.Nlayer - 1) ∧
      cond_upto pw env { st with inflow := env.dt_inflow, last_cnt := 0 }
          (3 * env.opts.Nlayer)
        = cond_pass pw env { st with inflow := env.dt_inflow, last_cnt := 0 } ∧
      advance_upto env (cond_pass pw env { st with inflow := env.dt_inflow, last_cnt := 0 })
          (3 * env.opts.Nlayer)
        = advance_pass env
            (cond_pass pw env { st with inflow := env.dt_inflow, last_cnt := 0 }) := by
  have hh := cond_pass_history pw env { st with inflow := env.dt_inflow, last_cnt := 0 } rfl
  refine ⟨?_, ?_, ?_, ?_, cond_upto_pass pw env _, advance_upto_pass env _⟩
  · rw [hh.1]
    exact slot_position_total env hN
  · intro k hk
    exact cond_slot_indices_le env _ k hN hk
      (cond_upto_history pw env { st with inflow := env.dt_inflow, last_cnt := 0 } rfl k).1
  · intro k hk ha
    obtain ⟨c1, -, c3, c4, -, -⟩ := advance_upto_counters env
      (cond_pass pw env { st with inflow := env.dt_inflow, last_cnt := 0 }) k
    obtain ⟨h1, h2, -, -⟩ := history_at_slot env
      (cond_pass pw env { st with inflow := env.dt_inflow, last_cnt := 0 }) (k / 3) (k % 3)
      (by omega) (Nat.mod_lt _ (by omega)) hh ha
    rw [div_mod_linear] at h1 h2
    rw [c3, c4, c1]
    exact ⟨rfl, h1, h2⟩
  · intro k hk
    exact advance_slot_indices_le env _ k hN hk
      (advance_upto_counters env
        (cond_pass pw env { st with inflow := env.dt_inflow, last_cnt := 0 }) k).1

theorem C20_history_index_safety_witness :
    (cond_pass int_pow odd_env { odd_start with inflow := odd_env.dt_inflow, last_cnt := 0 }).last_cnt
        ≤ 3 * odd_env.opts.Nlayer - 1 ∧
      (∀ k, k < 3 * odd_env.opts.Nlayer →
        ∀ i ∈ cond_slot_indices odd_env
            (cond_upto int_pow odd_env
              { odd_start with inflow := odd_env.dt_inflow, last_cnt := 0 } k)
            (k / 3) (k % 3),
          i ≤ 3 * odd_env.opts.Nlayer - 1) ∧
      (∀ k, k < 3 * odd_env.opts.Nlayer →
        ∀ i ∈ advance_slot_indices odd_env
            (advance_upto odd_env
              (cond_pass int_pow odd_env
                { odd_start with inflow := odd_env.dt_inflow, last_cnt := 0 }) k)
            (k / 3) (k % 3),
          i ≤ 3 * odd_env.opts.Nlayer - 1) :=
  ⟨(C20_history_index_safety int_pow odd_env odd_start (by decide)).1,
    (C20_history_index_safety int_pow odd_env odd_start (by decide)).2.1,
    (C20_history_index_safety int_pow odd_env odd_start (by decide)).2.2.2.1⟩

/-! ## Fluxes around an impermeable slot in the advance pass -/

/-- The upward walk never raises `Q12` of an active slot: it only subtracts a share of a
positive excess. -/
theorem push_up_Q12_le (env : col_env R) (a b : Nat) (ha : 0 < env.sublayer a b) (t : Nat)
    (st : flux_state R)
    (hsrc : ∀ i, i ≤ t → 0 < env.sublayer (st.last_layer i) (st.last_sub i)) :
    (push_up env t st).2.Q12 a b ≤ st.Q12 a b := by
  induction t generalizing st with
  | zero => exact le_refl _
  | succ t ih =>
    unfold push_up
    simp only
    split_ifs with hover
    · refine le_trans (ih _ (fun i hi => hsrc i (by omega))) ?_
      show set2 st.Q12 (st.last_layer t) (st.last_sub (t + 1)) _ a b ≤ st.Q12 a b
      by_cases hp : a = st.last_layer t ∧ b = st.last_sub (t + 1)
      · have hw : 0 < env.sublayer (st.last_layer t) (st.last_sub (t + 1)) := by
          rw [← hp.1, ← hp.2]
          exact ha
        rw [hp.1, hp.2, set2_same]
        have hE : 0 < st.submoist (st.last_layer (t + 1)) (st.last_sub (t + 1))
            + env.subice (st.last_layer (t + 1)) (st.last_sub (t + 1))
            - env.submax_moist (st.last_layer (t + 1)) (st.last_sub (t + 1)) := by
          linarith
        have hs := hsrc (t + 1) (le_refl _)
        have := div_nonneg (mul_nonneg (le_of_lt hE) (le_of_lt hs)) (le_of_lt hw)
        linarith
      · rw [set2_other _ _ _ _ _ _ hp]
    · exact le_refl _

theorem redistribute_up_Q12 (env : col_env R) (st : flux_state R) :
    (redistribute_up env st).Q12 = (push_up env st.last_index st).2.Q12 := by
  unfold redistribute_up
  simp only
  split_ifs <;> rfl

theorem advance_update_Q12_le (env : col_env R) (st : flux_state R) (l s a b : Nat)
    (ha : 0 < env.sublayer a b)
    (hsrc : ∀ i, i ≤ st.last_index → 0 < env.sublayer (st.last_layer i) (st.last_sub i)) :
    (advance_update env st l s).1.Q12 a b ≤ st.Q12 a b := by
  unfold advance_update
  simp only
  split_ifs
  · exact le_refl _
  · exact le_refl _
  · rw [redistribute_up_Q12]
    exact push_up_Q12_le env a b ha _ _ hsrc
  · exact le_refl _

/-- The excess handed down by an active slot: its saturation excess when the entry of
`froz_solid` after its own is not set, and nothing otherwise. -/
theorem advance_update_excess (env : col_env R) (st : flux_state R) (l s : Nat) :
    (advance_update env st l s).2 =
      if advance_moist env st l s + env.subice l s > env.submax_moist l s
          ∧ st.froz_solid (st.last_index + 1) = false
      then advance_moist env st l s + env.subice l s - env.submax_moist l s else 0 := by
  unfold advance_update
  simp only
  split_ifs <;> rfl

theorem residual_floor_Q12_other (env : col_env R) (x : flux_state R) (l s a b : Nat)
    (h : ¬ (a = l ∧ b = s)) : (residual_floor env x l s).Q12 a b = x.Q12 a b := by
  unfold residual_floor
  split_ifs
  · exact set2_other _ _ _ _ _ _ h
  · rfl

theorem residual_floor_Q12_le (env : col_env R) (x : flux_state R) (l s : Nat)
    (hice : 0 ≤ env.subice l s) : (residual_floor env x l s).Q12 l s ≤ x.Q12 l s := by
  unfold residual_floor
  split_ifs with h
  · show set2 x.Q12 l s _ l s ≤ _
    rw [set2_same]
    linarith
  · exact le_refl _

theorem advance_slot_Q12_other (env : col_env R) (st : flux_state R) (l s a b : Nat)
    (hne : ¬ (a = l ∧ b = s)) (ha : 0 < env.sublayer a b)
    (hsrc : ∀ i, i ≤ st.last_index → 0 < env.sublayer (st.last_layer i) (st.last_sub i)) :
    (advance_slot env st l s).Q12 a b ≤ st.Q12 a b := by
  by_cases hact : active env l s
  · rw [advance_slot_active env st l s hact]
    show set2 (residual_floor env { (advance_update env st l s).1 with firstlayer := false }
      l s).Q12 l s _ a b ≤ _
    rw [set2_other _ _ _ _ _ _ hne, residual_floor_Q12_other env _ l s a b hne]
    exact advance_update_Q12_le env st l s a b ha hsrc
  · rw [advance_slot_inactive env st l s hact]

/-- The flux an active slot hands down is at most its excess share when its own `Q12`
is not positive and its ice content is not negative. -/
theorem advance_slot_flux_le (env : col_env R) (st : flux_state R) (l s : Nat)
    (hact : active env l s) (hq : st.Q12 l s ≤ 0) (hice : 0 ≤ env.subice l s)
    (hsrc : ∀ i, i ≤ st.last_index → 0 < env.sublayer (st.last_layer i) (st.last_sub i)) :
    (advance_slot env st l s).inflow ≤ (advance_update env st l s).2 * env.sublayer l s := by
  rw [advance_slot_active env st l s hact]
  show ((residual_floor env { (advance_update env st l s).1 with firstlayer := false }
      l s).Q12 l s + (advance_update env st l s).2) * env.sublayer l s ≤ _
  have h1 := residual_floor_Q12_le env
    { (advance_update env st l s).1 with firstlayer := false } l s hice
  have h2 : ({ (advance_update env st l s).1 with firstlayer := false } : flux_state R).Q12 l s
      ≤ st.Q12 l s := advance_update_Q12_le env st l s l s hact.1 hsrc
  have hw : 0 < env.sublayer l s := hact.1
  have h3 : (residual_floor env { (advance_update env st l s).1 with firstlayer := false }
      l s).Q12 l s ≤ 0 := le_trans h1 (le_trans h2 hq)
  nlinarith

theorem history_sources_active (env : col_env R) (st1 : flux_state R)
    (hh : history_upto env st1 (3 * env.opts.Nlayer)) (k : Nat)
    (hk : k < 3 * env.opts.Nlayer) (ha : active_at env k) :
    ∀ i, i ≤ slot_position env k → 0 < env.sublayer (st1.last_layer i) (st1.last_sub i) := by
  intro i hi
  obtain ⟨-, -, -, h4⟩ := history_at_slot env st1 (k / 3) (k % 3) (by omega)
    (Nat.mod_lt _ (by omega)) hh ha
  rw [div_mod_linear] at h4
  exact (h4 i hi).1

/-- Until the advance pass visits an active slot, the `Q12` the conductivity pass left
there can only have gone down. -/
theorem advance_upto_Q12_le (env : col_env R) (st1 : flux_state R)
    (hh : history_upto env st1 (3 * env.opts.Nlayer)) (kt : Nat)
    (hkt : kt < 3 * env.opts.Nlayer) (hat : active_at env kt) (k : Nat) (hk : k ≤ kt) :
    (advance_upto env st1 k).Q12 (kt / 3) (kt % 3) ≤ st1.Q12 (kt / 3) (kt % 3) := by
  induction k with
  | zero => exact le_refl _
  | succ k ih =>
    have ih2 := ih (by omega)
    obtain ⟨c1, -, c3, c4, -, -⟩ := advance_upto_counters env st1 k
    have hne : ¬ (kt / 3 = k / 3 ∧ kt % 3 = k % 3) := by
      intro h
      omega
    have hstep : (advance_slot env (advance_upto env st1 k) (k / 3) (k % 3)).Q12
        (kt / 3) (kt % 3) ≤ (advance_upto env st1 k).Q12 (kt / 3) (kt % 3) := by
      by_cases hact : active env (k / 3) (k % 3)
      · apply advance_slot_Q12_other env _ _ _ _ _ hne hat.1
        rw [c1, c3, c4]
        exact history_sources_active env st1 hh k (by omega) hact
      · rw [advance_slot_inactive env _ _ _ hact]
    by_cases hm : k % 3 = 2
    · have e : advance_upto env st1 (k + 1)
          = writeback env (advance_slot env (advance_upto env st1 k) (k / 3) (k % 3)) (k / 3) := by
        simp only [advance_upto, if_pos hm]
      obtain ⟨-, w2, -⟩ := writeback_frame env
        (advance_slot env (advance_upto env st1 k) (k / 3) (k % 3)) (k / 3)
      rw [e, w2]
      exact le_trans hstep ih2
    · have e : advance_upto env st1 (k + 1)
          = advance_slot env (advance_upto env st1 k) (k / 3) (k % 3) := by
        simp only [advance_upto, if_neg hm]
      rw [e]
      exact le_trans hstep ih2

/-- The slot recorded just before an impermeable slot hands down no excess and no
positive flux; the impermeable slot itself hands down at most its own excess share. -/
theorem blockage_fluxes (pw : R → R → R) (env : col_env R) (st0 : flux_state R)
    (h0 : st0.last_cnt = 0) (l : Nat) (hl : l < env.opts.Nlayer) (ha : active env l 1)
    (hi : impermeable env l) :
    (∀ k, k < 3 * l + 1 → active_at env k →
      slot_position env k + 1 = slot_position env (3 * l + 1) →
      0 ≤ env.subice (k / 3) (k % 3) →
      (advance_update env (advance_upto env (cond_pass pw env st0) k) (k / 3) (k % 3)).2 = 0 ∧
        (advance_slot env (advance_upto env (cond_pass pw env st0) k) (k / 3) (k % 3)).inflow
          ≤ 0) ∧
      (0 ≤ env.subice l 1 →
        (advance_slot env (advance_upto env (cond_pass pw env st0) (3 * l + 1)) l 1).inflow
          ≤ (if advance_moist env (advance_upto env (cond_pass pw env st0) (3 * l + 1)) l 1
                  + env.subice l 1 > env.submax_moist l 1
                ∧ (advance_upto env (cond_pass pw env st0) (3 * l + 1)).froz_solid
                    ((advance_upto env (cond_pass pw env st0) (3 * l + 1)).last_index + 1)
                  = false
             then advance_moist env (advance_upto env (cond_pass pw env st0) (3 * l + 1)) l 1
                  + env.subice l 1 - env.submax_moist l 1
             else 0) * env.sublayer l 1) := by
  have hh := cond_pass_history pw env st0 h0
  obtain ⟨q1, q2, q3⟩ := cond_pass_impermeable pw env st0 h0 l hl ha hi
  have hat : active_at env (3 * l + 1) := (active_at_linear env l 1 (by omega)).2 ha
  refine ⟨?_, ?_⟩
  · intro k hk hak hpos hice
    have hkN : k < 3 * env.opts.Nlayer := by omega
    obtain ⟨c1, -, c3, c4, c5, -⟩ := advance_upto_counters env (cond_pass pw env st0) k
    obtain ⟨e1, e2, -, -⟩ := history_at_slot env (cond_pass pw env st0) (k / 3) (k % 3)
      (by omega) (Nat.mod_lt _ (by omega)) hh hak
    rw [div_mod_linear] at e1 e2
    have hfs : (advance_upto env (cond_pass pw env st0) k).froz_solid
        ((advance_upto env (cond_pass pw env st0) k).last_index + 1) = true := by
      rw [c5, c1, hpos]
      exact q2
    have htmp : (advance_update env (advance_upto env (cond_pass pw env st0) k)
        (k / 3) (k % 3)).2 = 0 := by
      rw [advance_update_excess, hfs]
      simp
    have hzero : (cond_pass pw env st0).Q12 (k / 3) (k % 3) = 0 := by
      have h := q3 (by omega)
      have hp : slot_position env (3 * l + 1) - 1 = slot_position env k := by omega
      rw [hp, e1, e2] at h
      exact h
    have hq : (advance_upto env (cond_pass pw env st0) k).Q12 (k / 3) (k % 3) ≤ 0 := by
      have h := advance_upto_Q12_le env (cond_pass pw env st0) hh k hkN hak k (le_refl _)
      rw [hzero] at h
      exact h
    have hflux := advance_slot_flux_le env (advance_upto env (cond_pass pw env st0) k)
      (k / 3) (k % 3) hak hq hice
      (by
        rw [c1, c3, c4]
        exact history_sources_active env _ hh k hkN hak)
    rw [htmp, zero_mul] at hflux
    exact ⟨htmp, hflux⟩
  · intro hice
    have hkN : 3 * l + 1 < 3 * env.opts.Nlayer := by omega
    have d : (3 * l + 1) / 3 = l := by omega
    have m : (3 * l + 1) % 3 = 1 := by omega
    obtain ⟨c1, -, c3, c4, -, -⟩ := advance_upto_counters env (cond_pass pw env st0) (3 * l + 1)
    have hq : (advance_upto env (cond_pass pw env st0) (3 * l + 1)).Q12 l 1 ≤ 0 := by
      have h := advance_upto_Q12_le env (cond_pass pw env st0) hh (3 * l + 1) hkN hat
        (3 * l + 1) (le_refl _)
      rw [d, m, q1] at h
      exact h
    have hflux := advance_slot_flux_le env (advance_upto env (cond_pass pw env st0) (3 * l + 1))
      l 1 ha hq hice
      (by
        rw [c1, c3, c4]
        exact history_sources_active env _ hh (3 * l + 1) hkN hat)
    rw [advance_update_excess] at hflux
    exact hflux

theorem lens_env_active : active lens_env 0 1 := by
  unfold active
  norm_num [lens_env, branch_env, sublayer_of, still_soil, lens_layer, frost_opts]

theorem lens_env_impermeable : impermeable lens_env 0 := by
  unfold impermeable
  norm_num [lens_env, branch_env, sublayer_of, submax_moist_of, still_soil, lens_layer,
    frost_opts]

/-- Claim C12 (counterexample).  Frozen-soil mode, two layers, no inflow, one sub-step;
the first layer is frozen over its whole depth (capacity fraction 0.1, thickness 1 m),
holds 100 mm of water, its capacity, and 5 mm of ice.  The conductivity pass flags the
slot (history position 0) and sets its `Q12` to zero.  In the advance pass the test of
line 366 reads `froz_solid[last_index+1]`, the entry after the slot's own, which is not
set: the 5 mm of excess become `tmp_inflow`, and the flux handed down by the flagged
slot is 5 mm, which ends in the bottom layer (10 mm before, 15 mm after). -/
theorem C12_counterexample_excess_of_flagged_slot :
    active lens_env 0 1 ∧ impermeable lens_env 0 ∧
      (cond_pass int_pow lens_env
        { lens_start with inflow := lens_env.dt_inflow, last_cnt := 0 }).froz_solid 0 = true ∧
      (cond_pass int_pow lens_env
        { lens_start with inflow := lens_env.dt_inflow, last_cnt := 0 }).last_layer 0 = 0 ∧
      (cond_pass int_pow lens_env
        { lens_start with inflow := lens_env.dt_inflow, last_cnt := 0 }).last_sub 0 = 1 ∧
      (advance_slot lens_env
        (advance_upto lens_env
          (cond_pass int_pow lens_env
            { lens_start with inflow := lens_env.dt_inflow, last_cnt := 0 }) 1) 0 1).inflow = 5 ∧
      ((branch_body int_pow frost_opts still_soil lens_layer 0 1).layer 1).moist = 15 := by
  refine ⟨lens_env_active, lens_env_impermeable, ?_, ?_, ?_, ?_, ?_⟩
  · norm_num [cond_pass, cond_slot, lens_env, lens_start, branch_env, branch_init, frost_opts,
      still_soil, lens_layer, List.range_succ, set1, set2, sublayer_of, submoist_of, subice_of,
      submax_moist_of, resid_moist_of]
  · norm_num [cond_pass, cond_slot, lens_env, lens_start, branch_env, branch_init, frost_opts,
      still_soil, lens_layer, List.range_succ, set1, set2, sublayer_of, submoist_of, subice_of,
      submax_moist_of, resid_moist_of]
  · norm_num [cond_pass, cond_slot, lens_env, lens_start, branch_env, branch_init, frost_opts,
      still_soil, lens_layer, List.range_succ, set1, set2, sublayer_of, submoist_of, subice_of,
      submax_moist_of, resid_moist_of]
  · norm_num [advance_upto, advance_slot, advance_update, advance_moist, residual_floor,
      hand_down, cond_pass, cond_slot, lens_env, lens_start, branch_env, branch_init,
      frost_opts, still_soil, lens_layer, List.range_succ, set1, set2, sublayer_of,
      submoist_of, subice_of, submax_moist_of, resid_moist_of, surface_runoff]
  · norm_num [branch_body, time_loop, time_step, cond_pass, advance_pass,
      advance_layer, advance_slot, advance_update, advance_moist, residual_floor, hand_down,
      cond_slot, writeback, branch_env, branch_init, frost_opts, still_soil, lens_layer,
      List.range_succ, set1, set2, sublayer_of, submoist_of, subice_of, submax_moist_of,
      resid_moist_of, surface_runoff, bottom_update, arno_baseflow]

/-- Claim C12 (amended).  In every sub-step (whatever the state `st` at its start), for
every active frozen slot `[l][1]` flagged impermeable in the conductivity pass:
the active slot recorded immediately before it, when its ice content is not negative,
hands down no saturation excess (`tmp_inflow = 0`) and a flux that is never positive;
and the flagged slot itself, when its ice content is not negative, hands down at most
its own saturation excess times its thickness fraction when the entry of `froz_solid`
after its own is not set, and no positive flux otherwise. -/
theorem C12_no_flux_into_blockage (pw : R → R → R) (env : col_env R) (st : flux_state R)
    (l : Nat) (hl : l < env.opts.Nlayer) (ha : active env l 1) (hi : impermeable env l) :
    (∀ k, k < 3 * l + 1 → active_at env k →
      slot_position env k + 1 = slot_position env (3 * l + 1) →
      0 ≤ env.subice (k / 3) (k % 3) →
      (advance_update env
          (advance_upto env
            (cond_pass pw env { st with inflow := env.dt_inflow, last_cnt := 0 }) k)
          (k / 3) (k % 3)).2 = 0 ∧
        (advance_slot env
          (advance_upto env
            (cond_pass pw env { st with inflow := env.dt_inflow, last_cnt := 0 }) k)
          (k / 3) (k % 3)).inflow ≤ 0) ∧
      (0 ≤ env.subice l 1 →
        (advance_slot env
            (advance_upto env
              (cond_pass pw env { st with inflow := env.dt_inflow, last_cnt := 0 })
              (3 * l + 1)) l 1).inflow
          ≤ (if advance_moist env
                    (advance_upto env
                      (cond_pass pw env { st with inflow := env.dt_inflow, last_cnt := 0 })
                      (3 * l + 1)) l 1
                  + env.subice l 1 > env.submax_moist l 1
                ∧ (advance_upto env
                    (cond_pass pw env { st with inflow := env.dt_inflow, last_cnt := 0 })
                    (3 * l + 1)).froz_solid
                    ((advance_upto env
                      (cond_pass pw env { st with inflow := env.dt_inflow, last_cnt := 0 })
                      (3 * l + 1)).last_index + 1)
                  = false
             then advance_moist env
                    (advance_upto env
                      (cond_pass pw env { st with inflow := env.dt_inflow, last_cnt := 0 })
                      (3 * l + 1)) l 1
                  + env.subice l 1 - env.submax_moist l 1
             else 0) * env.sublayer l 1) :=
  blockage_fluxes pw env { st with inflow := env.dt_inflow, last_cnt := 0 } rfl l hl ha hi

theorem odd_env_active_thawed : active_at odd_env 3 := by
  unfold active_at active
  norm_num [odd_env, branch_env, sublayer_of, odd_soil, odd_layer, odd_opts]

theorem C12_no_flux_into_blockage_witness :
    (advance_update odd_env
        (advance_upto odd_env
          (cond_pass int_pow odd_env
            { odd_start with inflow := odd_env.dt_inflow, last_cnt := 0 }) 3)
        (3 / 3) (3 % 3)).2 = 0 ∧
      (advance_slot odd_env
        (advance_upto odd_env
          (cond_pass int_pow odd_env
            { odd_start with inflow := odd_env.dt_inflow, last_cnt := 0 }) 3)
        (3 / 3) (3 % 3)).inflow ≤ 0 :=
  (C12_no_flux_into_blockage int_pow odd_env odd_start 1 (by decide) odd_env_active_frozen
    odd_env_impermeable).1 3 (by decide) odd_env_active_thawed
    (slot_position_succ_active odd_env 3 odd_env_active_thawed).symm
    (by norm_num [odd_env, branch_env, subice_of])

/-! ## The upward push, the upper-zone aggregate and the bottom division at concrete inputs -/

theorem shifted_history :
    (cond_pass int_pow (shifted_env 1)
        { shifted_start with inflow := (shifted_env 1).dt_inflow, last_cnt := 0 }).last_layer 1 = 0 ∧
      (cond_pass int_pow (shifted_env 1)
        { shifted_start with inflow := (shifted_env 1).dt_inflow, last_cnt := 0 }).last_sub 1 = 2 ∧
      (cond_pass int_pow (shifted_env 1)
        { shifted_start with inflow := (shifted_env 1).dt_inflow, last_cnt := 0 }).last_layer 2 = 1 ∧
      (cond_pass int_pow (shifted_env 1)
        { shifted_start with inflow := (shifted_env 1).dt_inflow, last_cnt := 0 }).last_sub 2 = 0 ∧
      (cond_pass int_pow (shifted_env 1)
        { shifted_start with inflow := (shifted_env 1).dt_inflow, last_cnt := 0 }).froz_solid 3
        = true := by
  refine ⟨?_, ?_, ?_, ?_, ?_⟩ <;>
  norm_num [cond_pass, cond_slot, shifted_env, shifted_start, branch_env, branch_init,
    odd_opts, still_soil, shifted_layer, List.range_succ, set1, set2, sublayer_of,
    submoist_of, subice_of, submax_moist_of, resid_moist_of]

set_option maxHeartbeats 4000000 in
set_option maxRecDepth 100000 in
theorem shifted_step_thawed :
    (time_step int_pow (shifted_env 1) shifted_start).submoist 0 0 = 30 := by
  norm_num [time_step, cond_pass, advance_pass, advance_layer, advance_slot, advance_update,
    advance_moist, residual_floor, hand_down, redistribute_up, push_up, cond_slot, writeback,
    shifted_env, shifted_start, branch_env, branch_init, odd_opts, still_soil, shifted_layer,
    List.range_succ, set1, set2, sublayer_of, submoist_of, subice_of, submax_moist_of,
    resid_moist_of, surface_runoff, top_moist_of, top_moist_sum, top_max_moist_of]

set_option maxHeartbeats 4000000 in
set_option maxRecDepth 100000 in
theorem shifted_step_unfrozen :
    (time_step int_pow (shifted_env 1) shifted_start).submoist 0 2 = 20 := by
  norm_num [time_step, cond_pass, advance_pass, advance_layer, advance_slot, advance_update,
    advance_moist, residual_floor, hand_down, redistribute_up, push_up, cond_slot, writeback,
    shifted_env, shifted_start, branch_env, branch_init, odd_opts, still_soil, shifted_layer,
    List.range_succ, set1, set2, sublayer_of, submoist_of, subice_of, submax_moist_of,
    resid_moist_of, surface_runoff, top_moist_of, top_moist_sum, top_max_moist_of]

set_option maxHeartbeats 4000000 in
set_option maxRecDepth 100000 in
theorem shifted_step_source :
    (time_step int_pow (shifted_env 1) shifted_start).submoist 1 0 = 100 := by
  norm_num [time_step, cond_pass, advance_pass, advance_layer, advance_slot, advance_update,
    advance_moist, residual_floor, hand_down, redistribute_up, push_up, cond_slot, writeback,
    shifted_env, shifted_start, branch_env, branch_init, odd_opts, still_soil, shifted_layer,
    List.range_succ, set1, set2, sublayer_of, submoist_of, subice_of, submax_moist_of,
    resid_moist_of, surface_runoff, top_moist_of, top_moist_sum, top_max_moist_of]

/-- Claim C15 (the code at a failing input).  Three layers in frozen-soil mode, no
inflow, no conductivity.  The history of active slots is `[0][0], [0][2], [1][0],
[1][1]`, the last one flagged impermeable.  Slot `[1][0]`, recorded at position 2, is
blocked and holds 120 mm against a capacity of 100 mm.  The upward walk of lines
400-420 writes to `[last_layer[1]][last_sub[2]] = [0][0]`, not to the slot recorded at
position 1, `[0][2]`: after the sub-step slot `[0][0]` has gone from 10 to 30 mm, slot
`[0][2]` still holds its 20 mm, and the source slot is at capacity. -/
theorem C15_push_target_uses_source_sublayer :
    (cond_pass int_pow (shifted_env 1)
        { shifted_start with inflow := (shifted_env 1).dt_inflow, last_cnt := 0 }).last_layer 1 = 0 ∧
      (cond_pass int_pow (shifted_env 1)
        { shifted_start with inflow := (shifted_env 1).dt_inflow, last_cnt := 0 }).last_sub 1 = 2 ∧
      (cond_pass int_pow (shifted_env 1)
        { shifted_start with inflow := (shifted_env 1).dt_inflow, last_cnt := 0 }).last_layer 2 = 1 ∧
      (cond_pass int_pow (shifted_env 1)
        { shifted_start with inflow := (shifted_env 1).dt_inflow, last_cnt := 0 }).last_sub 2 = 0 ∧
      (cond_pass int_pow (shifted_env 1)
        { shifted_start with inflow := (shifted_env 1).dt_inflow, last_cnt := 0 }).froz_solid 3
        = true ∧
      shifted_start.submoist 0 0 = 10 ∧ shifted_start.submoist 0 2 = 20 ∧
      shifted_start.submoist 1 0 = 120 ∧
      (time_step int_pow (shifted_env 1) shifted_start).submoist 0 0 = 30 ∧
      (time_step int_pow (shifted_env 1) shifted_start).submoist 0 2 = 20 ∧
      (time_step int_pow (shifted_env 1) shifted_start).submoist 1 0 = 100 := by
  obtain ⟨h1, h2, h3, h4, h5⟩ := shifted_history
  refine ⟨h1, h2, h3, h4, h5, ?_, ?_, ?_, shifted_step_thawed, shifted_step_unfrozen,
    shifted_step_source⟩ <;>
  norm_num [shifted_start, branch_init, submoist_of, shifted_layer]

/-- Claim C16 (the code at a failing input).  Three layers, capacity 100 mm each; the
first layer is unfrozen and holds 10 mm, the second is thawed over its whole depth and
holds 30 mm in its thawed slot.  Lines 206-207 weight the slots of the second layer
with `sublayer[0][sub]`, the fractions of the first layer, so the 30 mm of the second
layer's thawed slot get the weight 0: the aggregate moisture is 10 mm, where each
layer weighted by its own fractions gives 40 mm.  The capacity is 200 mm either way. -/
theorem C16_second_layer_weighted_by_first_layer :
    top_moist_of odd_opts (submoist_of still_soil split_layer) (subice_of split_layer)
        (submax_moist_of still_soil) (sublayer_of still_soil split_layer) = 10 ∧
      claimed_top_moist odd_opts (submoist_of still_soil split_layer) (subice_of split_layer)
        (submax_moist_of still_soil) (sublayer_of still_soil split_layer) = 40 ∧
      top_max_moist_of odd_opts (submax_moist_of still_soil) (sublayer_of still_soil split_layer)
        = 200 ∧
      claimed_top_max_moist odd_opts (submax_moist_of still_soil)
        (sublayer_of still_soil split_layer) = 200 := by
  refine ⟨?_, ?_, ?_, ?_⟩ <;>
  norm_num [top_moist_of, top_moist_sum, top_max_moist_of, claimed_top_moist,
    claimed_top_moist_sum, claimed_top_max_moist, odd_opts, still_soil, split_layer,
    sublayer_of, submoist_of, subice_of, submax_moist_of]

/-- Claim C18 (the code at a failing input).  Two layers with `0 <= tdepth <= fdepth <=
depth`; the bottom layer is frozen over its whole depth.  The thickness fraction of
its unfrozen slot, by which line 497 divides the integrated inflow, is zero. -/
theorem C18_bottom_divisor_zero :
    (∀ l, 0 ≤ (frozen_bottom_layer l).tdepth ∧
        (frozen_bottom_layer l).tdepth ≤ (frozen_bottom_layer l).fdepth ∧
        (frozen_bottom_layer l).fdepth ≤ still_soil.depth l) ∧
      ¬ has_negative frozen_bottom_layer frost_opts.Nlayer ∧
      (branch_env int_pow frost_opts still_soil frozen_bottom_layer 5 1).sublayer
        (frost_opts.Nlayer - 1) 2 = 0 := by
  refine ⟨?_, ?_, ?_⟩
  · intro l
    unfold frozen_bottom_layer
    split_ifs <;> norm_num [still_soil]
  · rintro ⟨l, _, h⟩
    unfold frozen_bottom_layer at h
    split_ifs at h <;> norm_num at h
  · norm_num [branch_env, sublayer_of, frozen_bottom_layer, still_soil, frost_opts]

/-! ## The sign of the baseflow -/

/-- The upward walk leaves a slot alone that is neither a recorded slot nor one of the
slots the walk writes to. -/
theorem push_up_untouched (env : col_env R) (B : Nat) (t : Nat) (st : flux_state R)
    (hsrc : ∀ i, i ≤ t → ¬ (B = st.last_layer i ∧ 2 = st.last_sub i))
    (htgt : ∀ i, i < t → ¬ (B = st.last_layer i ∧ 2 = st.last_sub (i + 1))) :
    (push_up env t st).2.submoist B 2 = st.submoist B 2 := by
  induction t generalizing st with
  | zero => rfl
  | succ t ih =>
    unfold push_up
    simp only
    split_ifs with hover
    · rw [ih]
      · show set2 (set2 st.submoist (st.last_layer t) (st.last_sub (t + 1)) _)
          (st.last_layer (t + 1)) (st.last_sub (t + 1)) _ B 2 = _
        rw [set2_other _ _ _ _ _ _ (hsrc (t + 1) (le_refl _)),
          set2_other _ _ _ _ _ _ (htgt t (Nat.lt_succ_self t))]
      · intro i hi
        exact hsrc i (by omega)
      · intro i hi
        exact htgt i (by omega)
    · rfl

theorem redistribute_up_untouched (env : col_env R) (B : Nat) (st : flux_state R)
    (hsrc : ∀ i, i ≤ st.last_index → ¬ (B = st.last_layer i ∧ 2 = st.last_sub i))
    (htgt : ∀ i, i < st.last_index → ¬ (B = st.last_layer i ∧ 2 = st.last_sub (i + 1))) :
    (redistribute_up env st).submoist B 2 = st.submoist B 2 := by
  have hp := push_up_untouched env B st.last_index st hsrc htgt
  obtain ⟨-, -, f3, f4, -⟩ := push_up_frame env st.last_index st
  unfold redistribute_up
  simp only
  split_ifs with h
  · show set2 (push_up env st.last_index st).2.submoist _ _ _ B 2 = _
    rw [set2_other _ _ _ _ _ _ (by
      rw [f3, f4, h.1]
      exact hsrc 0 (Nat.zero_le _))]
    exact hp
  · exact hp

theorem advance_slot_untouched (env : col_env R) (B : Nat) (st : flux_state R) (l s : Nat)
    (hne : ¬ (B = l ∧ 2 = s))
    (hsrc : ∀ i, i ≤ st.last_index → ¬ (B = st.last_layer i ∧ 2 = st.last_sub i))
    (htgt : ∀ i, i < st.last_index → ¬ (B = st.last_layer i ∧ 2 = st.last_sub (i + 1))) :
    (advance_slot env st l s).submoist B 2 = st.submoist B 2 := by
  by_cases hact : active env l s
  · rw [advance_slot_active env st l s hact]
    show (residual_floor env { (advance_update env st l s).1 with firstlayer := false }
      l s).submoist B 2 = _
    have hres : (residual_floor env { (advance_update env st l s).1 with firstlayer := false }
        l s).submoist B 2 = (advance_update env st l s).1.submoist B 2 := by
      unfold residual_floor
      split_ifs
      · exact set2_other _ _ _ _ _ _ hne
      · rfl
    rw [hres]
    unfold advance_update
    simp only
    split_ifs
    · show set2 (set2 st.submoist l s _) l s _ B 2 = _
      rw [set2_other _ _ _ _ _ _ hne, set2_other _ _ _ _ _ _ hne]
    · show set2 (set2 st.submoist l s _) l s _ B 2 = _
      rw [set2_other _ _ _ _ _ _ hne, set2_other _ _ _ _ _ _ hne]
    · exact (redistribute_up_untouched env B
        { st with submoist := set2 st.submoist l s (advance_moist env st l s) } hsrc htgt).trans
        (set2_other _ _ _ _ _ _ hne)
    · exact set2_other _ _ _ _ _ _ hne
  · rw [advance_slot_inactive env st l s hact]

/-- What a valid history says about the bottom reservoir: it is not a recorded slot,
and no recorded layer is paired with the sublayer of the next recorded slot to give it. -/
theorem history_avoids_bottom (env : col_env R) (st1 : flux_state R)
    (hh : history_upto env st1 (3 * env.opts.Nlayer)) :
    (∀ i, i < st1.last_cnt →
      ¬ (env.opts.Nlayer - 1 = st1.last_layer i ∧ 2 = st1.last_sub i)) ∧
      (∀ i, i + 1 < st1.last_cnt →
        ¬ (env.opts.Nlayer - 1 = st1.last_layer i ∧ 2 = st1.last_sub (i + 1))) := by
  obtain ⟨-, hall⟩ := hh
  refine ⟨?_, ?_⟩
  · intro i hi h
    obtain ⟨j, -, hja, -, h1, h2⟩ := hall i hi
    apply hja.2
    rw [← h1, ← h2]
    exact ⟨h.1.symm, h.2.symm⟩
  · intro i hi h
    obtain ⟨a, ha, haa, hap, ha1, -⟩ := hall i (by omega)
    obtain ⟨b, hb, hba, hbp, -, hb2⟩ := hall (i + 1) hi
    have hab : a < b := by
      by_contra hge
      have := slot_position_mono env (not_lt.1 hge)
      omega
    have hbl : b / 3 ≠ env.opts.Nlayer - 1 := by
      intro hbl
      apply hba.2
      exact ⟨hbl, by rw [← hb2]; exact h.2.symm⟩
    have h3 : a / 3 ≤ b / 3 := Nat.div_le_div_right (le_of_lt hab)
    have h4 : env.opts.Nlayer - 1 = a / 3 := by
      rw [← ha1]
      exact h.1
    omega

/-- The advance pass never writes the moisture of the bottom reservoir. -/
theorem advance_upto_bottom (env : col_env R) (st1 : flux_state R)
    (hh : history_upto env st1 (3 * env.opts.Nlayer)) (k : Nat)
    (hk : k ≤ 3 * env.opts.Nlayer) :
    (advance_upto env st1 k).submoist (env.opts.Nlayer - 1) 2
      = st1.submoist (env.opts.Nlayer - 1) 2 := by
  induction k with
  | zero => rfl
  | succ k ih =>
    have ih2 := ih (by omega)
    obtain ⟨c1, -, c3, c4, -, -⟩ := advance_upto_counters env st1 k
    obtain ⟨a1, a2⟩ := history_avoids_bottom env st1 hh
    have hstep : (advance_slot env (advance_upto env st1 k) (k / 3) (k % 3)).submoist
        (env.opts.Nlayer - 1) 2 = (advance_upto env st1 k).submoist (env.opts.Nlayer - 1) 2 := by
      by_cases hact : active env (k / 3) (k % 3)
      · have hp : slot_position env k < st1.last_cnt := by
          rw [hh.1]
          exact slot_position_lt_of_active env hact (by omega)
        apply advance_slot_untouched env _ _ _ _ (fun h => hact.2 ⟨h.1.symm, h.2.symm⟩)
        · intro i hi
          rw [c1] at hi
          rw [c3, c4]
          exact a1 i (by omega)
        · intro i hi
          rw [c1] at hi
          rw [c3, c4]
          exact a2 i (by omega)
      · rw [advance_slot_inactive env _ _ _ hact]
    by_cases hm : k % 3 = 2
    · have e : advance_upto env st1 (k + 1)
          = writeback env (advance_slot env (advance_upto env st1 k) (k / 3) (k % 3)) (k / 3) := by
        simp only [advance_upto, if_pos hm]
      obtain ⟨w1, -⟩ := writeback_frame env
        (advance_slot env (advance_upto env st1 k) (k / 3) (k % 3)) (k / 3)
      rw [e, w1, hstep, ih2]
    · have e : advance_upto env st1 (k + 1)
          = advance_slot env (advance_upto env st1 k) (k / 3) (k % 3) := by
        simp only [advance_upto, if_neg hm]
      rw [e, hstep, ih2]

theorem time_step_bottom (pw : R → R → R) (env : col_env R) (st : flux_state R) :
    (time_step pw env st).submoist (env.opts.Nlayer - 1) 2
      = st.submoist (env.opts.Nlayer - 1) 2 := by
  have hh := cond_pass_history pw env { st with inflow := env.dt_inflow, last_cnt := 0 } rfl
  have h := advance_upto_bottom env _ hh (3 * env.opts.Nlayer) (le_refl _)
  rw [advance_upto_pass] at h
  obtain ⟨-, cm, -⟩ := cond_pass_frame pw env { st with inflow := env.dt_inflow, last_cnt := 0 }
  show (advance_pass env (cond_pass pw env { st with inflow := env.dt_inflow, last_cnt := 0 })).submoist
    (env.opts.Nlayer - 1) 2 = _
  rw [h, cm]

/-- The hourly loop leaves the moisture of the bottom reservoir as it found it. -/
theorem time_loop_bottom (pw : R → R → R) (env : col_env R) (n : Nat) (st : flux_state R) :
    (time_loop pw env n st).submoist (env.opts.Nlayer - 1) 2
      = st.submoist (env.opts.Nlayer - 1) 2 :=
  time_loop_invariant pw env
    (fun x => x.submoist (env.opts.Nlayer - 1) 2 = st.submoist (env.opts.Nlayer - 1) 2)
    (fun x hx => (time_step_bottom pw env x).trans hx) n st rfl

/-- The bound checks of the bottom layer keep a non-negative drainage non-negative. -/
theorem bottom_update_baseflow_nonneg (env : col_env R) (l : Nat) (evap moist baseflow inflow : R)
    (hb : 0 ≤ baseflow) : 0 ≤ (bottom_update env l evap moist baseflow inflow).2 := by
  unfold bottom_update
  simp only
  split_ifs with h1 h2 h3 h4 h5
  · show 0 ≤ (0 : R) + _
    linarith
  · exact le_refl _
  · show 0 ≤ baseflow + _ + _
    linarith
  · exact not_lt.1 h2
  · show 0 ≤ baseflow + _
    linarith
  · exact hb

/-- With the real power, non-negative `Dsmax` and sub-step count, `0 <= Ds <= Ws`,
`0 < Ws < 1`, positive capacity and non-negative moisture, the drainage of lines
481-493 is not negative. -/
theorem arno_baseflow_nonneg (soil : soil_con_struct ℝ) (dt : Int) (l : Nat) (moist : ℝ)
    (hdt : 0 ≤ dt) (hDsmax : 0 ≤ soil.Dsmax) (hDs : 0 ≤ soil.Ds) (hDsWs : soil.Ds ≤ soil.Ws)
    (hWs0 : 0 < soil.Ws) (hWs1 : soil.Ws < 1) (hmax : 0 < soil.max_moist l)
    (hmoist : 0 ≤ moist) : 0 ≤ arno_baseflow Real.rpow soil dt l moist := by
  have hcast : (0 : ℝ) ≤ (dt : ℝ) := Int.cast_nonneg.2 hdt
  have hD : 0 ≤ soil.Dsmax * (dt : ℝ) / 24 := div_nonneg (mul_nonneg hDsmax hcast) (by norm_num)
  have hWm : 0 < soil.Ws * soil.max_moist l := mul_pos hWs0 hmax
  have hlin : 0 ≤ soil.Ds * (soil.Dsmax * (dt : ℝ) / 24) / (soil.Ws * soil.max_moist l) * moist :=
    mul_nonneg (div_nonneg (mul_nonneg hDs hD) (le_of_lt hWm)) hmoist
  by_cases h : moist > soil.Ws * soil.max_moist l
  · rw [arno_baseflow_power Real.rpow soil dt l moist h]
    have hden : 0 < soil.max_moist l - soil.Ws * soil.max_moist l := by nlinarith
    have hbase : 0 ≤ (moist - soil.Ws * soil.max_moist l)
        / (soil.max_moist l - soil.Ws * soil.max_moist l) :=
      div_nonneg (by linarith) (le_of_lt hden)
    have hpow : 0 ≤ Real.rpow ((moist - soil.Ws * soil.max_moist l)
        / (soil.max_moist l - soil.Ws * soil.max_moist l)) soil.c :=
      Real.rpow_nonneg hbase _
    have hcoef : 0 ≤ soil.Dsmax * (dt : ℝ) / 24
        - soil.Ds * (soil.Dsmax * (dt : ℝ) / 24) / soil.Ws := by
      have h1 : soil.Ds * (soil.Dsmax * (dt : ℝ) / 24) / soil.Ws
          ≤ soil.Dsmax * (dt : ℝ) / 24 := by
        rw [div_le_iff₀ hWs0]
        nlinarith
      linarith
    have := mul_nonneg hcoef hpow
    linarith
  · rw [arno_baseflow_linear Real.rpow soil dt l moist h]
    exact hlin

theorem not_has_negative_scenario (N : Nat) :
    ¬ has_negative (scenario_layer : Nat → layer_data_struct ℝ) N := by
  rintro ⟨l, _, h⟩
  unfold scenario_layer at h
  rcases h with h | h | h
  · norm_num at h
  · norm_num at h
  · simp only at h
    split_ifs at h <;> norm_num at h

/-- Why the sub-step count is taken non-negative below.  Two unfrozen layers of 10 mm,
capacity 100 mm, `Dsmax = 10`, `Ds = Ws = 1/2`, `c = 1`, no inflow, no evaporation, and
a sub-step count `dt = -24` (the call contract asks for `dt >= 1`, the code does not
check it).  The hourly loop does not run; line 481 gives `Dsmax * dt / 24 = -10`, the
linear branch gives `frac * moist = -1/10 * 10 = -1`, no bound check applies, and the
baseflow output is -1. -/
theorem baseflow_negative_at_negative_step_count :
    (0 : ℚ) ≤ draining_soil.Dsmax ∧ (0 : ℚ) ≤ draining_soil.Ds ∧
      draining_soil.Ds ≤ draining_soil.Ws ∧ 0 < draining_soil.Ws ∧ draining_soil.Ws < 1 ∧
      0 < draining_soil.c ∧ 0 < draining_soil.max_moist (plain_opts.Nlayer - 1) ∧
      0 ≤ (plain_layer (plain_opts.Nlayer - 1)).moist ∧
      0 ≤ sublayer_of draining_soil plain_layer (plain_opts.Nlayer - 1) 2 ∧
      ∃ r, runoff_branch int_pow plain_opts draining_soil plain_layer 0 (-24) = Except.ok r ∧
        r.baseflow = -1 ∧ ¬ (0 ≤ r.baseflow) := by
  have hb : (branch_body int_pow plain_opts draining_soil plain_layer 0 (-24)).baseflow = -1 := by
    have ht : ((-24 : Int)).toNat = 0 := by decide
    simp only [branch_body, ht, time_loop]
    norm_num [branch_env, branch_init, plain_opts, draining_soil, still_soil, plain_layer,
      sublayer_of, submoist_of, subice_of, submax_moist_of, resid_moist_of, surface_runoff,
      bottom_update, arno_baseflow]
  refine ⟨?_, ?_, ?_, ?_, ?_, ?_, ?_, ?_, ?_, branch_body int_pow plain_opts draining_soil
    plain_layer 0 (-24), runoff_branch_ok_of_not_negative _ _ _ _ _ _ not_has_negative_plain,
    hb, ?_⟩
  · norm_num [draining_soil, still_soil]
  · norm_num [draining_soil, still_soil]
  · norm_num [draining_soil, still_soil]
  · norm_num [draining_soil, still_soil]
  · norm_num [draining_soil, still_soil]
  · norm_num [draining_soil, still_soil]
  · norm_num [draining_soil, still_soil]
  · norm_num [plain_layer]
  · norm_num [sublayer_of, draining_soil, still_soil, plain_layer]
  · rw [hb]
    norm_num

/-- The sign of the baseflow where line 497 has a non-zero divisor.  For every input
with a sub-step count `dt >= 0`, `Dsmax >= 0`, `0 <= Ds <= Ws`, `0 < Ws < 1`,
bottom-layer `max_moist > 0`, no negative moisture on entry, non-negative unfrozen
moisture of the bottom layer and a positive thickness fraction of the bottom layer's
unfrozen slot (real arithmetic, real power): the branch completes and the baseflow it
writes to the output is greater than or equal to zero, for every inflow and every
evaporative demand. -/
theorem baseflow_nonneg_of_positive_fraction (opts : option_struct) (soil : soil_con_struct ℝ)
    (layer : Nat → layer_data_struct ℝ) (inflow : ℝ) (dt : Int)
    (hdt : 0 ≤ dt) (hneg : ¬ has_negative layer opts.Nlayer)
    (hDsmax : 0 ≤ soil.Dsmax) (hDs : 0 ≤ soil.Ds) (hDsWs : soil.Ds ≤ soil.Ws)
    (hWs0 : 0 < soil.Ws) (hWs1 : soil.Ws < 1)
    (hmax : 0 < soil.max_moist (opts.Nlayer - 1))
    (hmoist : 0 ≤ (layer (opts.Nlayer - 1)).moist)
    (hw : 0 < sublayer_of soil layer (opts.Nlayer - 1) 2) :
    ∃ r, runoff_branch Real.rpow opts soil layer inflow dt = Except.ok r ∧ 0 ≤ r.baseflow := by
  refine ⟨branch_body Real.rpow opts soil layer inflow dt,
    runoff_branch_ok_of_not_negative _ _ _ _ _ _ hneg, ?_⟩
  have hm : (time_loop Real.rpow (branch_env Real.rpow opts soil layer inflow dt) dt.toNat
      (branch_init Real.rpow opts soil layer inflow)).submoist (opts.Nlayer - 1) 2
      = (layer (opts.Nlayer - 1)).moist :=
    time_loop_bottom Real.rpow (branch_env Real.rpow opts soil layer inflow dt) dt.toNat
      (branch_init Real.rpow opts soil layer inflow)
  have harno := arno_baseflow_nonneg soil dt (opts.Nlayer - 1) (layer (opts.Nlayer - 1)).moist
    hdt hDsmax hDs hDsWs hWs0 hWs1 hmax hmoist
  rw [← hm] at harno
  exact mul_nonneg (bottom_update_baseflow_nonneg _ _ _ _ _ _ harno) (le_of_lt hw)

theorem baseflow_nonneg_of_positive_fraction_scenario :
    ∃ r, runoff_branch Real.rpow (scenario_opts false false)
        (scenario_soil (fun _ => 1) (fun _ => 3) (1 / 10) 10 (3 / 4) 2) scenario_layer 30 24
        = Except.ok r ∧ 0 ≤ r.baseflow :=
  baseflow_nonneg_of_positive_fraction (scenario_opts false false)
    (scenario_soil (fun _ => 1) (fun _ => 3) (1 / 10) 10 (3 / 4) 2) scenario_layer 30 24
    (by decide) (not_has_negative_scenario _)
    (by norm_num [scenario_soil]) (by norm_num [scenario_soil]) (by norm_num [scenario_soil])
    (by norm_num [scenario_soil]) (by norm_num [scenario_soil])
    (by norm_num [scenario_soil, scenario_opts])
    (by norm_num [scenario_layer, scenario_opts])
    (by norm_num [sublayer_of, scenario_soil, scenario_layer, scenario_opts])

/-- Claim C21 (the code at a failing input).  Frozen-soil mode, two layers, one
sub-step, no inflow from above and no evaporation; capacity 200 mm, `Ksat = 24` mm/day,
`Dsmax = 10`, `Ds = Ws = 1/2`, `c = 1`.  The first layer is unfrozen with 10 mm, the
bottom layer is frozen over its whole depth with 50 mm of liquid water and 20 mm of ice.
Every hypothesis of the claim holds (the bottom fraction is zero, hence non-negative),
`0 <= tdepth <= fdepth <= depth` in every layer and `dt = 1`.  The frozen slot is not
impermeable (200 / 1000 is not below 0.13) and drains `1 * 50/200 = 1/4` mm, which is
the integrated inflow of the bottom reservoir; line 497 divides it by the thickness
fraction of the bottom layer's unfrozen slot, which is zero. -/
theorem C21_positive_inflow_over_zero_fraction :
    (0 : ℚ) ≤ percolating_soil.Dsmax ∧ (0 : ℚ) ≤ percolating_soil.Ds ∧
      percolating_soil.Ds ≤ percolating_soil.Ws ∧ 0 < percolating_soil.Ws ∧
      percolating_soil.Ws < 1 ∧ 0 < percolating_soil.c ∧
      0 < percolating_soil.max_moist (frost_opts.Nlayer - 1) ∧
      0 ≤ (soaked_frozen_bottom_layer (frost_opts.Nlayer - 1)).moist ∧
      0 ≤ sublayer_of percolating_soil soaked_frozen_bottom_layer (frost_opts.Nlayer - 1) 2 ∧
      (∀ l, 0 ≤ (soaked_frozen_bottom_layer l).tdepth ∧
        (soaked_frozen_bottom_layer l).tdepth ≤ (soaked_frozen_bottom_layer l).fdepth ∧
        (soaked_frozen_bottom_layer l).fdepth ≤ percolating_soil.depth l) ∧
      ¬ has_negative soaked_frozen_bottom_layer frost_opts.Nlayer ∧
      (branch_env int_pow frost_opts percolating_soil soaked_frozen_bottom_layer 0 1).sublayer
        (frost_opts.Nlayer - 1) 2 = 0 ∧
      (time_loop int_pow
        (branch_env int_pow frost_opts percolating_soil soaked_frozen_bottom_layer 0 1)
        (1 : Int).toNat
        (branch_init int_pow frost_opts percolating_soil soaked_frozen_bottom_layer 0)).dt_outflow
        = 1 / 4 := by
  refine ⟨?_, ?_, ?_, ?_, ?_, ?_, ?_, ?_, ?_, ?_, ?_, ?_, ?_⟩
  · norm_num [percolating_soil, still_soil]
  · norm_num [percolating_soil, still_soil]
  · norm_num [percolating_soil, still_soil]
  · norm_num [percolating_soil, still_soil]
  · norm_num [percolating_soil, still_soil]
  · norm_num [percolating_soil, still_soil]
  · norm_num [percolating_soil, still_soil]
  · norm_num [soaked_frozen_bottom_layer, frost_opts]
  · norm_num [sublayer_of, percolating_soil, still_soil, soaked_frozen_bottom_layer, frost_opts]
  · intro l
    unfold soaked_frozen_bottom_layer
    split_ifs <;> norm_num [percolating_soil, still_soil]
  · rintro ⟨l, _, h⟩
    unfold soaked_frozen_bottom_layer at h
    split_ifs at h <;> norm_num at h
  · norm_num [branch_env, sublayer_of, soaked_frozen_bottom_layer, percolating_soil, still_soil,
      frost_opts]
  · have ht : ((1 : Int)).toNat = 1 := by decide
    rw [ht]
    norm_num [time_loop, time_step, cond_pass, advance_pass, advance_layer, advance_slot,
      advance_update, advance_moist, residual_floor, hand_down, cond_slot, writeback,
      branch_env, branch_init, frost_opts, percolating_soil, still_soil,
      soaked_frozen_bottom_layer, List.range_succ, set1, set2, sublayer_of, submoist_of,
      subice_of, submax_moist_of, resid_moist_of, surface_runoff, top_moist_of, top_moist_sum,
      top_max_moist_of, int_pow]
end VIC
